import Mathlib

/-!
Verification of the reactive core of `super-tiny-signal`.

The model below is a shallow embedding of the reactive runtime:

* `Signal` (src/core/signal.ts, class `Signal`, lines 10-94): a cell holding a
  value, an equality policy and a set of dependent nodes (`_effects`).
* `Computed` (src/core/computed.ts, class `Computed`, lines 146-321): a cell
  derived from other cells via a compute function, with a `dirty` flag, an
  `isComputing` guard, a cached `sources` set and a sync-tagged
  `markDirtyEffect` marker node.
* the scheduler and effect runner (`scheduleEffect`, `flushEffects`, `batch`,
  `effect`, `dispose`; src/core/effect.ts, lines 102-234 of the module with
  `MAX_FLUSH_ITERATIONS`).

Values are natural numbers.  User compute functions are embedded as `Expr`
(reads are tracked exactly as in the source), effect bodies as `Cmd`.  The
user-suppliable equality function (`Object.is` by default) is embedded as
`EqPolicy`; a throwing equality function is `EqPolicy.throwing`.

JavaScript exceptions do not roll back state, so every operation returns a
`Res` carrying the post-state both on normal and on exceptional exit.  All
recursion is fueled; `Res.nf` reports fuel exhaustion and is never caught by
any of the modelled `try`/`catch` sites, so an `ok`/`er` result corresponds to
a genuinely terminating run of the JavaScript code.

Ghost instrumentation (it changes no behaviour, it only records
observations): `errLog` counts `console.error` calls, `readLog` records the
values returned by reads performed by effect bodies, and `runCounts` counts
how many times each effect runner has been invoked.
-/

namespace STS

/-- Identity of a dependent node: either an ordinary effect runner created by
`effect()`, or the sync-tagged `markDirtyEffect` marker owned by the computed
cell with the given index. -/
inductive NodeId where
  | eff : Nat → NodeId
  | marker : Nat → NodeId
deriving DecidableEq, Repr

/-- The pluggable equality function of a cell.  `default` is `Object.is`
(`defaultEquals`), `throwing` is a user-supplied `equals` that throws. -/
inductive EqPolicy where
  | default
  | neverEq
  | throwing
deriving DecidableEq, Repr

/-- Run the equality function: `none` models a thrown exception; `neverEq`
is a user `equals` that always reports the values as different. -/
def EqPolicy.run : EqPolicy → Nat → Nat → Option Bool
  | .default, a, b => some (a == b)
  | .neverEq, _, _ => some false
  | .throwing, _, _ => none

/-- Embedded compute functions / right-hand sides of writes.  `readE` is a
tracked read of the cell with the given index; `throwE` models user code that
throws; `ifz c a b` evaluates `a` when `c` evaluates to zero, else `b`. -/
inductive Expr where
  | const : Nat → Expr
  | readE : Nat → Expr
  | add : Expr → Expr → Expr
  | mul : Expr → Expr → Expr
  | ifz : Expr → Expr → Expr → Expr
  | throwE : Expr
deriving DecidableEq, Repr

/-- Embedded effect bodies (and bodies of `batch`).  `readC` performs a
tracked read and records the observed value in the ghost `readLog`;
`writeS c e` evaluates `e` and writes the result to cell `c`; `batchC`
is a nested `batch(fn)` call; `throwC` models a throwing body. -/
inductive Cmd where
  | skip
  | readC : Nat → Cmd
  | writeS : Nat → Expr → Cmd
  | seq : Cmd → Cmd → Cmd
  | batchC : Cmd → Cmd
  | throwC : Cmd
deriving DecidableEq, Repr

/-- Whether the cell is a plain `Signal` or a `Computed` (with its compute
function and its `eager` option). -/
inductive CellKind where
  | sig
  | comp (computeFn : Expr) (eager : Bool)
deriving DecidableEq, Repr

/-- One reactive cell.  For a plain signal only `value`, `equals`, `effects`
are meaningful; a computed additionally owns `dirty`, `isComputing`,
`sources` (the cached dependency set from the last computation) and
`markerDeps` (the `dependencies` set of its `markDirtyEffect` node).
`effects` is the `_effects` set; JavaScript `Set`s are modelled as
insertion-ordered duplicate-free lists. -/
structure Cell where
  value : Nat
  equals : EqPolicy
  effects : List NodeId
  kind : CellKind
  dirty : Bool
  isComputing : Bool
  sources : List Nat
  markerDeps : List Nat
deriving DecidableEq, Repr

instance : Inhabited Cell :=
  ⟨{ value := 0, equals := .default, effects := [], kind := .sig,
     dirty := false, isComputing := false, sources := [], markerDeps := [] }⟩

/-- One effect runner created by `effect(fn)`: its body, its `disposed` flag
and its `dependencies` set (cells it is currently subscribed to). -/
structure EffectNode where
  body : Cmd
  disposed : Bool
  dependencies : List Nat
deriving DecidableEq, Repr

instance : Inhabited EffectNode :=
  ⟨{ body := .skip, disposed := false, dependencies := [] }⟩

/-- The whole runtime state: all cells, all effect runners, and the scheduler
state (`pendingEffects`, `isFlushing`, `batchDepth`, `activeEffects`), plus
ghost observation fields. -/
structure RState where
  cells : List Cell
  effs : List EffectNode
  pending : List NodeId
  isFlushing : Bool
  batchDepth : Nat
  active : List NodeId
  errLog : Nat
  readLog : List Nat
  runCounts : List Nat
deriving DecidableEq, Repr

/-- Insert into a JavaScript `Set` of nodes: no-op when already a member,
otherwise appended (insertion order). -/
def insertNode (l : List NodeId) (n : NodeId) : List NodeId :=
  if n ∈ l then l else l ++ [n]

/-- Insert into a JavaScript `Set` of cell indices. -/
def insertNat (l : List Nat) (c : Nat) : List Nat :=
  if c ∈ l then l else l ++ [c]

/-- `Set.delete`. -/
def eraseNode (l : List NodeId) (n : NodeId) : List NodeId :=
  l.filter (fun x => x ≠ n)

/-- `Set.delete` on cell indices. -/
def eraseNat (l : List Nat) (c : Nat) : List Nat :=
  l.filter (fun x => x ≠ c)

def getCell (s : RState) (c : Nat) : Cell := s.cells.getD c default

def setCell (s : RState) (c : Nat) (cl : Cell) : RState :=
  { s with cells := s.cells.set c cl }

def getEff (s : RState) (i : Nat) : EffectNode := s.effs.getD i default

def setEff (s : RState) (i : Nat) (e : EffectNode) : RState :=
  { s with effs := s.effs.set i e }

/-- `effect.disposed`: markers are created with `disposed = false` and are
never disposed. -/
def nodeDisposed (s : RState) : NodeId → Bool
  | .eff i => (getEff s i).disposed
  | .marker _ => false

/-- The duck-typed `sync` tag: set (to `true`) exactly on the
`markDirtyEffect` markers of computed cells. -/
def nodeSync : NodeId → Bool
  | .eff _ => false
  | .marker _ => true

/-- The node's `dependencies` set. -/
def nodeDeps (s : RState) : NodeId → List Nat
  | .eff i => (getEff s i).dependencies
  | .marker c => (getCell s c).markerDeps

def setNodeDeps (s : RState) : NodeId → List Nat → RState
  | .eff i, d => setEff s i { getEff s i with dependencies := d }
  | .marker c, d => setCell s c { getCell s c with markerDeps := d }

/-- `Signal.addEffect` (src/core/signal.ts lines 78-85): add the node to the
cell's `_effects` and the cell to the node's `dependencies`.  The computed
getter's inline registration (computed.ts lines 262-268) performs the same
two insertions. -/
def addEffect (s : RState) (c : Nat) (n : NodeId) : RState :=
  let s1 := setCell s c { getCell s c with effects := insertNode (getCell s c).effects n }
  setNodeDeps s1 n (insertNat (nodeDeps s1 n) c)

/-- `Signal.removeEffect` (src/core/signal.ts lines 90-93): delete the node
from the cell's `_effects` and the cell from the node's `dependencies`. -/
def removeEffect (s : RState) (c : Nat) (n : NodeId) : RState :=
  let s1 := setCell s c { getCell s c with effects := eraseNode (getCell s c).effects n }
  setNodeDeps s1 n (eraseNat (nodeDeps s1 n) c)

/-- The constant `MAX_FLUSH_ITERATIONS` of src/core/effect.ts. -/
def MAX_FLUSH_ITERATIONS : Nat := 100

/-- `scheduleEffect(fn)` (src/core/effect.ts lines 120-127): no-op when the
node is disposed; otherwise insert it into `pendingEffects` and, outside a
batch and when not already flushing, set `isFlushing` and queue a microtask
running `flushEffects` (the queued flush itself is modelled by the explicit
`flushEffects` calls of the scenarios). -/
def scheduleEffect (s : RState) (n : NodeId) : RState :=
  if nodeDisposed s n then s
  else
    let s1 := { s with pending := insertNode s.pending n }
    if s1.batchDepth = 0 && !s1.isFlushing then { s1 with isFlushing := true } else s1

/-- Increment the ghost run counter of effect `i`. -/
def bumpCount (l : List Nat) (i : Nat) : List Nat := l.set i (l.getD i 0 + 1)

/-- The dependency-cleanup loop shared by the effect runner (effect.ts lines
196-202): unlink the node from every cell in its `dependencies`, then clear
the set.  (`removeEffect` already deletes each visited cell from the set, so
the final clear matches the source's `dependencies.clear()`.) -/
def cleanupDeps (s : RState) (n : NodeId) : RState :=
  let s1 := (nodeDeps s n).foldl (fun st c => removeEffect st c n) s
  setNodeDeps s1 n []

/-- The notification loop of `Computed.recompute` (computed.ts lines 231-239)
over the `Array.from(this._effects)` snapshot: disposed dependents are
unlinked, every other dependent except the computed's own marker is handed to
`scheduleEffect` (note: handed to the scheduler even when it is sync-tagged). -/
def recomputeNotify (s : RState) (c : Nat) : List NodeId → RState
  | [] => s
  | e :: rest =>
    if nodeDisposed s e then recomputeNotify (removeEffect s c e) c rest
    else if e = NodeId.marker c then recomputeNotify s c rest
    else recomputeNotify (scheduleEffect s e) c rest

/-- Unlink the computed's marker from every cell in its cached `sources`
(the loop at computed.ts lines 217-219). -/
def removeSources (s : RState) (c : Nat) : RState :=
  (getCell s c).sources.foldl (fun st src => removeEffect st src (NodeId.marker c)) s

/-- `for (const dep of deps) this.sources.add(dep)` (computed.ts 244-248). -/
def copyAll (dst : List Nat) (src : List Nat) : List Nat := src.foldl insertNat dst

/-- The compute function of a cell; `recompute` is only ever invoked on
computed cells, the `sig` branch is dead. -/
def cellExpr (cl : Cell) : Expr :=
  match cl.kind with
  | .comp e _ => e
  | .sig => .const 0

/-- The `eager` option of a cell (`false` on the dead `sig` branch). -/
def cellEager (cl : Cell) : Bool :=
  match cl.kind with
  | .comp _ e => e
  | .sig => false

/-- The `finally` tail of `recompute` (computed.ts lines 249-252): pop the
marker off the active stack and clear `isComputing`. -/
def finishRecompute (s : RState) (c : Nat) : RState :=
  let s1 := { s with active := s.active.dropLast }
  setCell s1 c { getCell s1 c with isComputing := false }

/-- Errors that JavaScript code can throw in the model. -/
inductive RErr where
  | eqThrow
  | userThrow
  | readOnly
  | overrun (ceiling remaining : Nat)
deriving DecidableEq, Repr

/-- Result of running modelled code: normal return, thrown exception (the
post-state is carried in both cases, JavaScript exceptions do not roll back
state), or fuel exhaustion. -/
inductive Res (α : Type) where
  | ok : α → RState → Res α
  | er : RErr → RState → Res α
  | nf : Res α
deriving DecidableEq, Repr

/-- `console.error(...)`: bump the ghost error log. -/
def logError (s : RState) : RState := { s with errLog := s.errLog + 1 }

/-- `pendingEffects.clear()`. -/
def clearPending (s : RState) : RState := { s with pending := [] }

/-- `activeEffects.push(n)`. -/
def pushActive (s : RState) (n : NodeId) : RState := { s with active := s.active ++ [n] }

/-- `activeEffects.pop()`. -/
def popActive (s : RState) : RState := { s with active := s.active.dropLast }

/-- `isFlushing = false` (the `finally` of `flushEffects`). -/
def stopFlushing (s : RState) : RState := { s with isFlushing := false }

/-- Ghost observation of a value read by an effect body. -/
def appendRead (s : RState) (v : Nat) : RState := { s with readLog := s.readLog ++ [v] }

/-- `batchDepth++`. -/
def enterBatch (s : RState) : RState := { s with batchDepth := s.batchDepth + 1 }

/-- `batchDepth--`. -/
def exitBatch (s : RState) : RState := { s with batchDepth := s.batchDepth - 1 }

/-- The dependency registration performed by a tracked read (signal getter
lines 23-27, computed getter lines 262-268): if `activeEffects` is non-empty,
link its top node with the cell on both sides. -/
def trackRead (s : RState) (c : Nat) : RState :=
  match s.active.getLast? with
  | some n => addEffect s c n
  | none => s

/-- The prologue of `Computed.recompute` (computed.ts lines 213-224): set
`isComputing`, unlink the marker from the cached `sources`, clear `sources`
and the marker's `dependencies`, push the marker onto `activeEffects`. -/
def recomputeBegin (s : RState) (c : Nat) : RState :=
  let s1 := setCell s c { getCell s c with isComputing := true }
  let s2 := removeSources s1 c
  let s3 := setCell s2 c { getCell s2 c with sources := [], markerDeps := [] }
  pushActive s3 (NodeId.marker c)

/-- `hasChanged = this.dirty || !this.equals(this._value, newValue)`
(computed.ts line 228); short-circuit: `equals` does not run while dirty;
`none` models a throwing `equals`. -/
def hasChangedCheck (cl : Cell) (newV : Nat) : Option Bool :=
  if cl.dirty then some true
  else (cl.equals.run cl.value newV).map (fun b => !b)

/-- The tail of a successful `recompute` (computed.ts lines 229-248): when
changed, store the value and notify the snapshot of dependents; clear
`dirty`; copy the marker's freshly collected dependencies into `sources`;
then the `finally` (pop the marker, clear `isComputing`). -/
def recomputeFinish (s5 : RState) (c : Nat) (newV : Nat) (hasChanged : Bool) : RState :=
  let s6 :=
    if hasChanged then
      recomputeNotify (setCell s5 c { getCell s5 c with value := newV }) c
        (getCell (setCell s5 c { getCell s5 c with value := newV }) c).effects
    else s5
  let s7 := setCell s6 c { getCell s6 c with dirty := false }
  let s8 := setCell s7 c
    { getCell s7 c with
      sources := copyAll (getCell s7 c).sources (getCell s7 c).markerDeps }
  finishRecompute s8 c

/-- The prologue of `effectRunner` (effect.ts lines 196-203): bump the ghost
run counter, unlink all previous dependencies, push the runner onto
`activeEffects`. -/
def runEffectBegin (s : RState) (i : Nat) : RState :=
  let s0 := { s with runCounts := bumpCount s.runCounts i }
  let s1 := cleanupDeps s0 (NodeId.eff i)
  pushActive s1 (NodeId.eff i)

mutual

/-- Evaluate an embedded compute function / write expression.  Reads are
tracked reads of cells (`readCell`).  Evaluation is left-to-right, as in
JavaScript. -/
def evalExpr : Nat → RState → Expr → Res Nat
  | 0, _, _ => .nf
  | f + 1, s, e =>
    match e with
    | .const n => .ok n s
    | .readE c => readCell f s c
    | .add a b =>
      match evalExpr f s a with
      | .ok va s1 =>
        match evalExpr f s1 b with
        | .ok vb s2 => .ok (va + vb) s2
        | .er e2 s2 => .er e2 s2
        | .nf => .nf
      | .er e1 s1 => .er e1 s1
      | .nf => .nf
    | .mul a b =>
      match evalExpr f s a with
      | .ok va s1 =>
        match evalExpr f s1 b with
        | .ok vb s2 => .ok (va * vb) s2
        | .er e2 s2 => .er e2 s2
        | .nf => .nf
      | .er e1 s1 => .er e1 s1
      | .nf => .nf
    | .ifz c a b =>
      match evalExpr f s c with
      | .ok vc s1 => if vc = 0 then evalExpr f s1 a else evalExpr f s1 b
      | .er e1 s1 => .er e1 s1
      | .nf => .nf
    | .throwE => .er .userThrow s

/-- A tracked read.  For a plain signal this is the `value` getter of
src/core/signal.ts lines 23-29: register the node on top of `activeEffects`
(if any) via `addEffect`, then return the stored value.  For a computed this
is the `value` getter of src/core/computed.ts lines 258-270: recompute first
when `dirty` (an exception from the recomputation propagates to the reader),
then register the top active node on both sides, then return the cached
value. -/
def readCell : Nat → RState → Nat → Res Nat
  | 0, _, _ => .nf
  | f + 1, s, c =>
    match (getCell s c).kind with
    | .sig => .ok (getCell (trackRead s c) c).value (trackRead s c)
    | .comp _ _ =>
      if (getCell s c).dirty then
        match recompute f s c with
        | .ok _ s' => .ok (getCell (trackRead s' c) c).value (trackRead s' c)
        | .er e s' => .er e s'
        | .nf => .nf
      else .ok (getCell (trackRead s c) c).value (trackRead s c)

/-- A write.  For a computed cell this is the overriding `value` setter of
src/core/computed.ts lines 275-277: it throws "Cannot set value of a computed
signal" before touching any state.  For a plain signal this is the `value`
setter of src/core/signal.ts lines 34-59: the user-supplied `equals` runs
first (a throw aborts the write with no mutation); when the values differ the
new value is stored and the `Array.from(this._effects)` snapshot is walked by
`writeNotify`. -/
def writeCell : Nat → RState → Nat → Nat → Res Unit
  | 0, _, _, _ => .nf
  | f + 1, s, c, v =>
    match (getCell s c).kind with
    | .comp _ _ => .er .readOnly s
    | .sig =>
      match (getCell s c).equals.run (getCell s c).value v with
      | none => .er .eqThrow s
      | some true => .ok () s
      | some false =>
        let s1 := setCell s c { getCell s c with value := v }
        writeNotify f s1 c (getCell s1 c).effects

/-- The dependent-walk of the signal setter (src/core/signal.ts lines 38-57)
over the snapshot: disposed nodes are unlinked; sync-tagged nodes (computed
markers) are invoked inline inside a `try`/`catch` that logs; ordinary
effects are handed to `scheduleEffect`. -/
def writeNotify : Nat → RState → Nat → List NodeId → Res Unit
  | 0, _, _, _ => .nf
  | _ + 1, s, _, [] => .ok () s
  | f + 1, s, c, e :: rest =>
    if nodeDisposed s e then writeNotify f (removeEffect s c e) c rest
    else
      match e with
      | .marker m =>
        match markDirty f s m with
        | .ok _ s' => writeNotify f s' c rest
        | .er _ s' => writeNotify f (logError s') c rest
        | .nf => .nf
      | .eff _ => writeNotify f (scheduleEffect s e) c rest

/-- The `markDirtyEffect` marker of computed cell `c` (src/core/computed.ts
lines 168-197): a no-op when already dirty; otherwise set `dirty`, recompute
immediately when `eager` (and not already computing; an exception from that
recomputation propagates out of the marker), then walk `this._effects`:
downstream sync markers are invoked inline (`try`/`catch` logging), ordinary
effects are scheduled. -/
def markDirty : Nat → RState → Nat → Res Unit
  | 0, _, _ => .nf
  | f + 1, s, c =>
    if (getCell s c).dirty then .ok () s
    else
      let s1 := setCell s c { getCell s c with dirty := true }
      if cellEager (getCell s1 c) && !(getCell s1 c).isComputing then
        match recompute f s1 c with
        | .ok _ s2 => markDirtyLoop f s2 c []
        | .er e s2 => .er e s2
        | .nf => .nf
      else markDirtyLoop f s1 c []

/-- The `for (const eff of this._effects)` loop of `markDirtyEffect`.  It
iterates the live `Set`, modelled as repeatedly taking the first
not-yet-visited member in insertion order.  The computed's own marker is
skipped. -/
def markDirtyLoop : Nat → RState → Nat → List NodeId → Res Unit
  | 0, _, _, _ => .nf
  | f + 1, s, c, visited =>
    match ((getCell s c).effects.filter (fun e => e ∉ visited)).head? with
    | none => .ok () s
    | some e =>
      if e = NodeId.marker c then markDirtyLoop f s c (visited ++ [e])
      else
        match e with
        | .marker m =>
          match markDirty f s m with
          | .ok _ s' => markDirtyLoop f s' c (visited ++ [e])
          | .er _ s' => markDirtyLoop f (logError s') c (visited ++ [e])
          | .nf => .nf
        | .eff _ => markDirtyLoop f (scheduleEffect s e) c (visited ++ [e])

/-- `Computed.recompute` (src/core/computed.ts lines 212-253).  Guarded by
`isComputing`; unlinks the marker from the cached `sources` and clears both
`sources` and the marker's `dependencies`; pushes the marker onto
`activeEffects`; runs the compute function (nothing is caught here — errors
leave through the `finally`); compares via `hasChanged = dirty || !equals(..)`
(short-circuit: `equals` does not run while `dirty`); when changed, stores the
value and notifies the snapshot of dependents; clears `dirty`; copies the
marker's freshly collected dependencies into `sources`; finally pops the
marker and clears `isComputing`. -/
def recompute : Nat → RState → Nat → Res Unit
  | 0, _, _ => .nf
  | f + 1, s, c =>
    if (getCell s c).isComputing then .ok () s
    else
      match evalExpr f (recomputeBegin s c) (cellExpr (getCell (recomputeBegin s c) c)) with
      | .er e s5 => .er e (finishRecompute s5 c)
      | .nf => .nf
      | .ok newV s5 =>
        match hasChangedCheck (getCell s5 c) newV with
        | none => .er .eqThrow (finishRecompute s5 c)
        | some hasChanged => .ok () (recomputeFinish s5 c newV hasChanged)

/-- The effect runner `effectRunner` (src/core/effect.ts lines 195-209):
unlink all previous dependencies, push itself onto `activeEffects`, run the
user body (nothing caught — a throw leaves through the `finally`), pop.  The
ghost run counter is bumped on every invocation. -/
def runEffect : Nat → RState → Nat → Res Unit
  | 0, _, _ => .nf
  | f + 1, s, i =>
    match runCmd f (runEffectBegin s i) (getEff (runEffectBegin s i) i).body with
    | .ok _ s3 => .ok () (popActive s3)
    | .er e s3 => .er e (popActive s3)
    | .nf => .nf

/-- Invoke a node as a bare function call `effect()`: an ordinary node runs
its effect runner, a marker runs `markDirtyEffect`. -/
def runNode : Nat → RState → NodeId → Res Unit
  | 0, _, _ => .nf
  | f + 1, s, n =>
    match n with
    | .eff i => runEffect f s i
    | .marker c => markDirty f s c

/-- The `while (pendingEffects.size > 0)` loop of `flushEffects`
(src/core/effect.ts lines 139-167) with its iteration counter: past
`MAX_FLUSH_ITERATIONS` iterations the remaining pending set is cleared and an
error reporting the ceiling and the remaining count is thrown; otherwise the
pending set is snapshotted, cleared and run. -/
def flushLoop : Nat → RState → Nat → Res Unit
  | 0, _, _ => .nf
  | f + 1, s, iters =>
    if s.pending.isEmpty then .ok () s
    else
      if iters + 1 > MAX_FLUSH_ITERATIONS then
        .er (.overrun MAX_FLUSH_ITERATIONS s.pending.length) (clearPending s)
      else
        match flushRun f (clearPending s) s.pending with
        | .ok _ s2 => flushLoop f s2 (iters + 1)
        | .er e s2 => .er e s2
        | .nf => .nf

/-- The inner `for (const effect of effects)` loop of `flushEffects`:
disposed nodes are skipped, every other node is invoked inside a
`try`/`catch` that logs the error and continues with the next node. -/
def flushRun : Nat → RState → List NodeId → Res Unit
  | 0, _, _ => .nf
  | _ + 1, s, [] => .ok () s
  | f + 1, s, e :: rest =>
    if nodeDisposed s e then flushRun f s rest
    else
      match runNode f s e with
      | .ok _ s' => flushRun f s' rest
      | .er _ s' => flushRun f (logError s') rest
      | .nf => .nf

/-- `flushEffects()` (src/core/effect.ts lines 137-172).  The body runs in a
microtask and its outcome is delivered through the returned promise; the
model runs the body at the point of the call.  The `finally` clears
`isFlushing` on both exits. -/
def flushEffects : Nat → RState → Res Unit
  | 0, _ => .nf
  | f + 1, s =>
    match flushLoop f s 0 with
    | .ok _ s' => .ok () (stopFlushing s')
    | .er e s' => .er e (stopFlushing s')
    | .nf => .nf

/-- Run an embedded effect / batch body.  `batchC` is `batch(fn)`
(src/core/effect.ts lines 177-185): increment `batchDepth`, run the body,
decrement in a `finally` and, back at depth zero, call `flushEffects` — whose
returned promise `batch` does not await, so a rejected flush does not change
`batch`'s own outcome (its state is still applied; a body exception is
re-thrown after the `finally`). -/
def runCmd : Nat → RState → Cmd → Res Unit
  | 0, _, _ => .nf
  | f + 1, s, cmd =>
    match cmd with
    | .skip => .ok () s
    | .seq a b =>
      match runCmd f s a with
      | .ok _ s1 => runCmd f s1 b
      | .er e s1 => .er e s1
      | .nf => .nf
    | .throwC => .er .userThrow s
    | .readC c =>
      match readCell f s c with
      | .ok v s1 => .ok () (appendRead s1 v)
      | .er e s1 => .er e s1
      | .nf => .nf
    | .writeS c e =>
      match evalExpr f s e with
      | .ok v s1 => writeCell f s1 c v
      | .er e1 s1 => .er e1 s1
      | .nf => .nf
    | .batchC body =>
      match runCmd f (enterBatch s) body with
      | .ok _ s2 =>
        if (exitBatch s2).batchDepth = 0 then
          match flushEffects f (exitBatch s2) with
          | .ok _ s4 => .ok () s4
          | .er _ s4 => .ok () s4
          | .nf => .nf
        else .ok () (exitBatch s2)
      | .er e s2 =>
        if (exitBatch s2).batchDepth = 0 then
          match flushEffects f (exitBatch s2) with
          | .ok _ s4 => .er e s4
          | .er _ s4 => .er e s4
          | .nf => .nf
        else .er e (exitBatch s2)
      | .nf => .nf

end

/-- `effect(fn)` (src/core/effect.ts lines 194-217, without the optional DOM
scope): create the runner with `disposed = false` and an empty dependency
set, then run it once synchronously.  The initial run is not wrapped in any
`try`/`catch`, so an exception from the body propagates to the caller of
`effect`.  Returns the new node's index. -/
def registerEffect (fuel : Nat) (s : RState) (body : Cmd) : Res Nat :=
  let i := s.effs.length
  let s1 := { s with
    effs := s.effs ++ [{ body := body, disposed := false, dependencies := [] }],
    runCounts := s.runCounts ++ [0] }
  match runEffect fuel s1 i with
  | .ok _ s2 => .ok i s2
  | .er e s2 => .er e s2
  | .nf => .nf

/-- The `dispose` closure returned by `effect(fn)` (src/core/effect.ts lines
219-226): set `disposed`, then unlink the node from every cell in its
`dependencies` (each `removeEffect` also deletes the cell from the set, so
the set ends up empty). -/
def disposeEffect (s : RState) (i : Nat) : RState :=
  let s1 := setEff s i { getEff s i with disposed := true }
  (nodeDeps s1 (NodeId.eff i)).foldl (fun st c => removeEffect st c (NodeId.eff i)) s1

/-- `batch(fn)` invoked from the outside. -/
def batchOp (fuel : Nat) (s : RState) (body : Cmd) : Res Unit :=
  runCmd (fuel + 1) s (.batchC body)

/-- The operations of the public surface, used to state trace invariants:
writes, untracked top-level reads, effect registration, disposal,
`signal.addEffect` / `signal.removeEffect`, `batch` and `flushEffects`. -/
inductive Op where
  | write (c v : Nat)
  | readTop (c : Nat)
  | register (body : Cmd)
  | dispose (i : Nat)
  | addEff (c i : Nat)
  | removeEff (c i : Nat)
  | batch (body : Cmd)
  | flush
deriving DecidableEq, Repr

/-- Run one public operation (discarding returned values). -/
def runOp (fuel : Nat) (s : RState) : Op → Res Unit
  | .write c v => writeCell fuel s c v
  | .readTop c =>
    match readCell fuel s c with
    | .ok _ s' => .ok () s'
    | .er e s' => .er e s'
    | .nf => .nf
  | .register b =>
    match registerEffect fuel s b with
    | .ok _ s' => .ok () s'
    | .er e s' => .er e s'
    | .nf => .nf
  | .dispose i => .ok () (disposeEffect s i)
  | .addEff c i => .ok () (addEffect s c (NodeId.eff i))
  | .removeEff c i => .ok () (removeEffect s c (NodeId.eff i))
  | .batch b => batchOp fuel s b
  | .flush => flushEffects fuel s

/-- Run a sequence of public operations; exceptions thrown by one operation
reach its caller, who continues with the next operation (state carried
through both exits). -/
def runOps (fuel : Nat) (s : RState) : List Op → Res Unit
  | [] => .ok () s
  | op :: rest =>
    match runOp fuel s op with
    | .ok _ s' => runOps fuel s' rest
    | .er _ s' => runOps fuel s' rest
    | .nf => .nf

/-- The setter installed on the callable wrapper returned by `computed()`
(`createComputedSignal`, src/core/computed.ts lines 294-303): it throws
"Cannot set value of a computed signal" unconditionally, before touching
anything. -/
def wrapperSetComputed (s : RState) (_v : Nat) : Res Unit := .er .readOnly s

/-! Scenario-building shorthands. -/

/-- A fresh plain signal cell. -/
def mkSig (v : Nat) : Cell :=
  { value := v, equals := .default, effects := [], kind := .sig,
    dirty := false, isComputing := false, sources := [], markerDeps := [] }

/-- A fresh lazy computed cell (dummy initial value, dirty). -/
def mkComp (e : Expr) : Cell :=
  { value := 0, equals := .default, effects := [], kind := .comp e false,
    dirty := true, isComputing := false, sources := [], markerDeps := [] }

/-- A runtime state holding the given cells and nothing else. -/
def mkState (cs : List Cell) : RState :=
  { cells := cs, effs := [], pending := [], isFlushing := false,
    batchDepth := 0, active := [], errLog := 0, readLog := [], runCounts := [] }

/-- Extract the carried state of a result (with a fallback for `nf`). -/
def resState (d : RState) : Res Unit → RState
  | .ok _ s => s
  | .er _ s => s
  | .nf => d

/-- Extract the carried state of a `Res Nat`. -/
def resStateN (d : RState) : Res Nat → RState
  | .ok _ s => s
  | .er _ s => s
  | .nf => d

/-!  ### C8: writing a Computed always throws, mutating nothing  -/

/-- **C8.**  Every attempt to write a value to a Computed — through the
`value` setter on the computed object (`Computed.set value`) or on its
callable wrapper (`createComputedSignal`) — throws a synchronous
"cannot set a derived value" error at the call site and mutates no state:
the post-state carried by the thrown error is exactly the pre-state, so the
cached value, the dirty flag and all dependency edges are unchanged. -/
theorem C8_computed_write_readonly (fuel : Nat) (s : RState) (c v : Nat)
    (e : Expr) (eg : Bool) (hk : (getCell s c).kind = .comp e eg) :
    writeCell (fuel + 1) s c v = .er .readOnly s ∧
    wrapperSetComputed s v = .er .readOnly s := by
  constructor
  · simp [writeCell, hk]
  · rfl

/-- A computed cell over nothing, for the C8 witness. -/
def c8state : RState := mkState [mkComp (.const 3)]

theorem C8_computed_write_readonly_witness :
    writeCell 1 c8state 0 5 = .er .readOnly c8state ∧
    wrapperSetComputed c8state 5 = .er .readOnly c8state :=
  C8_computed_write_readonly 0 c8state 0 5 (.const 3) false rfl

/-!  ### C3: a throwing `equals` aborts the write before any mutation  -/

/-- **C3.**  On a write to a plain signal cell, the user-supplied `equals`
function runs before any mutation: when it throws, the exception propagates
to the caller of the write and the post-state carried by the exception is
exactly the pre-state — the stored value, every cell's dependents set and
the scheduler's pending queue are untouched, and nothing is scheduled. -/
theorem C3_equals_throw_aborts_write (fuel : Nat) (s : RState) (c v : Nat)
    (hk : (getCell s c).kind = .sig)
    (he : (getCell s c).equals = .throwing) :
    writeCell (fuel + 1) s c v = .er .eqThrow s := by
  simp [writeCell, hk, he, EqPolicy.run]

/-- A signal with a throwing equality function, for the C3 witness. -/
def c3state : RState := mkState [{ mkSig 4 with equals := .throwing }]

theorem C3_equals_throw_aborts_write_witness :
    writeCell 1 c3state 0 9 = .er .eqThrow c3state :=
  C3_equals_throw_aborts_write 0 c3state 0 9 rfl rfl

/-!  ### C2: the flush iteration ceiling  -/

/-- The inner loop of `flushEffects` catches every exception a node throws
and continues, so it never ends in a thrown error itself. -/
theorem flushRun_not_er (f : Nat) :
    ∀ (s : RState) (l : List NodeId) (e : RErr) (s' : RState),
      flushRun f s l ≠ .er e s' := by
  induction f with
  | zero => intro s l e s'; simp [flushRun]
  | succ f ih =>
    intro s l e s'
    match l with
    | [] => simp [flushRun]
    | x :: rest =>
      simp only [flushRun]
      split
      · exact ih _ _ _ _
      · cases h : runNode f s x with
        | ok u s1 => exact ih _ _ _ _
        | er e1 s1 => exact ih _ _ _ _
        | nf => simp

/-- A flush loop that returns normally has drained the pending set. -/
theorem flushLoop_ok_drains (f : Nat) :
    ∀ (s : RState) (iters : Nat) (u : Unit) (s' : RState),
      flushLoop f s iters = .ok u s' → s'.pending = [] := by
  induction f with
  | zero => intro s iters u s' h; simp [flushLoop] at h
  | succ f ih =>
    intro s iters u s' h
    simp only [flushLoop] at h
    split at h
    case isTrue hpe => cases h; exact List.isEmpty_iff.mp hpe
    case isFalse hpe =>
      split at h
      case isTrue hit => cases h
      case isFalse hit =>
        cases hr : flushRun f (clearPending s) s.pending with
        | ok u1 s1 => rw [hr] at h; exact ih _ _ _ _ h
        | er e1 s1 => exact absurd hr (flushRun_not_er f _ _ _ _)
        | nf => rw [hr] at h; cases h

/-- The only exception a flush loop can end in is the overrun error, which
reports the `MAX_FLUSH_ITERATIONS` ceiling together with the positive number
of effects that were still pending, and clears the pending set. -/
theorem flushLoop_er_overrun (f : Nat) :
    ∀ (s : RState) (iters : Nat) (e : RErr) (s' : RState),
      flushLoop f s iters = .er e s' →
      ∃ r, e = .overrun MAX_FLUSH_ITERATIONS r ∧ 0 < r ∧ s'.pending = [] := by
  induction f with
  | zero => intro s iters e s' h; simp [flushLoop] at h
  | succ f ih =>
    intro s iters e s' h
    simp only [flushLoop] at h
    split at h
    case isTrue hpe => cases h
    case isFalse hpe =>
      split at h
      case isTrue hit =>
        cases h
        refine ⟨s.pending.length, rfl, ?_, rfl⟩
        have hne : s.pending ≠ [] := by
          intro hnil
          simp [hnil] at hpe
        exact List.length_pos.mpr hne
      case isFalse hit =>
        cases hr : flushRun f (clearPending s) s.pending with
        | ok u1 s1 => rw [hr] at h; exact ih _ _ _ _ h
        | er e1 s1 => exact absurd hr (flushRun_not_er f _ _ _ _)
        | nf => rw [hr] at h; cases h

/-- **C2.**  For every call to `flushEffects`: when the flush finishes
normally (stays under the 100-iteration ceiling) the pending set is
completely drained; and when it raises, the raised error — delivered through
the returned (modelled) result, i.e. to whoever awaits the returned promise —
is precisely the fatal overrun error carrying the configured ceiling
`MAX_FLUSH_ITERATIONS = 100` and the positive count of effects that were
still pending, and all remaining pending effects have been cleared. -/
theorem C2_flush_iteration_ceiling (fuel : Nat) (s : RState) :
    (∀ (u : Unit) (s' : RState),
      flushEffects fuel s = .ok u s' → s'.pending = []) ∧
    (∀ (e : RErr) (s' : RState),
      flushEffects fuel s = .er e s' →
      ∃ r, e = .overrun MAX_FLUSH_ITERATIONS r ∧ 0 < r ∧ s'.pending = []) := by
  constructor
  · intro u s' h
    match fuel with
    | 0 => simp [flushEffects] at h
    | f + 1 =>
      simp only [flushEffects] at h
      cases hl : flushLoop f s 0 with
      | ok u1 s1 =>
        rw [hl] at h
        obtain ⟨-, hs⟩ := Res.ok.inj h
        have := flushLoop_ok_drains f s 0 u1 s1 hl
        rw [← hs]
        exact this
      | er e1 s1 => rw [hl] at h; cases h
      | nf => rw [hl] at h; cases h
  · intro e s' h
    match fuel with
    | 0 => simp [flushEffects] at h
    | f + 1 =>
      simp only [flushEffects] at h
      cases hl : flushLoop f s 0 with
      | ok u1 s1 => rw [hl] at h; cases h
      | er e1 s1 =>
        rw [hl] at h
        obtain ⟨he, hs⟩ := Res.er.inj h
        obtain ⟨r, h1, h2, h3⟩ := flushLoop_er_overrun f s 0 e1 s1 hl
        refine ⟨r, he ▸ h1, h2, ?_⟩
        rw [← hs]
        exact h3
      | nf => rw [hl] at h; cases h

/-- The C2 witness scenario: one signal (with a user `equals` that always
reports a change) and one effect that rewrites that signal from its own body
with no termination condition, so every run reschedules the effect. -/
def selfResched : Cmd := .writeS 0 (.mul (.readE 0) (.const 0))

/-- The scenario state after `r` runs of the self-rescheduling effect: the
effect is subscribed to the signal and pending again. -/
def c2state (r : Nat) : RState :=
  { cells := [{ value := 0, equals := .neverEq, effects := [.eff 0], kind := .sig,
                dirty := false, isComputing := false, sources := [], markerDeps := [] }],
    effs := [{ body := selfResched, disposed := false, dependencies := [0] }],
    pending := [.eff 0], isFlushing := true, batchDepth := 0,
    active := [], errLog := 0, readLog := [], runCounts := [r] }

/-- Registering the self-rescheduling effect runs it once and leaves it
pending. -/
theorem c2_register :
    registerEffect 20 (mkState [{ mkSig 0 with equals := .neverEq }]) selfResched
      = .ok 0 (c2state 1) := by
  decide

/-- One flush pass over the snapshot `[eff 0]` of the self-rescheduling
scenario reruns the effect and leaves it pending again. -/
theorem c2_flushRun_step (r f : Nat) :
    flushRun (f + 12) (clearPending (c2state r)) [.eff 0] = .ok () (c2state (r + 1)) :=
  rfl

/-- The self-rescheduling scenario drives `flushLoop` into the overrun error:
the loop spins until the iteration counter passes the ceiling and throws,
clearing the pending set. -/
theorem c2_flushLoop_overrun (m : Nat) :
    ∀ (r iters f : Nat), iters + m = MAX_FLUSH_ITERATIONS →
      14 * (m + 1) ≤ f →
      flushLoop f (c2state r) iters =
        .er (.overrun MAX_FLUSH_ITERATIONS 1) (clearPending (c2state (r + m))) := by
  induction m with
  | zero =>
    intro r iters f hiters hf
    match f, hf with
    | f + 1, _ =>
      have hgt : iters + 1 > MAX_FLUSH_ITERATIONS := by omega
      simp only [flushLoop]
      rw [if_neg (by simp [c2state]), if_pos hgt]
      simp [c2state, clearPending]
  | succ m ih =>
    intro r iters f hiters hf
    match f, hf with
    | f + 1, hf =>
      have hle : ¬ (iters + 1 > MAX_FLUSH_ITERATIONS) := by
        simp only [MAX_FLUSH_ITERATIONS] at hiters ⊢; omega
      simp only [flushLoop]
      rw [if_neg (by simp [c2state]), if_neg hle]
      have hpend : (c2state r).pending = [.eff 0] := rfl
      rw [hpend]
      have hstep := c2_flushRun_step r (f - 12)
      have hf12 : f - 12 + 12 = f := by omega
      rw [hf12] at hstep
      rw [hstep]
      show flushLoop f (c2state (r + 1)) (iters + 1) = _
      rw [ih (r + 1) (iters + 1) f (by omega) (by omega)]
      have harith : r + 1 + m = r + (m + 1) := by omega
      rw [harith]

/-- **C2 witness.**  The concrete self-rescheduling effect of the spec's
scenario: the flush raises the overrun error reporting the ceiling 100 and
the single still-pending effect, with the pending set cleared. -/
theorem C2_flush_iteration_ceiling_witness :
    flushEffects 1500 (c2state 1) =
      .er (.overrun MAX_FLUSH_ITERATIONS 1)
        (stopFlushing (clearPending (c2state 101))) ∧
    (stopFlushing (clearPending (c2state 101))).pending = [] := by
  have hloop := c2_flushLoop_overrun MAX_FLUSH_ITERATIONS 1 0 1499 (by simp) (by decide)
  have hflush : flushEffects 1500 (c2state 1) =
      .er (.overrun MAX_FLUSH_ITERATIONS 1)
        (stopFlushing (clearPending (c2state 101))) := by
    simp only [flushEffects]
    rw [hloop]
    rfl
  refine ⟨hflush, ?_⟩
  rcases (C2_flush_iteration_ceiling 1500 (c2state 1)).2 _ _ hflush with ⟨r, _, _, hp⟩
  exact hp

/-!  ### Shape preservation

No function of the reactive core ever changes the number of cells, an
effect's body, or an effect's `disposed` flag — only `effect()` registration
and `dispose()` (both outside the mutual block) touch those.  This is proved
once by a fuel induction over the whole interpreter.  -/

/-- The bodies and `disposed` flags of all effect runners. -/
def effSig (s : RState) : List (Cmd × Bool) := s.effs.map (fun e => (e.body, e.disposed))

/-- `s'` has the same cell count and the same effect bodies/disposed flags
as `s`. -/
def Pres (s s' : RState) : Prop :=
  s'.cells.length = s.cells.length ∧ effSig s' = effSig s

theorem presRefl (s : RState) : Pres s s := ⟨rfl, rfl⟩

theorem presTrans {s t u : RState} (h1 : Pres s t) (h2 : Pres t u) : Pres s u :=
  ⟨h2.1.trans h1.1, h2.2.trans h1.2⟩

/-- Result-level preservation (vacuous on fuel exhaustion). -/
def ResPres {α : Type} (s : RState) : Res α → Prop
  | .ok _ s' => Pres s s'
  | .er _ s' => Pres s s'
  | .nf => True

theorem effSig_set (l : List EffectNode) (i : Nat) (e : EffectNode)
    (hb : e.body = (l.getD i default).body)
    (hd : e.disposed = (l.getD i default).disposed) :
    (l.set i e).map (fun x => (x.body, x.disposed)) = l.map (fun x => (x.body, x.disposed)) := by
  induction l generalizing i with
  | nil => simp
  | cons a t ih =>
    cases i with
    | zero =>
      simp only [List.getD_cons_zero] at hb hd
      simp [hb, hd]
    | succ j =>
      simp only [List.getD_cons_succ] at hb hd
      simp [ih j hb hd]

theorem pres_setCell (s : RState) (c : Nat) (cl : Cell) : Pres s (setCell s c cl) :=
  ⟨List.length_set .., Eq.refl _⟩

theorem pres_setNodeDeps (s : RState) (n : NodeId) (d : List Nat) :
    Pres s (setNodeDeps s n d) := by
  cases n with
  | eff i =>
    refine ⟨Eq.refl _, ?_⟩
    exact effSig_set s.effs i _ (Eq.refl _) (Eq.refl _)
  | marker c => exact pres_setCell ..

theorem pres_addEffect (s : RState) (c : Nat) (n : NodeId) : Pres s (addEffect s c n) :=
  presTrans (pres_setCell ..) (pres_setNodeDeps ..)

theorem pres_removeEffect (s : RState) (c : Nat) (n : NodeId) : Pres s (removeEffect s c n) :=
  presTrans (pres_setCell ..) (pres_setNodeDeps ..)

theorem pres_scheduleEffect (s : RState) (n : NodeId) : Pres s (scheduleEffect s n) := by
  unfold scheduleEffect
  split
  · exact presRefl s
  · dsimp only
    split
    · exact ⟨rfl, rfl⟩
    · exact ⟨rfl, rfl⟩

theorem pres_foldRemove (l : List Nat) (n : NodeId) :
    ∀ s : RState, Pres s (l.foldl (fun st c => removeEffect st c n) s) := by
  induction l with
  | nil => intro s; exact presRefl s
  | cons c t ih =>
    intro s
    exact presTrans (pres_removeEffect s c n) (ih (removeEffect s c n))

theorem pres_cleanupDeps (s : RState) (n : NodeId) : Pres s (cleanupDeps s n) :=
  presTrans (pres_foldRemove _ n s) (pres_setNodeDeps ..)

theorem pres_recomputeNotify (l : List NodeId) :
    ∀ (s : RState) (c : Nat), Pres s (recomputeNotify s c l) := by
  induction l with
  | nil => intro s c; exact presRefl s
  | cons e t ih =>
    intro s c
    unfold recomputeNotify
    split
    · exact presTrans (pres_removeEffect s c e) (ih _ c)
    · split
      · exact ih s c
      · exact presTrans (pres_scheduleEffect s e) (ih _ c)

theorem pres_removeSources (s : RState) (c : Nat) : Pres s (removeSources s c) :=
  pres_foldRemove _ _ s

theorem pres_finishRecompute (s : RState) (c : Nat) : Pres s (finishRecompute s c) :=
  presTrans (⟨rfl, rfl⟩ : Pres s { s with active := s.active.dropLast }) (pres_setCell ..)

theorem resPres_ok {α : Type} {s : RState} {r : Res α} {a : α} {s1 : RState}
    (hr : ResPres s r) (he : r = .ok a s1) : Pres s s1 := by
  subst he; exact hr

theorem resPres_er {α : Type} {s : RState} {r : Res α} {e : RErr} {s1 : RState}
    (hr : ResPres s r) (he : r = .er e s1) : Pres s s1 := by
  subst he; exact hr

theorem resPres_of_pres {α : Type} {s t : RState} {r : Res α}
    (h1 : Pres s t) (h2 : ResPres t r) : ResPres s r := by
  cases r with
  | ok a u => exact presTrans h1 h2
  | er e u => exact presTrans h1 h2
  | nf => trivial

theorem pres_logError (s : RState) : Pres s (logError s) := ⟨rfl, rfl⟩
theorem pres_clearPending (s : RState) : Pres s (clearPending s) := ⟨rfl, rfl⟩
theorem pres_pushActive (s : RState) (n : NodeId) : Pres s (pushActive s n) := ⟨rfl, rfl⟩
theorem pres_popActive (s : RState) : Pres s (popActive s) := ⟨rfl, rfl⟩
theorem pres_stopFlushing (s : RState) : Pres s (stopFlushing s) := ⟨rfl, rfl⟩
theorem pres_appendRead (s : RState) (v : Nat) : Pres s (appendRead s v) := ⟨rfl, rfl⟩
theorem pres_enterBatch (s : RState) : Pres s (enterBatch s) := ⟨rfl, rfl⟩
theorem pres_exitBatch (s : RState) : Pres s (exitBatch s) := ⟨rfl, rfl⟩

theorem pres_trackRead (s : RState) (c : Nat) : Pres s (trackRead s c) := by
  unfold trackRead
  split
  · exact pres_addEffect ..
  · exact presRefl s

theorem pres_recomputeBegin (s : RState) (c : Nat) : Pres s (recomputeBegin s c) := by
  unfold recomputeBegin
  exact presTrans (pres_setCell ..)
    (presTrans (pres_removeSources ..) (presTrans (pres_setCell ..) (pres_pushActive ..)))

theorem pres_recomputeFinish (s : RState) (c newV : Nat) (hc : Bool) :
    Pres s (recomputeFinish s c newV hc) := by
  unfold recomputeFinish
  refine presTrans ?_
    (presTrans (pres_setCell ..) (presTrans (pres_setCell ..) (pres_finishRecompute ..)))
  split
  · exact presTrans (pres_setCell ..) (pres_recomputeNotify _ _ c)
  · exact presRefl s

theorem pres_runEffectBegin (s : RState) (i : Nat) : Pres s (runEffectBegin s i) := by
  unfold runEffectBegin
  exact presTrans (⟨rfl, rfl⟩ : Pres s { s with runCounts := bumpCount s.runCounts i })
    (presTrans (pres_cleanupDeps ..) (pres_pushActive ..))

/-- Every function of the interpreter preserves the cell count and the effect
bodies / disposed flags of the state, on normal and on exceptional exit. -/
theorem presAll (f : Nat) :
    (∀ (s : RState) (e : Expr), ResPres s (evalExpr f s e)) ∧
    (∀ (s : RState) (c : Nat), ResPres s (readCell f s c)) ∧
    (∀ (s : RState) (c v : Nat), ResPres s (writeCell f s c v)) ∧
    (∀ (s : RState) (c : Nat) (l : List NodeId), ResPres s (writeNotify f s c l)) ∧
    (∀ (s : RState) (c : Nat), ResPres s (markDirty f s c)) ∧
    (∀ (s : RState) (c : Nat) (vis : List NodeId), ResPres s (markDirtyLoop f s c vis)) ∧
    (∀ (s : RState) (c : Nat), ResPres s (recompute f s c)) ∧
    (∀ (s : RState) (i : Nat), ResPres s (runEffect f s i)) ∧
    (∀ (s : RState) (n : NodeId), ResPres s (runNode f s n)) ∧
    (∀ (s : RState) (iters : Nat), ResPres s (flushLoop f s iters)) ∧
    (∀ (s : RState) (l : List NodeId), ResPres s (flushRun f s l)) ∧
    (∀ s : RState, ResPres s (flushEffects f s)) ∧
    (∀ (s : RState) (c : Cmd), ResPres s (runCmd f s c)) := by
  induction f with
  | zero =>
    refine ⟨?_, ?_, ?_, ?_, ?_, ?_, ?_, ?_, ?_, ?_, ?_, ?_, ?_⟩ <;>
      intros <;> simp [evalExpr, readCell, writeCell, writeNotify, markDirty, markDirtyLoop,
        recompute, runEffect, runNode, flushLoop, flushRun, flushEffects, runCmd, ResPres]
  | succ f ih =>
    obtain ⟨ihE, ihR, ihW, ihWN, ihM, ihML, ihRC, ihRE, ihRN, ihFL, ihFR, ihFE, ihC⟩ := ih
    refine ⟨?_, ?_, ?_, ?_, ?_, ?_, ?_, ?_, ?_, ?_, ?_, ?_, ?_⟩
    -- evalExpr
    · intro s e
      match e with
      | .const n => exact presRefl s
      | .readE c => exact ihR s c
      | .add a b =>
        simp only [evalExpr]
        cases h1 : evalExpr f s a with
        | ok va s1 =>
          try dsimp only
          have p1 := resPres_ok (ihE s a) h1
          cases h2 : evalExpr f s1 b with
          | ok vb s2 => exact presTrans p1 (resPres_ok (ihE s1 b) h2)
          | er e2 s2 => exact presTrans p1 (resPres_er (ihE s1 b) h2)
          | nf => trivial
        | er e1 s1 => exact resPres_er (ihE s a) h1
        | nf => trivial
      | .mul a b =>
        simp only [evalExpr]
        cases h1 : evalExpr f s a with
        | ok va s1 =>
          try dsimp only
          have p1 := resPres_ok (ihE s a) h1
          cases h2 : evalExpr f s1 b with
          | ok vb s2 => exact presTrans p1 (resPres_ok (ihE s1 b) h2)
          | er e2 s2 => exact presTrans p1 (resPres_er (ihE s1 b) h2)
          | nf => trivial
        | er e1 s1 => exact resPres_er (ihE s a) h1
        | nf => trivial
      | .ifz cnd a b =>
        simp only [evalExpr]
        cases h1 : evalExpr f s cnd with
        | ok vc s1 =>
          try dsimp only
          have p1 := resPres_ok (ihE s cnd) h1
          split
          · exact resPres_of_pres p1 (ihE s1 a)
          · exact resPres_of_pres p1 (ihE s1 b)
        | er e1 s1 => exact resPres_er (ihE s cnd) h1
        | nf => trivial
      | .throwE => exact presRefl s
    -- readCell
    · intro s c
      simp only [readCell]
      split
      · exact pres_trackRead ..
      · split
        · cases h1 : recompute f s c with
          | ok u s1 =>
            try dsimp only
            exact presTrans (resPres_ok (ihRC s c) h1) (pres_trackRead ..)
          | er e1 s1 => exact resPres_er (ihRC s c) h1
          | nf => trivial
        · exact pres_trackRead ..
    -- writeCell
    · intro s c v
      simp only [writeCell]
      split
      · exact presRefl s
      · split
        · exact presRefl s
        · exact presRefl s
        · exact resPres_of_pres (pres_setCell ..) (ihWN _ c _)
    -- writeNotify
    · intro s c l
      match l with
      | [] => exact presRefl s
      | e :: rest =>
        simp only [writeNotify]
        split
        · exact resPres_of_pres (pres_removeEffect ..) (ihWN _ c rest)
        · cases e with
          | marker m =>
            try dsimp only
            cases h1 : markDirty f s m with
            | ok u s1 =>
              try dsimp only
              exact resPres_of_pres (resPres_ok (ihM s m) h1) (ihWN s1 c rest)
            | er e1 s1 =>
              try dsimp only
              exact resPres_of_pres (presTrans (resPres_er (ihM s m) h1) (pres_logError s1))
                (ihWN _ c rest)
            | nf => trivial
          | eff j =>
            try dsimp only
            exact resPres_of_pres (pres_scheduleEffect ..) (ihWN _ c rest)
    -- markDirty
    · intro s c
      simp only [markDirty]
      split
      · exact presRefl s
      · split
        · cases h1 : recompute f (setCell s c { getCell s c with dirty := true }) c with
          | ok u s1 =>
            try dsimp only
            exact resPres_of_pres
              (presTrans (pres_setCell ..)
                (resPres_ok (ihRC (setCell s c { getCell s c with dirty := true }) c) h1))
              (ihML s1 c [])
          | er e1 s1 =>
            try dsimp only
            exact presTrans (pres_setCell ..)
              (resPres_er (ihRC (setCell s c { getCell s c with dirty := true }) c) h1)
          | nf => trivial
        · exact resPres_of_pres (pres_setCell ..) (ihML _ c [])
    -- markDirtyLoop
    · intro s c vis
      simp only [markDirtyLoop]
      split
      · exact presRefl s
      · split
        · exact ihML s c _
        · rename_i e heq hne
          cases e with
          | marker m =>
            try dsimp only
            cases h1 : markDirty f s m with
            | ok u s1 =>
              try dsimp only
              exact resPres_of_pres (resPres_ok (ihM s m) h1) (ihML s1 c _)
            | er e1 s1 =>
              try dsimp only
              exact resPres_of_pres (presTrans (resPres_er (ihM s m) h1) (pres_logError s1))
                (ihML _ c _)
            | nf => trivial
          | eff j =>
            try dsimp only
            exact resPres_of_pres (pres_scheduleEffect ..) (ihML _ c _)
    -- recompute
    · intro s c
      simp only [recompute]
      split
      · exact presRefl s
      · cases h1 : evalExpr f (recomputeBegin s c) (cellExpr (getCell (recomputeBegin s c) c)) with
        | ok newV s5 =>
          try dsimp only
          have p5 := presTrans (pres_recomputeBegin s c) (resPres_ok (ihE _ _) h1)
          cases h2 : hasChangedCheck (getCell s5 c) newV with
          | none => exact presTrans p5 (pres_finishRecompute ..)
          | some hc => exact presTrans p5 (pres_recomputeFinish ..)
        | er e1 s5 =>
          exact presTrans (pres_recomputeBegin s c)
            (presTrans (resPres_er (ihE _ _) h1) (pres_finishRecompute ..))
        | nf => trivial
    -- runEffect
    · intro s i
      simp only [runEffect]
      cases h1 : runCmd f (runEffectBegin s i) (getEff (runEffectBegin s i) i).body with
      | ok u s3 =>
        exact presTrans (pres_runEffectBegin ..)
          (presTrans (resPres_ok (ihC _ _) h1) (pres_popActive ..))
      | er e1 s3 =>
        exact presTrans (pres_runEffectBegin ..)
          (presTrans (resPres_er (ihC _ _) h1) (pres_popActive ..))
      | nf => trivial
    -- runNode
    · intro s n
      cases n with
      | eff i => exact ihRE s i
      | marker c => exact ihM s c
    -- flushLoop
    · intro s iters
      simp only [flushLoop]
      split
      · exact presRefl s
      · split
        · exact pres_clearPending s
        · cases h1 : flushRun f (clearPending s) s.pending with
          | ok u s2 =>
            try dsimp only
            exact resPres_of_pres
              (presTrans (pres_clearPending s) (resPres_ok (ihFR _ _) h1))
              (ihFL s2 (iters + 1))
          | er e1 s2 => exact presTrans (pres_clearPending s) (resPres_er (ihFR _ _) h1)
          | nf => trivial
    -- flushRun
    · intro s l
      match l with
      | [] => exact presRefl s
      | e :: rest =>
        simp only [flushRun]
        split
        · exact ihFR s rest
        · cases h1 : runNode f s e with
          | ok u s1 =>
            try dsimp only
            exact resPres_of_pres (resPres_ok (ihRN s e) h1) (ihFR s1 rest)
          | er e1 s1 =>
            try dsimp only
            exact resPres_of_pres (presTrans (resPres_er (ihRN s e) h1) (pres_logError s1))
              (ihFR _ rest)
          | nf => trivial
    -- flushEffects
    · intro s
      simp only [flushEffects]
      cases h1 : flushLoop f s 0 with
      | ok u s1 => exact presTrans (resPres_ok (ihFL s 0) h1) (pres_stopFlushing s1)
      | er e1 s1 => exact presTrans (resPres_er (ihFL s 0) h1) (pres_stopFlushing s1)
      | nf => trivial
    -- runCmd
    · intro s c
      match c with
      | .skip => exact presRefl s
      | .seq a b =>
        simp only [runCmd]
        cases h1 : runCmd f s a with
        | ok u s1 =>
          try dsimp only
          exact resPres_of_pres (resPres_ok (ihC s a) h1) (ihC s1 b)
        | er e1 s1 => exact resPres_er (ihC s a) h1
        | nf => trivial
      | .throwC => exact presRefl s
      | .readC cc =>
        simp only [runCmd]
        cases h1 : readCell f s cc with
        | ok v s1 => exact presTrans (resPres_ok (ihR s cc) h1) (pres_appendRead s1 v)
        | er e1 s1 => exact resPres_er (ihR s cc) h1
        | nf => trivial
      | .writeS cc e =>
        simp only [runCmd]
        cases h1 : evalExpr f s e with
        | ok v s1 =>
          try dsimp only
          exact resPres_of_pres (resPres_ok (ihE s e) h1) (ihW s1 cc v)
        | er e1 s1 => exact resPres_er (ihE s e) h1
        | nf => trivial
      | .batchC body =>
        simp only [runCmd]
        cases h1 : runCmd f (enterBatch s) body with
        | ok u s2 =>
          try dsimp only
          have p2 := presTrans (pres_enterBatch s)
            (presTrans (resPres_ok (ihC _ _) h1) (pres_exitBatch s2))
          split
          · cases h2 : flushEffects f (exitBatch s2) with
            | ok u2 s4 => exact presTrans p2 (resPres_ok (ihFE _) h2)
            | er e2 s4 => exact presTrans p2 (resPres_er (ihFE _) h2)
            | nf => trivial
          · exact p2
        | er e1 s2 =>
          try dsimp only
          have p2 := presTrans (pres_enterBatch s)
            (presTrans (resPres_er (ihC _ _) h1) (pres_exitBatch s2))
          split
          · cases h2 : flushEffects f (exitBatch s2) with
            | ok u2 s4 => exact presTrans p2 (resPres_ok (ihFE _) h2)
            | er e2 s4 => exact presTrans p2 (resPres_er (ihFE _) h2)
            | nf => trivial
          · exact p2
        | nf => trivial

/-!  ### C4: effect-body exceptions  -/

/-- The state in which a registration of a throwing effect body leaves the
runtime: the node exists (alive, run once) but the exception reached the
caller of `effect()`. -/
def c4reg : RState :=
  { cells := [mkSig 0],
    effs := [{ body := .throwC, disposed := false, dependencies := [] }],
    pending := [], isFlushing := false, batchDepth := 0,
    active := [], errLog := 0, readLog := [], runCounts := [1] }

/-- **C4 counterexample.**  The claim is false for the initial synchronous
run at registration time: `effect()` runs the new node once with no
`try`/`catch` around it (src/core/effect.ts line 216), so a throwing body
makes the registration call itself throw — the exception reaches the caller
instead of being caught and logged. -/
theorem C4_registration_throw_reaches_caller :
    registerEffect 10 (mkState [mkSig 0]) Cmd.throwC = .er .userThrow c4reg := by
  decide

/-- A flush scenario with two pending effects: `eff 0` throws, `eff 1` reads
the signal. -/
def c4f : RState :=
  { cells := [{ mkSig 7 with effects := [.eff 0, .eff 1] }],
    effs := [{ body := .throwC, disposed := false, dependencies := [0] },
             { body := .readC 0, disposed := false, dependencies := [0] }],
    pending := [.eff 0, .eff 1], isFlushing := true, batchDepth := 0,
    active := [], errLog := 0, readLog := [], runCounts := [1, 1] }

/-- Where the flush of `c4f` ends: the thrown error was logged (`errLog 1`),
the sibling `eff 1` still ran (it observed `7` and ran a second time), and
the throwing node is not disposed. -/
def c4ffin : RState :=
  { cells := [{ mkSig 7 with effects := [.eff 1] }],
    effs := [{ body := .throwC, disposed := false, dependencies := [] },
             { body := .readC 0, disposed := false, dependencies := [0] }],
    pending := [], isFlushing := false, batchDepth := 0,
    active := [], errLog := 1, readLog := [7], runCounts := [2, 2] }

/-- **C4 (amended).**  Exceptions thrown by an effect's user function during
a scheduled run are caught at the flush boundary and logged: no user
exception ever escapes `flushEffects` (its only possible exception is the
scheduler-overrun error), a flush never changes any node's body or
`disposed` flag (on normal or exceptional exit), so a throwing node stays
alive and eligible; and in the concrete two-effect scenario the throwing
node's error is logged while its sibling still runs in the same pass.
However — this is the amendment — an exception during the initial
synchronous run at registration time propagates to the caller of `effect()`
(see the counterexample). -/
theorem C4_effect_errors_isolated_in_flush :
    (∀ (fuel : Nat) (s : RState) (e : RErr) (s' : RState),
        flushEffects fuel s = .er e s' → e ≠ .userThrow) ∧
    (∀ (fuel : Nat) (s : RState) (u : Unit) (s' : RState),
        flushEffects fuel s = .ok u s' → effSig s' = effSig s) ∧
    (∀ (fuel : Nat) (s : RState) (e : RErr) (s' : RState),
        flushEffects fuel s = .er e s' → effSig s' = effSig s) ∧
    flushEffects 60 c4f = .ok () c4ffin := by
  refine ⟨?_, ?_, ?_, by decide⟩
  · intro fuel s e s' h
    match fuel with
    | 0 => simp [flushEffects] at h
    | f + 1 =>
      simp only [flushEffects] at h
      cases hl : flushLoop f s 0 with
      | ok u1 s1 => rw [hl] at h; cases h
      | er e1 s1 =>
        rw [hl] at h
        obtain ⟨he, -⟩ := Res.er.inj h
        obtain ⟨r, h1, -, -⟩ := flushLoop_er_overrun f s 0 e1 s1 hl
        rw [← he, h1]
        simp
      | nf => rw [hl] at h; cases h
  · intro fuel s u s' h
    have hp := (presAll fuel).2.2.2.2.2.2.2.2.2.2.2.1 s
    exact (resPres_ok hp h).2
  · intro fuel s e s' h
    have hp := (presAll fuel).2.2.2.2.2.2.2.2.2.2.2.1 s
    exact (resPres_er hp h).2

theorem C4_effect_errors_isolated_in_flush_witness :
    (RErr.overrun MAX_FLUSH_ITERATIONS 1 ≠ RErr.userThrow) ∧
    effSig c4ffin = effSig c4f := by
  have hloop := c2_flushLoop_overrun MAX_FLUSH_ITERATIONS 1 0 1499 (by simp) (by decide)
  have hflush : flushEffects 1500 (c2state 1) =
      .er (.overrun MAX_FLUSH_ITERATIONS 1)
        (stopFlushing (clearPending (c2state 101))) := by
    simp only [flushEffects]
    rw [hloop]
    rfl
  exact ⟨C4_effect_errors_isolated_in_flush.1 1500 (c2state 1) _ _ hflush,
         C4_effect_errors_isolated_in_flush.2.1 60 c4f () c4ffin (by decide)⟩

/-!  ### C10: a computed's marker is a no-op while dirty, and schedules its
ordinary dependents exactly once per clean-to-dirty transition  -/

theorem scheduleEffect_cells (s : RState) (n : NodeId) :
    (scheduleEffect s n).cells = s.cells := by
  unfold scheduleEffect
  split
  · rfl
  · dsimp only
    split <;> rfl

theorem scheduleEffect_effs (s : RState) (n : NodeId) :
    (scheduleEffect s n).effs = s.effs := by
  unfold scheduleEffect
  split
  · rfl
  · dsimp only
    split <;> rfl

theorem scheduleEffect_pending (s : RState) (n : NodeId) :
    (scheduleEffect s n).pending =
      if nodeDisposed s n then s.pending else insertNode s.pending n := by
  unfold scheduleEffect
  split
  case isTrue h => simp [h]
  case isFalse h =>
    dsimp only
    split <;> simp [h]

theorem nodeDisposed_effs_eq (s s' : RState) (hn : s'.effs = s.effs) (n : NodeId) :
    nodeDisposed s' n = nodeDisposed s n := by
  cases n with
  | eff i => simp [nodeDisposed, getEff, hn]
  | marker c => rfl

theorem foldlSched_cells (l : List NodeId) :
    ∀ s : RState, (l.foldl scheduleEffect s).cells = s.cells := by
  induction l with
  | nil => intro s; rfl
  | cons e t ih => intro s; rw [List.foldl_cons, ih, scheduleEffect_cells]

theorem foldlSched_effs (l : List NodeId) :
    ∀ s : RState, (l.foldl scheduleEffect s).effs = s.effs := by
  induction l with
  | nil => intro s; rfl
  | cons e t ih => intro s; rw [List.foldl_cons, ih, scheduleEffect_effs]

theorem foldlSched_pending (l : List NodeId) :
    ∀ s : RState, (l.foldl scheduleEffect s).pending =
      l.foldl (fun p n => if nodeDisposed s n then p else insertNode p n) s.pending := by
  induction l with
  | nil => intro s; rfl
  | cons e t ih =>
    intro s
    rw [List.foldl_cons, List.foldl_cons, ih (scheduleEffect s e), scheduleEffect_pending]
    have hdis : ∀ n, nodeDisposed (scheduleEffect s e) n = nodeDisposed s n :=
      nodeDisposed_effs_eq s _ (scheduleEffect_effs s e)
    congr 1
    · funext p n
      rw [hdis]

theorem insertNode_nodup (l : List NodeId) (n : NodeId) (h : l.Nodup) :
    (insertNode l n).Nodup := by
  unfold insertNode
  split
  · exact h
  · simpa [List.nodup_append] using ⟨h, by assumption⟩

theorem foldl_insert_nodup (l : List NodeId) :
    ∀ (p : List NodeId) (dis : NodeId → Bool), p.Nodup →
      (l.foldl (fun p n => if dis n then p else insertNode p n) p).Nodup := by
  induction l with
  | nil => intro p dis hp; exact hp
  | cons e t ih =>
    intro p dis hp
    rw [List.foldl_cons]
    apply ih
    split
    · exact hp
    · exact insertNode_nodup p e hp

theorem cellValues_set (l : List Cell) (i : Nat) (cl : Cell)
    (hv : cl.value = (l.getD i default).value) :
    (l.set i cl).map (fun x => x.value) = l.map (fun x => x.value) := by
  induction l generalizing i with
  | nil => simp
  | cons a t ih =>
    cases i with
    | zero =>
      simp only [List.getD_cons_zero] at hv
      simp [hv]
    | succ j =>
      simp only [List.getD_cons_succ] at hv
      simp [ih j hv]

theorem getD_set_self (l : List Cell) (i : Nat) (cl : Cell) (h : i < l.length) :
    (l.set i cl).getD i default = cl := by
  induction l generalizing i with
  | nil => simp at h
  | cons a t ih =>
    cases i with
    | zero => rfl
    | succ j =>
      simp only [List.length_cons, Nat.succ_lt_succ_iff] at h
      simpa using ih j h

theorem getCell_setCell_self (s : RState) (c : Nat) (cl : Cell) (h : c < s.cells.length) :
    getCell (setCell s c cl) c = cl := by
  simp only [getCell, setCell]
  exact getD_set_self s.cells c cl h

/-- The `markDirtyEffect` loop on a computed whose dependents are all
ordinary effects: the live `Set` iteration visits the not-yet-visited
suffix in order and hands every element to `scheduleEffect`. -/
theorem markDirtyLoop_all_effs (post : List NodeId) :
    ∀ (g : Nat) (s : RState) (c : Nat) (visited : List NodeId),
      (getCell s c).effects = visited ++ post →
      (visited ++ post).Nodup →
      (∀ n ∈ post, ∃ i, n = NodeId.eff i) →
      post.length + 1 ≤ g →
      markDirtyLoop g s c visited = .ok () (post.foldl scheduleEffect s) := by
  induction post with
  | nil =>
    intro g s c visited heq hnd hall hg
    match g, hg with
    | g + 1, _ =>
      simp only [markDirtyLoop]
      have hfilter : ((getCell s c).effects.filter (fun e => e ∉ visited)).head? = none := by
        rw [heq]
        simp only [List.append_nil]
        rw [List.head?_eq_none_iff, List.filter_eq_nil_iff]
        intro a ha
        simp [ha]
      rw [hfilter]
      rfl
  | cons e rest ih =>
    intro g s c visited heq hnd hall hg
    match g, hg with
    | g + 1, hg =>
      simp only [markDirtyLoop]
      have hfilter : ((getCell s c).effects.filter (fun e => e ∉ visited)).head? = some e := by
        rw [heq, List.filter_append]
        have h1 : visited.filter (fun e => e ∉ visited) = [] := by
          rw [List.filter_eq_nil_iff]
          intro a ha
          simp [ha]
        have h2 : (e :: rest).filter (fun x => x ∉ visited) = e :: rest := by
          rw [List.filter_eq_self]
          intro a ha
          have : a ∉ visited := by
            intro hmem
            have := (List.nodup_append.mp hnd).2.2
            exact this hmem ha
          simp [this]
        rw [h1, h2]
        rfl
      rw [hfilter]
      obtain ⟨i, rfl⟩ := hall e (by simp)
      have hne : (NodeId.eff i ≠ NodeId.marker c) := by simp
      dsimp only
      rw [if_neg hne]
      have heq' : (getCell (scheduleEffect s (NodeId.eff i)) c).effects
          = (visited ++ [NodeId.eff i]) ++ rest := by
        have : getCell (scheduleEffect s (NodeId.eff i)) c = getCell s c := by
          simp [getCell, scheduleEffect_cells]
        rw [this, heq]
        simp
      have := ih g (scheduleEffect s (NodeId.eff i)) c (visited ++ [NodeId.eff i])
        heq' (by simpa using hnd) (fun n hn => hall n (by simp [hn]))
        (by simp only [List.length_cons] at hg; omega)
      rw [this]
      rfl

/-- The state the `markDirtyEffect` of a lazy computed with only ordinary
dependents leaves behind: dirty flag set, every dependent handed to the
scheduler. -/
def markDirtySchedule (s : RState) (c : Nat) : RState :=
  (getCell s c).effects.foldl scheduleEffect
    (setCell s c { getCell s c with dirty := true })

/-- **C10.**  For a lazy computed cell `c` whose dependents are ordinary
effects: (i) while `dirty` is set, invoking the marker is a complete no-op —
further source changes do nothing until a recomputation clears the flag;
(ii) on a clean-to-dirty transition the marker sets `dirty` and hands every
dependent to `scheduleEffect` right then — before any recomputation: no cell
value changes — and each non-disposed ordinary dependent is inserted into
the deduplicated pending set exactly once (pending stays duplicate-free),
and invoking the marker again on the resulting state is a no-op. -/
theorem C10_marker_noop_while_dirty_schedules_once (fuel : Nat) (s : RState) (c : Nat)
    (ce : Expr)
    (hk : (getCell s c).kind = .comp ce false)
    (hc : c < s.cells.length)
    (heff : ∀ n ∈ (getCell s c).effects, ∃ i, n = NodeId.eff i)
    (hnodup : (getCell s c).effects.Nodup)
    (hfuel : (getCell s c).effects.length + 2 ≤ fuel) :
    ((getCell s c).dirty = true → markDirty fuel s c = .ok () s) ∧
    ((getCell s c).dirty = false →
      markDirty fuel s c = .ok () (markDirtySchedule s c) ∧
      (getCell (markDirtySchedule s c) c).dirty = true ∧
      (markDirtySchedule s c).cells.map (fun cl => cl.value)
        = s.cells.map (fun cl => cl.value) ∧
      (markDirtySchedule s c).pending
        = (getCell s c).effects.foldl
            (fun p n => if nodeDisposed s n then p else insertNode p n) s.pending ∧
      (s.pending.Nodup → (markDirtySchedule s c).pending.Nodup) ∧
      markDirty fuel (markDirtySchedule s c) c = .ok () (markDirtySchedule s c)) := by
  match fuel, hfuel with
  | g + 1, hfuel =>
    have hgetset : getCell (setCell s c { getCell s c with dirty := true }) c
        = { getCell s c with dirty := true } := getCell_setCell_self s c _ hc
    have hcellsMS : getCell (markDirtySchedule s c) c = { getCell s c with dirty := true } := by
      unfold markDirtySchedule
      simp only [getCell, foldlSched_cells]
      exact hgetset
    constructor
    · intro hdirty
      simp only [markDirty]
      rw [if_pos hdirty]
    · intro hclean
      have hrun : markDirty (g + 1) s c = .ok () (markDirtySchedule s c) := by
        simp only [markDirty]
        rw [if_neg (by simp [hclean])]
        have heager : cellEager (getCell (setCell s c { getCell s c with dirty := true }) c)
            = false := by
          rw [hgetset]
          simp [cellEager, hk]
        rw [heager]
        simp only [Bool.false_and, if_neg (by simp : ¬(false = true))]
        have heq : (getCell (setCell s c { getCell s c with dirty := true }) c).effects
            = ([] : List NodeId) ++ (getCell s c).effects := by
          rw [hgetset]
          simp
        exact markDirtyLoop_all_effs (getCell s c).effects g _ c [] heq
          (by simpa using hnodup) heff (by omega)
      have hdirty' : (getCell (markDirtySchedule s c) c).dirty = true := by
        rw [hcellsMS]
      refine ⟨hrun, hdirty', ?_, ?_, ?_, ?_⟩
      · unfold markDirtySchedule
        rw [show ((getCell s c).effects.foldl scheduleEffect
            (setCell s c { getCell s c with dirty := true })).cells
          = (setCell s c { getCell s c with dirty := true }).cells from
            foldlSched_cells _ _]
        exact cellValues_set s.cells c _ rfl
      · unfold markDirtySchedule
        rw [foldlSched_pending]
        have hdis : ∀ n, nodeDisposed (setCell s c { getCell s c with dirty := true }) n
            = nodeDisposed s n := nodeDisposed_effs_eq s _ rfl
        simp only [hdis]
        rfl
      · intro hp
        unfold markDirtySchedule
        rw [foldlSched_pending]
        exact foldl_insert_nodup _ _ _ hp
      · simp only [markDirty]
        rw [if_pos hdirty']

/-- C10 witness scenario: a clean lazy computed with two ordinary effect
dependents, one of them disposed. -/
def c10s : RState :=
  { cells := [{ value := 1, equals := .default, effects := [.eff 0, .eff 1],
                kind := .comp (.const 1) false, dirty := false,
                isComputing := false, sources := [], markerDeps := [] }],
    effs := [{ body := .skip, disposed := false, dependencies := [] },
             { body := .skip, disposed := true, dependencies := [] }],
    pending := [], isFlushing := false, batchDepth := 0,
    active := [], errLog := 0, readLog := [], runCounts := [0, 0] }

theorem C10_marker_noop_while_dirty_schedules_once_witness :
    markDirty 10 c10s 0 = .ok () (markDirtySchedule c10s 0) ∧
    (getCell (markDirtySchedule c10s 0) 0).dirty = true ∧
    (markDirtySchedule c10s 0).pending = [.eff 0] ∧
    markDirty 10 (markDirtySchedule c10s 0) 0 = .ok () (markDirtySchedule c10s 0) := by
  have h := (C10_marker_noop_while_dirty_schedules_once 10 c10s 0 (.const 1) rfl
      (by decide)
      (by
        intro n hn
        fin_cases hn
        · exact ⟨0, rfl⟩
        · exact ⟨1, rfl⟩)
      (by decide) (by decide)).2 rfl
  refine ⟨h.1, h.2.1, ?_, h.2.2.2.2.2⟩
  rw [h.2.2.2.1]
  decide

/-!  ### C5: what `recompute` really does after the compute function returns

The source computes `hasChanged = this.dirty || !this.equals(...)`
(computed.ts line 228).  `recompute` is only ever entered with `dirty = true`
(the lazy getter recomputes only when dirty, the marker sets `dirty` before
an eager recompute), so the equality comparison is short-circuited away and
the dependents are notified — and the value stored — even when the new
result is equal to the cached one.  Also, the notification loop passes every
dependent (sync markers included) to `scheduleEffect`; nothing is invoked
inline there.  -/

theorem recomputeNotify_all_sched (l : List NodeId) :
    ∀ (s : RState) (c : Nat),
      (∀ n ∈ l, n ≠ NodeId.marker c ∧ nodeDisposed s n = false) →
      recomputeNotify s c l = l.foldl scheduleEffect s := by
  induction l with
  | nil => intro s c _; rfl
  | cons e t ih =>
    intro s c h
    obtain ⟨hne, hnd⟩ := h e (by simp)
    unfold recomputeNotify
    rw [if_neg (by simp [hnd]), if_neg hne]
    rw [ih (scheduleEffect s e) c ?_]
    · rfl
    · intro n hn
      refine ⟨(h n (by simp [hn])).1, ?_⟩
      rw [nodeDisposed_effs_eq s _ (scheduleEffect_effs s e) n]
      exact (h n (by simp [hn])).2

theorem foldl_insert_all_live (l : List NodeId) :
    ∀ (p : List NodeId) (dis : NodeId → Bool), (∀ n ∈ l, dis n = false) →
      l.foldl (fun p n => if dis n then p else insertNode p n) p = l.foldl insertNode p := by
  induction l with
  | nil => intro p dis _; rfl
  | cons e t ih =>
    intro p dis h
    rw [List.foldl_cons, List.foldl_cons, if_neg (by simp [h e (by simp)])]
    exact ih _ dis (fun n hn => h n (by simp [hn]))

theorem finishRecompute_pending (s : RState) (c : Nat) :
    (finishRecompute s c).pending = s.pending := rfl

theorem finishRecompute_value (s : RState) (c : Nat) (h : c < s.cells.length) :
    (getCell (finishRecompute s c) c).value = (getCell s c).value := by
  unfold finishRecompute
  dsimp only
  rw [getCell_setCell_self _ c _ (by simpa using h)]
  rfl

/-- **C5 (amended).**  In `recompute`, after the compute function returns,
the comparison actually used is `dirty-at-entry OR not-equals`: (i) while
`dirty` is set, `hasChangedCheck` answers "changed" without consulting the
equality function at all; (ii) the lazy getter invokes `recompute` only when
`dirty` is set (a clean computed's read is pure registration); therefore
(iii) a recompute entered dirty stores the new value and hands every
non-disposed dependent other than the computed's own marker to the scheduler
— sync markers among them are scheduled, not invoked inline — even when the
new result is equal to the cached value.  The claim's "if and only if the
equality comparison reports the values as different" is false on the code
(see the counterexample). -/
theorem C5_recompute_notifies_while_dirty (s : RState) (c newV : Nat)
    (hc : c < s.cells.length)
    (heff : ∀ n ∈ (getCell s c).effects, n ≠ NodeId.marker c ∧ nodeDisposed s n = false) :
    (∀ (cl : Cell) (v : Nat), cl.dirty = true → hasChangedCheck cl v = some true) ∧
    (∀ (f : Nat) (s' : RState) (c' : Nat) (e : Expr) (eg : Bool),
      (getCell s' c').kind = .comp e eg → (getCell s' c').dirty = false →
      readCell (f + 1) s' c' = .ok (getCell (trackRead s' c') c').value (trackRead s' c')) ∧
    (getCell (recomputeFinish s c newV true) c).value = newV ∧
    (recomputeFinish s c newV true).pending
      = (getCell s c).effects.foldl insertNode s.pending := by
  refine ⟨?_, ?_, ?_, ?_⟩
  · intro cl v hd
    unfold hasChangedCheck
    rw [if_pos hd]
  · intro f s' c' e eg hk hd
    simp only [readCell]
    rw [hk]
    simp [hd]
  · unfold recomputeFinish
    rw [if_pos rfl]
    have hsv : getCell (setCell s c { getCell s c with value := newV }) c
        = { getCell s c with value := newV } := getCell_setCell_self s c _ hc
    rw [hsv]
    rw [recomputeNotify_all_sched _ _ c ?_]
    · set sv := setCell s c { getCell s c with value := newV } with hsvdef
      set s6 := (Cell.effects { getCell s c with value := newV }).foldl scheduleEffect sv with h6
      have hlen6 : c < s6.cells.length := by
        rw [h6, foldlSched_cells]
        simpa [hsvdef, setCell] using hc
      have hg6 : getCell s6 c = { getCell s c with value := newV } := by
        rw [h6]
        simp only [getCell, foldlSched_cells]
        exact hsv
      have hlen7 : c < (setCell s6 c { getCell s6 c with dirty := false }).cells.length := by
        simpa [setCell] using hlen6
      have hg7 : getCell (setCell s6 c { getCell s6 c with dirty := false }) c
          = { getCell s6 c with dirty := false } := getCell_setCell_self s6 c _ hlen6
      set s7 := setCell s6 c { getCell s6 c with dirty := false } with h7
      have hlen8 : c < (setCell s7 c { getCell s7 c with
          sources := copyAll (getCell s7 c).sources (getCell s7 c).markerDeps }).cells.length := by
        simpa [setCell] using hlen7
      have hg8 : getCell (setCell s7 c { getCell s7 c with
          sources := copyAll (getCell s7 c).sources (getCell s7 c).markerDeps }) c
          = { getCell s7 c with
              sources := copyAll (getCell s7 c).sources (getCell s7 c).markerDeps } :=
        getCell_setCell_self s7 c _ hlen7
      rw [finishRecompute_value _ c hlen8, hg8, hg7, hg6]
    · intro n hn
      have hn' : n ∈ (getCell s c).effects := hn
      refine ⟨(heff n hn').1, ?_⟩
      have hde : nodeDisposed (setCell s c { getCell s c with value := newV }) n
          = nodeDisposed s n :=
        nodeDisposed_effs_eq s (setCell s c { getCell s c with value := newV }) rfl n
      rw [hde]
      exact (heff n hn').2
  · unfold recomputeFinish
    rw [if_pos rfl]
    have hsv : getCell (setCell s c { getCell s c with value := newV }) c
        = { getCell s c with value := newV } := getCell_setCell_self s c _ hc
    rw [hsv]
    rw [recomputeNotify_all_sched _ _ c ?_]
    · rw [finishRecompute_pending]
      show ((Cell.effects { getCell s c with value := newV }).foldl scheduleEffect
        (setCell s c { getCell s c with value := newV })).pending = _
      rw [foldlSched_pending]
      have : (setCell s c { getCell s c with value := newV }).pending = s.pending := rfl
      rw [this]
      have heq : Cell.effects { getCell s c with value := newV } = (getCell s c).effects := rfl
      rw [heq]
      apply foldl_insert_all_live
      intro n hn
      have hde : nodeDisposed (setCell s c { getCell s c with value := newV }) n
          = nodeDisposed s n :=
        nodeDisposed_effs_eq s (setCell s c { getCell s c with value := newV }) rfl n
      rw [hde]
      exact (heff n hn).2
    · intro n hn
      have hn' : n ∈ (getCell s c).effects := hn
      refine ⟨(heff n hn').1, ?_⟩
      have hde : nodeDisposed (setCell s c { getCell s c with value := newV }) n
          = nodeDisposed s n :=
        nodeDisposed_effs_eq s (setCell s c { getCell s c with value := newV }) rfl n
      rw [hde]
      exact (heff n hn').2

/-- C5 witness scenario: a dirty computed with one ordinary effect dependent
and one downstream sync marker dependent (of computed cell 2). -/
def c5w : RState :=
  { cells := [mkSig 3,
      { value := 0, equals := .default, effects := [.eff 0, .marker 2],
        kind := .comp (.mul (.readE 0) (.const 0)) false, dirty := true,
        isComputing := false, sources := [0], markerDeps := [0] },
      mkComp (.readE 1)],
    effs := [{ body := .readC 1, disposed := false, dependencies := [1] }],
    pending := [], isFlushing := false, batchDepth := 0,
    active := [], errLog := 0, readLog := [], runCounts := [1] }

theorem C5_recompute_notifies_while_dirty_witness :
    (getCell (recomputeFinish c5w 1 0 true) 1).value = 0 ∧
    (recomputeFinish c5w 1 0 true).pending = [.eff 0, .marker 2] := by
  have h := C5_recompute_notifies_while_dirty c5w 1 0 (by decide)
    (by
      intro n hn
      fin_cases hn
      · exact ⟨by decide, by decide⟩
      · exact ⟨by decide, by decide⟩)
  refine ⟨h.2.2.1, ?_⟩
  rw [h.2.2.2]
  decide

/-!  The C5 counterexample trace: two effects watch the computed
`c1 = s0 * 0`; after a genuine write to `s0` both are pending and `c1` is
dirty with cached value `0`.  The flush clears the pending set and runs the
snapshot; running the first effect re-reads `c1`, whose recomputation yields
`0` — equal to the cached value — yet schedules the second effect again. -/

def c5t0 : RState := mkState [mkSig 1, mkComp (.mul (.readE 0) (.const 0))]

/-- After `effect(() => read c1)` twice. -/
def c5t1 : RState :=
  resState c5t0 (match registerEffect 50 c5t0 (.readC 1) with
    | .ok _ s => .ok () s | .er e s => .er e s | .nf => .nf)

def c5t2 : RState :=
  resState c5t0 (match registerEffect 50 c5t1 (.readC 1) with
    | .ok _ s => .ok () s | .er e s => .er e s | .nf => .nf)

/-- After `write s0 := 2`: the computed is dirty, cached value still `0`. -/
def c5t3 : RState := resState c5t0 (writeCell 50 c5t2 0 2)

/-- Where running the first snapshot effect (as the flush does, after
clearing the pending set) leaves the runtime. -/
def c5t4 : RState :=
  { cells := [{ mkSig 2 with effects := [.marker 1] },
      { value := 0, equals := .default, effects := [.eff 1, .eff 0],
        kind := .comp (.mul (.readE 0) (.const 0)) false, dirty := false,
        isComputing := false, sources := [0], markerDeps := [0] }],
    effs := [{ body := .readC 1, disposed := false, dependencies := [1] },
             { body := .readC 1, disposed := false, dependencies := [1] }],
    pending := [.eff 1], isFlushing := true, batchDepth := 0,
    active := [], errLog := 0, readLog := [0, 0, 0], runCounts := [2, 1] }

/-- **C5 counterexample.**  In the mid-flush state (pending cleared, dirty
computed `c1` with cached value `0`), running effect 0 recomputes `c1`; the
new result `2 * 0 = 0` equals the cached value — the cell's value is
unchanged — yet the dependent effect 1 is notified (it ends up scheduled).
The claim "when the new result is equal to the cached value, no dependent is
notified" is false: `hasChanged = dirty || !equals(...)` is true because the
cell was dirty at entry. -/
theorem C5_equal_recompute_still_notifies :
    (getCell (clearPending c5t3) 1).dirty = true ∧
    (getCell (clearPending c5t3) 1).value = 0 ∧
    (clearPending c5t3).pending = [] ∧
    runNode 50 (clearPending c5t3) (.eff 0) = .ok () c5t4 ∧
    (getCell c5t4 1).value = 0 ∧
    c5t4.pending = [.eff 1] := by
  refine ⟨by decide, by decide, by decide, by decide, by decide, by decide⟩

/-!  ### Small-step equations for the interpreter

Conditional one-step unfoldings: each lemma rewrites one interpreter call
given the results of its sub-calls, so that symbolic runs can be carried
out as chains of cheap rewrites.  -/

theorem evalExpr_const (f : Nat) (s : RState) (n : Nat) :
    evalExpr (f + 1) s (.const n) = .ok n s := by
  simp only [evalExpr]

theorem evalExpr_read (f : Nat) (s : RState) (c : Nat) :
    evalExpr (f + 1) s (.readE c) = readCell f s c := by
  simp only [evalExpr]

theorem evalExpr_add_ok (f : Nat) (s s1 s2 : RState) (a b : Expr) (va vb : Nat)
    (h1 : evalExpr f s a = .ok va s1) (h2 : evalExpr f s1 b = .ok vb s2) :
    evalExpr (f + 1) s (.add a b) = .ok (va + vb) s2 := by
  simp only [evalExpr, h1, h2]

theorem readCell_sig (f : Nat) (s : RState) (c : Nat)
    (hk : (getCell s c).kind = .sig) :
    readCell (f + 1) s c = .ok (getCell (trackRead s c) c).value (trackRead s c) := by
  simp only [readCell, hk]

theorem readCell_comp_clean (f : Nat) (s : RState) (c : Nat) (e : Expr) (eg : Bool)
    (hk : (getCell s c).kind = .comp e eg) (hd : (getCell s c).dirty = false) :
    readCell (f + 1) s c = .ok (getCell (trackRead s c) c).value (trackRead s c) := by
  simp only [readCell, hk, hd]
  rfl

theorem readCell_comp_dirty_ok (f : Nat) (s s' : RState) (c : Nat) (e : Expr) (eg : Bool)
    (u : Unit) (hk : (getCell s c).kind = .comp e eg) (hd : (getCell s c).dirty = true)
    (hrc : recompute f s c = .ok u s') :
    readCell (f + 1) s c = .ok (getCell (trackRead s' c) c).value (trackRead s' c) := by
  simp only [readCell, hk, hd, hrc]
  rfl

theorem recompute_step_ok (f : Nat) (s s5 : RState) (c newV : Nat) (hc : Bool)
    (hic : (getCell s c).isComputing = false)
    (hev : evalExpr f (recomputeBegin s c) (cellExpr (getCell (recomputeBegin s c) c))
      = .ok newV s5)
    (hcc : hasChangedCheck (getCell s5 c) newV = some hc) :
    recompute (f + 1) s c = .ok () (recomputeFinish s5 c newV hc) := by
  simp only [recompute, hic, hev, hcc]
  rfl

theorem recompute_step_er (f : Nat) (s s5 : RState) (c : Nat) (e : RErr)
    (hic : (getCell s c).isComputing = false)
    (hev : evalExpr f (recomputeBegin s c) (cellExpr (getCell (recomputeBegin s c) c))
      = .er e s5) :
    recompute (f + 1) s c = .er e (finishRecompute s5 c) := by
  simp only [recompute, hic, hev]
  rfl

theorem markDirty_dirty (f : Nat) (s : RState) (c : Nat)
    (hd : (getCell s c).dirty = true) :
    markDirty (f + 1) s c = .ok () s := by
  simp only [markDirty, hd]
  rfl

theorem markDirty_clean_lazy (f : Nat) (s : RState) (c : Nat)
    (hd : (getCell s c).dirty = false)
    (hlz : cellEager (getCell (setCell s c { getCell s c with dirty := true }) c) = false) :
    markDirty (f + 1) s c
      = markDirtyLoop f (setCell s c { getCell s c with dirty := true }) c [] := by
  simp only [markDirty, hd, hlz]
  rfl

theorem markDirtyLoop_none (f : Nat) (s : RState) (c : Nat) (visited : List NodeId)
    (hh : ((getCell s c).effects.filter (fun e => e ∉ visited)).head? = none) :
    markDirtyLoop (f + 1) s c visited = .ok () s := by
  simp only [markDirtyLoop, hh]

theorem markDirtyLoop_marker_ok (f : Nat) (s s' : RState) (c m : Nat)
    (visited : List NodeId) (u : Unit)
    (hh : ((getCell s c).effects.filter (fun e => e ∉ visited)).head? = some (.marker m))
    (hne : m ≠ c)
    (hm : markDirty f s m = .ok u s') :
    markDirtyLoop (f + 1) s c visited
      = markDirtyLoop f s' c (visited ++ [NodeId.marker m]) := by
  simp only [markDirtyLoop, hh, hm]
  rw [if_neg (by simp [hne])]

theorem writeNotify_nil (f : Nat) (s : RState) (c : Nat) :
    writeNotify (f + 1) s c [] = .ok () s := rfl

theorem writeNotify_marker_ok (f : Nat) (s s' : RState) (c m : Nat) (rest : List NodeId)
    (u : Unit) (hm : markDirty f s m = .ok u s') :
    writeNotify (f + 1) s c (.marker m :: rest) = writeNotify f s' c rest := by
  simp only [writeNotify, hm]
  rw [show nodeDisposed s (.marker m) = false from rfl]
  rfl

theorem writeNotify_eff (f : Nat) (s : RState) (c i : Nat) (rest : List NodeId)
    (hd : nodeDisposed s (.eff i) = false) :
    writeNotify (f + 1) s c (.eff i :: rest)
      = writeNotify f (scheduleEffect s (.eff i)) c rest := by
  simp only [writeNotify, hd]
  rfl

theorem runCmd_skip (f : Nat) (s : RState) : runCmd (f + 1) s .skip = .ok () s := rfl

theorem runCmd_seq_ok (f : Nat) (s s1 : RState) (a b : Cmd) (u : Unit)
    (h1 : runCmd f s a = .ok u s1) :
    runCmd (f + 1) s (.seq a b) = runCmd f s1 b := by
  simp only [runCmd, h1]

theorem runCmd_write_ok (f : Nat) (s s1 : RState) (c : Nat) (e : Expr) (v : Nat)
    (h1 : evalExpr f s e = .ok v s1) :
    runCmd (f + 1) s (.writeS c e) = writeCell f s1 c v := by
  simp only [runCmd, h1]

theorem runCmd_read_ok (f : Nat) (s s1 : RState) (c v : Nat)
    (h1 : readCell f s c = .ok v s1) :
    runCmd (f + 1) s (.readC c) = .ok () (appendRead s1 v) := by
  simp only [runCmd, h1]

theorem runCmd_batch_ok_inner (f : Nat) (s s2 : RState) (body : Cmd) (u : Unit)
    (h1 : runCmd f (enterBatch s) body = .ok u s2)
    (hd : (exitBatch s2).batchDepth ≠ 0) :
    runCmd (f + 1) s (.batchC body) = .ok () (exitBatch s2) := by
  simp only [runCmd, h1]
  rw [if_neg hd]

theorem runCmd_batch_ok_outer (f : Nat) (s s2 : RState) (body : Cmd) (u : Unit)
    (h1 : runCmd f (enterBatch s) body = .ok u s2)
    (hd : (exitBatch s2).batchDepth = 0) :
    runCmd (f + 1) s (.batchC body)
      = match flushEffects f (exitBatch s2) with
        | .ok _ s4 => .ok () s4
        | .er _ s4 => .ok () s4
        | .nf => .nf := by
  simp only [runCmd, h1]
  rw [if_pos hd]

theorem runEffect_ok (f : Nat) (s s3 : RState) (i : Nat) (u : Unit)
    (h1 : runCmd f (runEffectBegin s i) (getEff (runEffectBegin s i) i).body = .ok u s3) :
    runEffect (f + 1) s i = .ok () (popActive s3) := by
  simp only [runEffect, h1]

theorem runNode_eff (f : Nat) (s : RState) (i : Nat) :
    runNode (f + 1) s (.eff i) = runEffect f s i := by
  simp only [runNode]

theorem runNode_marker (f : Nat) (s : RState) (c : Nat) :
    runNode (f + 1) s (.marker c) = markDirty f s c := by
  simp only [runNode]

theorem flushRun_nil (f : Nat) (s : RState) : flushRun (f + 1) s [] = .ok () s := rfl

theorem flushRun_step_ok (f : Nat) (s s' : RState) (e : NodeId) (rest : List NodeId)
    (u : Unit) (hd : nodeDisposed s e = false) (h1 : runNode f s e = .ok u s') :
    flushRun (f + 1) s (e :: rest) = flushRun f s' rest := by
  simp only [flushRun, hd, h1]
  rfl

theorem flushLoop_empty (f : Nat) (s : RState) (iters : Nat) (hp : s.pending = []) :
    flushLoop (f + 1) s iters = .ok () s := by
  simp only [flushLoop, hp]
  rfl

theorem flushLoop_step_ok (f : Nat) (s s2 : RState) (iters : Nat) (u : Unit)
    (hne : s.pending.isEmpty = false) (hit : ¬ iters + 1 > MAX_FLUSH_ITERATIONS)
    (h1 : flushRun f (clearPending s) s.pending = .ok u s2) :
    flushLoop (f + 1) s iters = flushLoop f s2 (iters + 1) := by
  simp only [flushLoop, hne, h1]
  rw [if_neg (by simp), if_neg hit]

theorem flushEffects_loop_ok (f : Nat) (s s' : RState) (u : Unit)
    (h1 : flushLoop f s 0 = .ok u s') :
    flushEffects (f + 1) s = .ok () (stopFlushing s') := by
  simp only [flushEffects, h1]

/-!  ### C6: batching coalesces effect reruns while keeping computeds fresh -/

/-- Unfolding of the signal-write path (src/core/signal.ts lines 34-59) for
a cell known to be a plain signal. -/
theorem writeCell_sig (f : Nat) (s : RState) (c v : Nat)
    (hk : (getCell s c).kind = .sig) :
    writeCell (f + 1) s c v =
      match (getCell s c).equals.run (getCell s c).value v with
      | none => .er .eqThrow s
      | some true => .ok () s
      | some false =>
        writeNotify f (setCell s c { getCell s c with value := v }) c
          (getCell (setCell s c { getCell s c with value := v }) c).effects := by
  simp only [writeCell, hk]

/-- Bodies made of writes to cell 0, sequencing, and nested `batch` calls. -/
inductive BW where
  | wr : Nat → BW
  | sq : BW → BW → BW
  | ba : BW → BW
deriving DecidableEq, Repr

def BW.toCmd : BW → Cmd
  | .wr v => .writeS 0 (.const v)
  | .sq a b => .seq a.toCmd b.toCmd
  | .ba a => .batchC a.toCmd

/-- The write values of a body, in execution order. -/
def BW.writes : BW → List Nat
  | .wr v => [v]
  | .sq a b => a.writes ++ b.writes
  | .ba a => a.writes

/-- Fuel needed to run a body. -/
def BW.need : BW → Nat
  | .wr _ => 6
  | .sq a b => max a.need b.need + 1
  | .ba a => a.need + 1

/-- The mid-batch state family of the C6 scenario: one signal cell holding
`v`, watched by effect 0 (body: read the signal), which is pending iff
`sched`; batch depth `d`; ghost read log `rl`; the effect has run once (at
registration). -/
def c6mid (v : Nat) (sched : Bool) (d : Nat) (rl : List Nat) : RState :=
  { cells := [{ mkSig v with effects := [.eff 0] }],
    effs := [{ body := .readC 0, disposed := false, dependencies := [0] }],
    pending := if sched then [.eff 0] else [], isFlushing := false,
    batchDepth := d, active := [], errLog := 0, readLog := rl, runCounts := [1] }

/-- Where the flush at the end of the batch leaves the C6 scenario: the
effect reran exactly once and observed the final value `v`. -/
def c6fin (v : Nat) (rl : List Nat) : RState :=
  { cells := [{ mkSig v with effects := [.eff 0] }],
    effs := [{ body := .readC 0, disposed := false, dependencies := [0] }],
    pending := [], isFlushing := false, batchDepth := 0, active := [],
    errLog := 0, readLog := rl ++ [v], runCounts := [2] }

theorem c6_write (f v vw : Nat) (sched : Bool) (d : Nat) (rl : List Nat) :
    writeCell (f + 3) (c6mid v sched (d + 1) rl) 0 vw =
      .ok () (c6mid vw (sched || !(v == vw)) (d + 1) rl) := by
  rw [writeCell_sig (f + 2) (c6mid v sched (d + 1) rl) 0 vw rfl]
  by_cases hv : v = vw
  · subst hv
    rw [show (getCell (c6mid v sched (d + 1) rl) 0).equals.run
        (getCell (c6mid v sched (d + 1) rl) 0).value v = some (v == v) from rfl]
    rw [beq_self_eq_true v]
    simp
  · rw [show (getCell (c6mid v sched (d + 1) rl) 0).equals.run
        (getCell (c6mid v sched (d + 1) rl) 0).value vw = some (v == vw) from rfl]
    rw [beq_eq_false_iff_ne.mpr hv]
    cases sched with
    | false => rfl
    | true => rfl

/-- If no element differs from `v`, the last element defaults to `v`. -/
theorem getLastD_of_all_eq (l : List Nat) :
    ∀ v : Nat, l.any (fun w => !(v == w)) = false → l.getLastD v = v := by
  induction l with
  | nil => intro v _; rfl
  | cons x t ih =>
    intro v h
    simp only [List.any_cons, Bool.or_eq_false_iff] at h
    obtain ⟨h1, h2⟩ := h
    have hx : v = x := by
      have := beq_iff_eq (a := v) (b := x)
      cases hb : v == x with
      | true => exact this.mp hb
      | false => rw [hb] at h1; simp at h1
    subst hx
    rw [List.getLastD_cons]
    exact ih v h2

theorem getLastD_append_list (l1 : List Nat) :
    ∀ (l2 : List Nat) (d : Nat), (l1 ++ l2).getLastD d = l2.getLastD (l1.getLastD d) := by
  induction l1 with
  | nil => intro l2 d; rfl
  | cons x t ih =>
    intro l2 d
    rw [List.cons_append, List.getLastD_cons, List.getLastD_cons]
    exact ih l2 x

/-- Running a C6 body mid-batch: the signal ends at the last written value,
the watching effect does not run (its run counter is part of the `c6mid`
literal), it merely becomes pending as soon as some write changes the
value, and nested `batch` blocks do not flush (depth stays positive). -/
theorem c6_body (bw : BW) :
    ∀ (f v : Nat) (sched : Bool) (d : Nat) (rl : List Nat), bw.need ≤ f →
      runCmd f (c6mid v sched (d + 1) rl) bw.toCmd =
        .ok () (c6mid (bw.writes.getLastD v)
          (sched || bw.writes.any (fun w => !(v == w))) (d + 1) rl) := by
  induction bw with
  | wr vw =>
    intro f v sched d rl hf
    match f, hf with
    | f + 6, _ =>
      show runCmd (f + 6) _ (.writeS 0 (.const vw)) = _
      simp only [runCmd]
      rw [show evalExpr (f + 5) (c6mid v sched (d + 1) rl) (.const vw)
          = .ok vw (c6mid v sched (d + 1) rl) from rfl]
      dsimp only
      rw [show writeCell (f + 5) (c6mid v sched (d + 1) rl) 0 vw
          = writeCell (f + 2 + 3) (c6mid v sched (d + 1) rl) 0 vw from rfl]
      rw [c6_write (f + 2) v vw sched d rl]
      show _ = Res.ok () (c6mid ([vw].getLastD v) (sched || [vw].any fun w => !(v == w)) (d + 1) rl)
      rw [show [vw].getLastD v = vw from rfl]
      rw [show ([vw].any fun w => !(v == w)) = !(v == vw) by simp]
  | sq a b iha ihb =>
    intro f v sched d rl hf
    match f, hf with
    | f + 1, hf =>
      show runCmd (f + 1) _ (.seq a.toCmd b.toCmd) = _
      simp only [runCmd]
      rw [iha f v sched d rl (by simp [BW.need] at hf; omega)]
      show runCmd f _ b.toCmd = _
      rw [ihb f (a.writes.getLastD v) _ d rl (by simp [BW.need] at hf; omega)]
      simp only [BW.writes, getLastD_append_list, List.any_append]
      cases hA : a.writes.any (fun w => !(v == w)) with
      | true => simp
      | false =>
        rw [getLastD_of_all_eq a.writes v hA]
        simp
  | ba a iha =>
    intro f v sched d rl hf
    match f, hf with
    | f + 1, hf =>
      show runCmd (f + 1) _ (.batchC a.toCmd) = _
      simp only [runCmd]
      have he : enterBatch (c6mid v sched (d + 1) rl) = c6mid v sched (d + 1 + 1) rl := rfl
      rw [he, iha f v sched (d + 1) rl (by simp [BW.need] at hf; omega)]
      rfl

/-- The flush at the end of the outermost batch reruns the single pending
effect once: it re-reads (and so observes) the final signal value. -/
theorem c6_flush (v : Nat) (rl : List Nat) (f : Nat) :
    flushEffects (f + 14) (c6mid v true 0 rl) = .ok () (c6fin v rl) :=
  rfl

/-- Interleaved write-then-read-the-computed bodies, for the in-batch
computed-freshness part of C6. -/
def wrRead : List Nat → Cmd
  | [] => .skip
  | w :: ws => .seq (.seq (.writeS 0 (.const w)) (.readC 1)) (wrRead ws)

/-- The C6 computed-freshness family: signal cell 0 (value `v`) feeding the
wired, clean computed cell 1 (`= cell0 + 1`, cached `v + 1`); inside a
batch (depth `d + 1`). -/
def c6b (v : Nat) (d : Nat) (rl : List Nat) : RState :=
  { cells := [{ mkSig v with effects := [.marker 1] },
      { value := v + 1, equals := .default, effects := [],
        kind := .comp (.add (.readE 0) (.const 1)) false, dirty := false,
        isComputing := false, sources := [0], markerDeps := [0] }],
    effs := [], pending := [], isFlushing := false, batchDepth := d,
    active := [], errLog := 0, readLog := rl, runCounts := [] }

/-- The C6 computed family right after an effective write of `w` over old
value `vold`: the sync marker has fired inline, so the computed is dirty
(cache still `vold + 1`). -/
def c6bD (vold w : Nat) (d : Nat) (rl : List Nat) : RState :=
  { cells := [{ mkSig w with effects := [.marker 1] },
      { value := vold + 1, equals := .default, effects := [],
        kind := .comp (.add (.readE 0) (.const 1)) false, dirty := true,
        isComputing := false, sources := [0], markerDeps := [0] }],
    effs := [], pending := [], isFlushing := false, batchDepth := d,
    active := [], errLog := 0, readLog := rl, runCounts := [] }

/-- The state reached by `recomputeBegin` on `c6bD`: marker unlinked,
`isComputing` set, marker pushed. -/
def c6rb (v w : Nat) (d : Nat) (rl : List Nat) : RState :=
  { cells := [{ mkSig w with effects := [] },
      { value := v + 1, equals := .default, effects := [],
        kind := .comp (.add (.readE 0) (.const 1)) false, dirty := true,
        isComputing := true, sources := [], markerDeps := [] }],
    effs := [], pending := [], isFlushing := false, batchDepth := d,
    active := [.marker 1], errLog := 0, readLog := rl, runCounts := [] }

/-- `c6rb` after the tracked read of cell 0 re-registers the marker. -/
def c6tr (v w : Nat) (d : Nat) (rl : List Nat) : RState :=
  { cells := [{ mkSig w with effects := [.marker 1] },
      { value := v + 1, equals := .default, effects := [],
        kind := .comp (.add (.readE 0) (.const 1)) false, dirty := true,
        isComputing := true, sources := [], markerDeps := [0] }],
    effs := [], pending := [], isFlushing := false, batchDepth := d,
    active := [.marker 1], errLog := 0, readLog := rl, runCounts := [] }

/-- One effective write inside the batch marks the computed dirty through
the synchronous marker and the immediate re-read recomputes it — all before
the batch ends. -/
theorem c6b_write_read (f v w : Nat) (d : Nat) (rl : List Nat) :
    runCmd (f + 12) (c6b v (d + 1) rl) (.seq (.writeS 0 (.const w)) (.readC 1)) =
      .ok () (c6b w (d + 1) (rl ++ [w + 1])) := by
  by_cases hv : v = w
  · subst hv
    have h1 : runCmd (f + 11) (c6b v (d + 1) rl) (.writeS 0 (.const v))
        = .ok () (c6b v (d + 1) rl) := by
      rw [runCmd_write_ok (f + 10) _ _ 0 _ v (evalExpr_const (f + 9) _ v)]
      rw [writeCell_sig (f + 9) (c6b v (d + 1) rl) 0 v rfl]
      rw [show (getCell (c6b v (d + 1) rl) 0).equals.run
          (getCell (c6b v (d + 1) rl) 0).value v = some (v == v) from rfl]
      rw [beq_self_eq_true v]
    have h2 : readCell (f + 10) (c6b v (d + 1) rl) 1 = .ok (v + 1) (c6b v (d + 1) rl) := by
      rw [readCell_comp_clean (f + 9) (c6b v (d + 1) rl) 1
        (.add (.readE 0) (.const 1)) false rfl rfl]
      rfl
    show runCmd (f + 12) _ _ = _
    rw [runCmd_seq_ok (f + 11) _ _ _ _ () h1]
    rw [runCmd_read_ok (f + 10) _ _ 1 (v + 1) h2]
    rfl
  · have h1 : runCmd (f + 11) (c6b v (d + 1) rl) (.writeS 0 (.const w))
        = .ok () (c6bD v w (d + 1) rl) := by
      rw [runCmd_write_ok (f + 10) _ _ 0 _ w (evalExpr_const (f + 9) _ w)]
      rw [writeCell_sig (f + 9) (c6b v (d + 1) rl) 0 w rfl]
      rw [show (getCell (c6b v (d + 1) rl) 0).equals.run
          (getCell (c6b v (d + 1) rl) 0).value w = some (v == w) from rfl]
      rw [beq_eq_false_iff_ne.mpr hv]
      rw [show (getCell (setCell (c6b v (d + 1) rl) 0
          { getCell (c6b v (d + 1) rl) 0 with value := w }) 0).effects
          = [NodeId.marker 1] from rfl]
      have hmark : markDirty (f + 8)
          (setCell (c6b v (d + 1) rl) 0 { getCell (c6b v (d + 1) rl) 0 with value := w }) 1
          = .ok () (c6bD v w (d + 1) rl) := by
        rw [markDirty_clean_lazy (f + 7)
          (setCell (c6b v (d + 1) rl) 0 { getCell (c6b v (d + 1) rl) 0 with value := w })
          1 rfl rfl]
        rw [markDirtyLoop_none (f + 6)
          (setCell
            (setCell (c6b v (d + 1) rl) 0 { getCell (c6b v (d + 1) rl) 0 with value := w }) 1
            { getCell (setCell (c6b v (d + 1) rl) 0
                { getCell (c6b v (d + 1) rl) 0 with value := w }) 1 with dirty := true })
          1 [] rfl]
        rfl
      rw [writeNotify_marker_ok (f + 8)
        (setCell (c6b v (d + 1) rl) 0 { getCell (c6b v (d + 1) rl) 0 with value := w })
        (c6bD v w (d + 1) rl) 0 1 [] () hmark]
      exact writeNotify_nil (f + 7) (c6bD v w (d + 1) rl) 0
    have hRB : recomputeBegin (c6bD v w (d + 1) rl) 1 = c6rb v w (d + 1) rl := rfl
    have hTR : trackRead (c6rb v w (d + 1) rl) 0 = c6tr v w (d + 1) rl := rfl
    have hFIN : recomputeFinish (c6tr v w (d + 1) rl) 1 (w + 1) true
        = c6b w (d + 1) rl := rfl
    have hev : evalExpr (f + 8) (recomputeBegin (c6bD v w (d + 1) rl) 1)
        (cellExpr (getCell (recomputeBegin (c6bD v w (d + 1) rl) 1) 1))
        = .ok (w + 1) (c6tr v w (d + 1) rl) := by
      rw [hRB]
      rw [show cellExpr (getCell (c6rb v w (d + 1) rl) 1)
          = Expr.add (.readE 0) (.const 1) from rfl]
      refine evalExpr_add_ok (f + 7) (c6rb v w (d + 1) rl) (c6tr v w (d + 1) rl)
        (c6tr v w (d + 1) rl) (.readE 0) (.const 1) w 1 ?_ ?_
      · rw [evalExpr_read (f + 6) (c6rb v w (d + 1) rl) 0]
        rw [readCell_sig (f + 5) (c6rb v w (d + 1) rl) 0 rfl]
        rw [hTR]
        rfl
      · exact evalExpr_const (f + 6) (c6tr v w (d + 1) rl) 1
    have hrc : recompute (f + 9) (c6bD v w (d + 1) rl) 1 = .ok () (c6b w (d + 1) rl) := by
      have hrc0 := recompute_step_ok (f + 8) (c6bD v w (d + 1) rl) (c6tr v w (d + 1) rl)
        1 (w + 1) true rfl hev rfl
      rw [hFIN] at hrc0
      exact hrc0
    have h2 : readCell (f + 10) (c6bD v w (d + 1) rl) 1
        = .ok (w + 1) (c6b w (d + 1) rl) := by
      have h2a := readCell_comp_dirty_ok (f + 9) (c6bD v w (d + 1) rl) (c6b w (d + 1) rl)
        1 (.add (.readE 0) (.const 1)) false () rfl rfl hrc
      rw [show trackRead (c6b w (d + 1) rl) 1 = c6b w (d + 1) rl from rfl] at h2a
      rw [show (getCell (c6b w (d + 1) rl) 1).value = w + 1 from rfl] at h2a
      exact h2a
    show runCmd (f + 12) _ _ = _
    rw [runCmd_seq_ok (f + 11) _ _ _ _ () h1]
    rw [runCmd_read_ok (f + 10) _ _ 1 (w + 1) h2]
    rfl

theorem c6b_body (vs : List Nat) :
    ∀ (f v : Nat) (d : Nat) (rl : List Nat), 13 * (vs.length + 1) ≤ f →
      runCmd f (c6b v (d + 1) rl) (wrRead vs) =
        .ok () (c6b (vs.getLastD v) (d + 1) (rl ++ vs.map (fun w => w + 1))) := by
  induction vs with
  | nil =>
    intro f v d rl hf
    match f, hf with
    | f + 1, _ =>
      show runCmd (f + 1) _ (wrRead []) = _
      rw [show wrRead [] = Cmd.skip from rfl, runCmd_skip f _]
      rw [show List.getLastD ([] : List Nat) v = v from rfl, List.map_nil, List.append_nil]
  | cons w ws ih =>
    intro f v d rl hf
    match f, hf with
    | f + 1, hf =>
      show runCmd (f + 1) _ (.seq (.seq (.writeS 0 (.const w)) (.readC 1)) (wrRead ws)) = _
      have hf12 : f - 12 + 12 = f := by
        simp only [List.length_cons] at hf
        omega
      have hwr := c6b_write_read (f - 12) v w d rl
      rw [hf12] at hwr
      rw [runCmd_seq_ok f _ _ _ _ () hwr]
      rw [ih f w d (rl ++ [w + 1]) (by simp only [List.length_cons] at hf ⊢; omega)]
      rw [List.getLastD_cons, List.map_cons]
      simp

/-- **C6.**  Batching writes coalesces effect reruns to exactly one.  For
every body `bw` built from writes to the watched signal, sequencing, and
nested `batch` blocks, with at least one write changing the value `a0`:
running the body inside the batch (depth 1) leaves the watching effect
merely pending and unrun (run counter still 1), with the signal at the last
written value; only the outermost batch exit flushes, whereupon the effect
reruns exactly once (run counter 2) and observes the last-written value.
And the computed-freshness part: for any sequence of writes each followed
by a read of the derived cell inside the batch, every read observes the
value derived from the write just before it — correct before the batch ever
ends. -/
theorem C6_batch_coalesces_to_single_rerun (bw : BW) (f a0 : Nat) (rl : List Nat)
    (hf : bw.need + 15 ≤ f)
    (heff : bw.writes.any (fun w => !(a0 == w)) = true) :
    runCmd (f + 1) (c6mid a0 false 1 rl) bw.toCmd =
      .ok () (c6mid (bw.writes.getLastD a0) true 1 rl) ∧
    batchOp (f + 15) (c6mid a0 false 0 rl) bw.toCmd =
      .ok () (c6fin (bw.writes.getLastD a0) rl) ∧
    (∀ (vs : List Nat) (g v0 d : Nat) (rl0 : List Nat), 13 * (vs.length + 1) ≤ g →
      runCmd g (c6b v0 (d + 1) rl0) (wrRead vs) =
        .ok () (c6b (vs.getLastD v0) (d + 1) (rl0 ++ vs.map (fun w => w + 1)))) := by
  have hbody : ∀ g, bw.need ≤ g → runCmd g (c6mid a0 false 1 rl) bw.toCmd =
      .ok () (c6mid (bw.writes.getLastD a0) true 1 rl) := by
    intro g hg
    have h1 := c6_body bw g a0 false 0 rl hg
    rw [heff, Bool.false_or] at h1
    exact h1
  refine ⟨hbody (f + 1) (by omega), ?_, ?_⟩
  · unfold batchOp
    show runCmd (f + 15 + 1) _ (.batchC bw.toCmd) = _
    have hin : runCmd (f + 15) (enterBatch (c6mid a0 false 0 rl)) bw.toCmd
        = .ok () (c6mid (bw.writes.getLastD a0) true 1 rl) := by
      rw [show enterBatch (c6mid a0 false 0 rl) = c6mid a0 false 1 rl from rfl]
      exact hbody (f + 15) (by omega)
    rw [runCmd_batch_ok_outer (f + 15) (c6mid a0 false 0 rl)
      (c6mid (bw.writes.getLastD a0) true 1 rl) bw.toCmd () hin rfl]
    rw [show exitBatch (c6mid (bw.writes.getLastD a0) true 1 rl)
        = c6mid (bw.writes.getLastD a0) true 0 rl from rfl]
    rw [show flushEffects (f + 15) (c6mid (bw.writes.getLastD a0) true 0 rl)
        = flushEffects (f + 1 + 14) (c6mid (bw.writes.getLastD a0) true 0 rl) from rfl]
    rw [c6_flush (bw.writes.getLastD a0) rl (f + 1)]
  · intro vs g v0 d rl0 hg
    exact c6b_body vs g v0 d rl0 hg

/-- C6 witness: `batch(() => { set 5; batch(() => set 6); set 7 })` over a
signal initially `1`. -/
theorem C6_batch_coalesces_to_single_rerun_witness :
    runCmd 30 (c6mid 1 false 1 [1]) (BW.toCmd (.sq (.wr 5) (.sq (.ba (.wr 6)) (.wr 7)))) =
      .ok () (c6mid 7 true 1 [1]) ∧
    batchOp 44 (c6mid 1 false 0 [1]) (BW.toCmd (.sq (.wr 5) (.sq (.ba (.wr 6)) (.wr 7)))) =
      .ok () (c6fin 7 [1]) ∧
    runCmd 39 (c6b 1 1 []) (wrRead [5, 6]) = .ok () (c6b 6 1 [6, 7]) := by
  have h := C6_batch_coalesces_to_single_rerun (.sq (.wr 5) (.sq (.ba (.wr 6)) (.wr 7)))
    29 1 [1] (by decide) (by decide)
  exact ⟨h.1, h.2.1, h.2.2 [5, 6] 39 1 0 [] (by decide)⟩

/-!  ### C7: disposal is permanent and eager -/

/-- `List.getD` after `List.set`, fully characterised. -/
theorem getD_set_split {α : Type} [Inhabited α] :
    ∀ (l : List α) (a k : Nat) (x : α),
      (l.set a x).getD k default =
        if k = a ∧ a < l.length then x else l.getD k default := by
  intro l
  induction l with
  | nil => intro a k x; simp
  | cons h t ih =>
    intro a k x
    cases a with
    | zero =>
      cases k with
      | zero => simp
      | succ j => simp
    | succ b =>
      cases k with
      | zero => simp
      | succ j =>
        simp only [List.set_cons_succ, List.getD_cons_succ, ih b j x, List.length_cons]
        by_cases hc : j = b ∧ b < t.length
        · rw [if_pos hc, if_pos ⟨by rw [hc.1], Nat.succ_lt_succ hc.2⟩]
        · rw [if_neg hc, if_neg (fun hp =>
            hc ⟨Nat.succ_injective hp.1, Nat.lt_of_succ_lt_succ hp.2⟩)]

/-- Setting an index back to its own current value is a no-op. -/
theorem set_getD_self {α : Type} [Inhabited α] :
    ∀ (l : List α) (i : Nat), l.set i (l.getD i default) = l := by
  intro l
  induction l with
  | nil => intro i; simp
  | cons h t ih =>
    intro i
    cases i with
    | zero => simp
    | succ j => simp only [List.getD_cons_succ, List.set_cons_succ, ih j]

/-- `getD` at an index inside the left part of an append. -/
theorem getD_append_lt {α : Type} [Inhabited α] :
    ∀ (l l' : List α) (i : Nat), i < l.length →
      (l ++ l').getD i default = l.getD i default := by
  intro l
  induction l with
  | nil => intro l' i h; simp at h
  | cons a t ih =>
    intro l' i h
    cases i with
    | zero => rfl
    | succ j =>
      simp only [List.length_cons, Nat.succ_lt_succ_iff] at h
      simpa using ih l' j h

/-- `getD` at the fresh index right past an append of one element. -/
theorem getD_append_len {α : Type} [Inhabited α] :
    ∀ (l : List α) (e : α), (l ++ [e]).getD l.length default = e := by
  intro l e
  induction l with
  | nil => rfl
  | cons a t ih => simpa using ih

/-- Appending a `0` to the ghost run counters changes no `getD _ 0` value. -/
theorem counts_append_zero : ∀ (l : List Nat) (i : Nat), (l ++ [0]).getD i 0 = l.getD i 0 := by
  intro l
  induction l with
  | nil =>
    intro i
    cases i with
    | zero => rfl
    | succ j => cases j <;> rfl
  | cons a t ih =>
    intro i
    cases i with
    | zero => rfl
    | succ j => simpa using ih j

/-- `getD _ 0` away from the bumped index is unchanged. -/
theorem counts_set_ne : ∀ (l : List Nat) (j i v : Nat), i ≠ j →
    (l.set j v).getD i 0 = l.getD i 0 := by
  intro l
  induction l with
  | nil => intro j i v _; simp
  | cons a t ih =>
    intro j i v hne
    cases j with
    | zero =>
      cases i with
      | zero => exact absurd rfl hne
      | succ k => rfl
    | succ b =>
      cases i with
      | zero => rfl
      | succ k => simpa using ih b k v (fun h => hne (by rw [h]))

/-- The head of `getLast?` is a member. -/
theorem mem_getLast? {α : Type} : ∀ (l : List α) (a : α), l.getLast? = some a → a ∈ l := by
  intro l
  induction l with
  | nil => intro a h; simp at h
  | cons x t ih =>
    intro a h
    cases ht : t with
    | nil =>
      subst ht
      simp only [List.getLast?_singleton, Option.some.injEq] at h
      simp [h]
    | cons y u =>
      subst ht
      rw [List.getLast?_cons_cons] at h
      exact List.mem_cons_of_mem x (ih a h)

/-- The effect node `i` is dead: `disposed` set, no cell's dependents set
retains an edge to it, and it is not on the active stack. -/
def DeadInv (s : RState) (i : Nat) : Prop :=
  (getEff s i).disposed = true ∧
  (∀ c, c < s.cells.length → NodeId.eff i ∉ (getCell s c).effects) ∧
  NodeId.eff i ∉ s.active

instance (s : RState) (i : Nat) : Decidable (DeadInv s i) := by
  unfold DeadInv
  exact instDecidableAnd

/-- No cell at any index (in range or out) retains an edge to a dead node. -/
theorem deadInv_no_edge {s : RState} {i : Nat} (h : DeadInv s i) (c : Nat) :
    NodeId.eff i ∉ (getCell s c).effects := by
  by_cases hc : c < s.cells.length
  · exact h.2.1 c hc
  · rw [show getCell s c = default from
      List.getD_eq_default s.cells default (Nat.le_of_not_lt hc)]
    intro hm
    simp [default, Inhabited.default] at hm

/-- A dead node really exists (the out-of-range default is not disposed). -/
theorem deadInv_lt {s : RState} {i : Nat} (h : DeadInv s i) : i < s.effs.length := by
  by_cases hi : i < s.effs.length
  · exact hi
  · have : getEff s i = default := List.getD_eq_default s.effs default (Nat.le_of_not_lt hi)
    rw [DeadInv, this] at h
    exact absurd h.1 (by simp [default, Inhabited.default])

/-- One step preserves deadness of node `i` and freezes its run counter. -/
def Dead (i : Nat) (s s' : RState) : Prop :=
  DeadInv s i → DeadInv s' i ∧ s'.runCounts.getD i 0 = s.runCounts.getD i 0

theorem deadRefl (i : Nat) (s : RState) : Dead i s s := fun h => ⟨h, rfl⟩

theorem deadTrans {i : Nat} {s t u : RState} (h1 : Dead i s t) (h2 : Dead i t u) :
    Dead i s u := fun h =>
  ⟨(h2 ((h1 h).1)).1, ((h2 ((h1 h).1)).2).trans ((h1 h).2)⟩

/-- Result-level deadness preservation (vacuous on fuel exhaustion). -/
def ResDead {α : Type} (i : Nat) (s : RState) : Res α → Prop
  | .ok _ s' => Dead i s s'
  | .er _ s' => Dead i s s'
  | .nf => True

theorem resDead_ok {α : Type} {i : Nat} {s : RState} {r : Res α} {a : α} {s1 : RState}
    (h : ResDead i s r) (he : r = .ok a s1) : Dead i s s1 := by
  subst he; exact h

theorem resDead_er {α : Type} {i : Nat} {s : RState} {r : Res α} {e : RErr} {s1 : RState}
    (h : ResDead i s r) (he : r = .er e s1) : Dead i s s1 := by
  subst he; exact h

theorem resDead_of_dead {α : Type} {i : Nat} {s t : RState} {r : Res α}
    (h1 : Dead i s t) (h2 : ResDead i t r) : ResDead i s r := by
  cases r with
  | ok a s1 => exact deadTrans h1 h2
  | er e s1 => exact deadTrans h1 h2
  | nf => trivial

/-- Steps that do not touch cells, effect nodes, the active stack or the
run counters preserve deadness. -/
theorem dead_of_parts {i : Nat} {s s' : RState} (hc : s'.cells = s.cells)
    (he : s'.effs = s.effs) (ha : s'.active = s.active)
    (hr : s'.runCounts = s.runCounts) : Dead i s s' := by
  intro h
  refine ⟨⟨?_, ?_, ?_⟩, ?_⟩
  · rw [getEff, he]; exact h.1
  · intro c hlt
    rw [getCell, hc]
    rw [hc] at hlt
    exact h.2.1 c hlt
  · rw [ha]; exact h.2.2
  · rw [hr]

/-- Cell membership after `setCell` comes from the new cell or an old one. -/
theorem mem_effects_setCell {i : Nat} {s : RState} {a k : Nat} {cl : Cell}
    (h : NodeId.eff i ∈ (getCell (setCell s a cl) k).effects) :
    NodeId.eff i ∈ cl.effects ∨ NodeId.eff i ∈ (getCell s k).effects := by
  simp only [getCell, setCell] at h
  rw [getD_set_split s.cells a k cl] at h
  by_cases hc : k = a ∧ a < s.cells.length
  · rw [if_pos hc] at h; exact Or.inl h
  · rw [if_neg hc] at h; exact Or.inr h

theorem mem_of_mem_eraseNode {n' n : NodeId} {l : List NodeId}
    (h : n' ∈ eraseNode l n) : n' ∈ l ∧ n' ≠ n := by
  simp only [eraseNode, List.mem_filter, decide_eq_true_eq] at h
  exact h

theorem mem_of_mem_insertNode {n' n : NodeId} {l : List NodeId}
    (h : n' ∈ insertNode l n) : n' ∈ l ∨ n' = n := by
  rw [insertNode] at h
  split at h
  · exact Or.inl h
  · rcases List.mem_append.mp h with h2 | h2
    · exact Or.inl h2
    · exact Or.inr (List.mem_singleton.mp h2)

/-- Replacing a cell without adding edges to `i` preserves deadness. -/
theorem dead_setCell_keep {i : Nat} (s : RState) (a : Nat) (cl : Cell)
    (hcl : cl.effects = (getCell s a).effects) : Dead i s (setCell s a cl) := by
  intro h
  refine ⟨⟨h.1, ?_, h.2.2⟩, rfl⟩
  intro k _ hm
  rcases mem_effects_setCell hm with hin | hin
  · rw [hcl] at hin
    exact deadInv_no_edge h a hin
  · exact deadInv_no_edge h k hin

theorem effs_set_disposed : ∀ (l : List EffectNode) (j : Nat) (e : EffectNode),
    e.disposed = (l.getD j default).disposed →
    ∀ i, ((l.set j e).getD i default).disposed = (l.getD i default).disposed := by
  intro l j e he i
  rw [getD_set_split l j i e]
  by_cases hc : i = j ∧ j < l.length
  · rw [if_pos hc, he, hc.1]
  · rw [if_neg hc]

theorem dead_setNodeDeps {i : Nat} (s : RState) (n : NodeId) (d : List Nat) :
    Dead i s (setNodeDeps s n d) := by
  cases n with
  | marker c => exact dead_setCell_keep s c _ rfl
  | eff j =>
    intro h
    refine ⟨⟨?_, h.2.1, h.2.2⟩, rfl⟩
    show ((s.effs.set j { getEff s j with dependencies := d }).getD i default).disposed = true
    rw [effs_set_disposed s.effs j { getEff s j with dependencies := d } rfl i]
    exact h.1

theorem dead_removeEffect {i : Nat} (s : RState) (c : Nat) (n : NodeId) :
    Dead i s (removeEffect s c n) := by
  have d1 : Dead i s
      (setCell s c { getCell s c with effects := eraseNode (getCell s c).effects n }) := by
    intro h
    refine ⟨⟨h.1, ?_, h.2.2⟩, rfl⟩
    intro k _ hm
    rcases mem_effects_setCell hm with hin | hin
    · exact deadInv_no_edge h c (mem_of_mem_eraseNode hin).1
    · exact deadInv_no_edge h k hin
  exact deadTrans d1 (dead_setNodeDeps _ n _)

theorem dead_addEffect {i : Nat} (s : RState) (c : Nat) (n : NodeId)
    (hn : n ≠ NodeId.eff i) : Dead i s (addEffect s c n) := by
  have d1 : Dead i s
      (setCell s c { getCell s c with effects := insertNode (getCell s c).effects n }) := by
    intro h
    refine ⟨⟨h.1, ?_, h.2.2⟩, rfl⟩
    intro k _ hm
    rcases mem_effects_setCell hm with hin | hin
    · rcases mem_of_mem_insertNode hin with h2 | h2
      · exact deadInv_no_edge h c h2
      · exact hn h2.symm
    · exact deadInv_no_edge h k hin
  exact deadTrans d1 (dead_setNodeDeps _ n _)

theorem dead_scheduleEffect {i : Nat} (s : RState) (n : NodeId) :
    Dead i s (scheduleEffect s n) := by
  unfold scheduleEffect
  split
  · exact deadRefl i s
  · dsimp only
    split
    · exact dead_of_parts rfl rfl rfl rfl
    · exact dead_of_parts rfl rfl rfl rfl

theorem dead_logError {i : Nat} (s : RState) : Dead i s (logError s) :=
  dead_of_parts rfl rfl rfl rfl

theorem dead_clearPending {i : Nat} (s : RState) : Dead i s (clearPending s) :=
  dead_of_parts rfl rfl rfl rfl

theorem dead_stopFlushing {i : Nat} (s : RState) : Dead i s (stopFlushing s) :=
  dead_of_parts rfl rfl rfl rfl

theorem dead_appendRead {i : Nat} (s : RState) (v : Nat) : Dead i s (appendRead s v) :=
  dead_of_parts rfl rfl rfl rfl

theorem dead_enterBatch {i : Nat} (s : RState) : Dead i s (enterBatch s) :=
  dead_of_parts rfl rfl rfl rfl

theorem dead_exitBatch {i : Nat} (s : RState) : Dead i s (exitBatch s) :=
  dead_of_parts rfl rfl rfl rfl

theorem dead_pushActive {i : Nat} (s : RState) (n : NodeId) (hn : n ≠ NodeId.eff i) :
    Dead i s (pushActive s n) := by
  intro h
  refine ⟨⟨h.1, h.2.1, ?_⟩, rfl⟩
  intro hm
  rcases List.mem_append.mp hm with h2 | h2
  · exact h.2.2 h2
  · exact hn (List.mem_singleton.mp h2).symm

theorem dead_popActive {i : Nat} (s : RState) : Dead i s (popActive s) := by
  intro h
  refine ⟨⟨h.1, h.2.1, ?_⟩, rfl⟩
  intro hm
  exact h.2.2 (List.dropLast_subset s.active hm)

theorem dead_foldRemove {i : Nat} (l : List Nat) (n : NodeId) :
    ∀ s : RState, Dead i s (l.foldl (fun st c => removeEffect st c n) s) := by
  induction l with
  | nil => intro s; exact deadRefl i s
  | cons c t ih =>
    intro s
    exact deadTrans (dead_removeEffect s c n) (ih (removeEffect s c n))

theorem dead_cleanupDeps {i : Nat} (s : RState) (n : NodeId) :
    Dead i s (cleanupDeps s n) :=
  deadTrans (dead_foldRemove _ n s) (dead_setNodeDeps _ n _)

theorem dead_recomputeNotify {i : Nat} (l : List NodeId) :
    ∀ (s : RState) (c : Nat), Dead i s (recomputeNotify s c l) := by
  induction l with
  | nil => intro s c; exact deadRefl i s
  | cons e t ih =>
    intro s c
    unfold recomputeNotify
    split
    · exact deadTrans (dead_removeEffect s c e) (ih _ c)
    · split
      · exact ih s c
      · exact deadTrans (dead_scheduleEffect s e) (ih _ c)

theorem dead_removeSources {i : Nat} (s : RState) (c : Nat) :
    Dead i s (removeSources s c) :=
  dead_foldRemove _ _ s

theorem dead_finishRecompute {i : Nat} (s : RState) (c : Nat) :
    Dead i s (finishRecompute s c) := by
  have d1 : Dead i s { s with active := s.active.dropLast } := dead_popActive s
  exact deadTrans d1 (dead_setCell_keep _ c _ rfl)

theorem dead_trackRead {i : Nat} (s : RState) (c : Nat) : Dead i s (trackRead s c) := by
  unfold trackRead
  cases hg : s.active.getLast? with
  | none => exact deadRefl i s
  | some n =>
    intro h
    have hn : n ≠ NodeId.eff i := by
      intro he
      exact h.2.2 (he ▸ mem_getLast? s.active n hg)
    exact dead_addEffect s c n hn h

theorem dead_recomputeBegin {i : Nat} (s : RState) (c : Nat) :
    Dead i s (recomputeBegin s c) := by
  unfold recomputeBegin
  dsimp only
  refine deadTrans ?_ (dead_pushActive _ (NodeId.marker c) (by simp))
  refine deadTrans ?_ (dead_setCell_keep _ c _ rfl)
  refine deadTrans ?_ (dead_removeSources _ c)
  exact dead_setCell_keep s c _ rfl

theorem dead_recomputeFinish {i : Nat} (s : RState) (c newV : Nat) (hc : Bool) :
    Dead i s (recomputeFinish s c newV hc) := by
  unfold recomputeFinish
  dsimp only
  refine deadTrans ?_ (dead_finishRecompute _ c)
  refine deadTrans ?_ (dead_setCell_keep _ c _ rfl)
  refine deadTrans ?_ (dead_setCell_keep _ c _ rfl)
  split
  · refine deadTrans ?_ (dead_recomputeNotify _ _ c)
    exact dead_setCell_keep s c _ rfl
  · exact deadRefl i s

theorem dead_runEffectBegin {i : Nat} (s : RState) (j : Nat) (hj : j ≠ i) :
    Dead i s (runEffectBegin s j) := by
  have d0 : Dead i s { s with runCounts := bumpCount s.runCounts j } := by
    intro h
    refine ⟨⟨h.1, h.2.1, h.2.2⟩, ?_⟩
    exact counts_set_ne s.runCounts j i _ (fun he => hj he.symm)
  have d1 := deadTrans d0 (dead_cleanupDeps (i := i) _ (NodeId.eff j))
  exact deadTrans d1 (dead_pushActive _ (NodeId.eff j) (by simp [hj]))

/-- Deadness of node `i` (and the freeze of its run counter) is preserved by
every function of the interpreter.  `runEffect`/`runNode` are invoked by the
runtime only on nodes whose `disposed` flag is clear (the flush loop checks
it, registration runs a fresh node), which the corresponding conjuncts
assume. -/
theorem deadAll (i : Nat) (f : Nat) :
    (∀ (s : RState) (e : Expr), ResDead i s (evalExpr f s e)) ∧
    (∀ (s : RState) (c : Nat), ResDead i s (readCell f s c)) ∧
    (∀ (s : RState) (c v : Nat), ResDead i s (writeCell f s c v)) ∧
    (∀ (s : RState) (c : Nat) (l : List NodeId), ResDead i s (writeNotify f s c l)) ∧
    (∀ (s : RState) (c : Nat), ResDead i s (markDirty f s c)) ∧
    (∀ (s : RState) (c : Nat) (vis : List NodeId), ResDead i s (markDirtyLoop f s c vis)) ∧
    (∀ (s : RState) (c : Nat), ResDead i s (recompute f s c)) ∧
    (∀ (s : RState) (j : Nat), (getEff s j).disposed = false →
      ResDead i s (runEffect f s j)) ∧
    (∀ (s : RState) (n : NodeId), nodeDisposed s n = false →
      ResDead i s (runNode f s n)) ∧
    (∀ (s : RState) (iters : Nat), ResDead i s (flushLoop f s iters)) ∧
    (∀ (s : RState) (l : List NodeId), ResDead i s (flushRun f s l)) ∧
    (∀ s : RState, ResDead i s (flushEffects f s)) ∧
    (∀ (s : RState) (c : Cmd), ResDead i s (runCmd f s c)) := by
  induction f with
  | zero =>
    refine ⟨?_, ?_, ?_, ?_, ?_, ?_, ?_, ?_, ?_, ?_, ?_, ?_, ?_⟩ <;>
      intros <;> simp [evalExpr, readCell, writeCell, writeNotify, markDirty, markDirtyLoop,
        recompute, runEffect, runNode, flushLoop, flushRun, flushEffects, runCmd, ResDead]
  | succ f ih =>
    obtain ⟨ihE, ihR, ihW, ihWN, ihM, ihML, ihRC, ihRE, ihRN, ihFL, ihFR, ihFE, ihC⟩ := ih
    refine ⟨?_, ?_, ?_, ?_, ?_, ?_, ?_, ?_, ?_, ?_, ?_, ?_, ?_⟩
    -- evalExpr
    · intro s e
      match e with
      | .const n => exact deadRefl i s
      | .readE c => exact ihR s c
      | .add a b =>
        simp only [evalExpr]
        cases h1 : evalExpr f s a with
        | ok va s1 =>
          try dsimp only
          have p1 := resDead_ok (ihE s a) h1
          cases h2 : evalExpr f s1 b with
          | ok vb s2 => exact deadTrans p1 (resDead_ok (ihE s1 b) h2)
          | er e2 s2 => exact deadTrans p1 (resDead_er (ihE s1 b) h2)
          | nf => trivial
        | er e1 s1 => exact resDead_er (ihE s a) h1
        | nf => trivial
      | .mul a b =>
        simp only [evalExpr]
        cases h1 : evalExpr f s a with
        | ok va s1 =>
          try dsimp only
          have p1 := resDead_ok (ihE s a) h1
          cases h2 : evalExpr f s1 b with
          | ok vb s2 => exact deadTrans p1 (resDead_ok (ihE s1 b) h2)
          | er e2 s2 => exact deadTrans p1 (resDead_er (ihE s1 b) h2)
          | nf => trivial
        | er e1 s1 => exact resDead_er (ihE s a) h1
        | nf => trivial
      | .ifz cnd a b =>
        simp only [evalExpr]
        cases h1 : evalExpr f s cnd with
        | ok vc s1 =>
          try dsimp only
          have p1 := resDead_ok (ihE s cnd) h1
          split
          · exact resDead_of_dead p1 (ihE s1 a)
          · exact resDead_of_dead p1 (ihE s1 b)
        | er e1 s1 => exact resDead_er (ihE s cnd) h1
        | nf => trivial
      | .throwE => exact deadRefl i s
    -- readCell
    · intro s c
      simp only [readCell]
      split
      · exact dead_trackRead s c
      · split
        · cases h1 : recompute f s c with
          | ok u s1 =>
            try dsimp only
            exact deadTrans (resDead_ok (ihRC s c) h1) (dead_trackRead s1 c)
          | er e1 s1 => exact resDead_er (ihRC s c) h1
          | nf => trivial
        · exact dead_trackRead s c
    -- writeCell
    · intro s c v
      simp only [writeCell]
      split
      · exact deadRefl i s
      · split
        · exact deadRefl i s
        · exact deadRefl i s
        · have hd1 : Dead i s (setCell s c { getCell s c with value := v }) :=
            dead_setCell_keep s c _ rfl
          exact resDead_of_dead hd1 (ihWN _ c _)
    -- writeNotify
    · intro s c l
      match l with
      | [] => exact deadRefl i s
      | e :: rest =>
        simp only [writeNotify]
        split
        · exact resDead_of_dead (dead_removeEffect s c e) (ihWN _ c rest)
        · cases e with
          | marker m =>
            try dsimp only
            cases h1 : markDirty f s m with
            | ok u s1 =>
              try dsimp only
              exact resDead_of_dead (resDead_ok (ihM s m) h1) (ihWN s1 c rest)
            | er e1 s1 =>
              try dsimp only
              exact resDead_of_dead (deadTrans (resDead_er (ihM s m) h1) (dead_logError s1))
                (ihWN _ c rest)
            | nf => trivial
          | eff j =>
            try dsimp only
            exact resDead_of_dead (dead_scheduleEffect s (NodeId.eff j)) (ihWN _ c rest)
    -- markDirty
    · intro s c
      simp only [markDirty]
      split
      · exact deadRefl i s
      · split
        · cases h1 : recompute f (setCell s c { getCell s c with dirty := true }) c with
          | ok u s1 =>
            try dsimp only
            have hd1 : Dead i s (setCell s c { getCell s c with dirty := true }) :=
              dead_setCell_keep s c _ rfl
            exact resDead_of_dead
              (deadTrans hd1
                (resDead_ok (ihRC (setCell s c { getCell s c with dirty := true }) c) h1))
              (ihML s1 c [])
          | er e1 s1 =>
            try dsimp only
            have hd1 : Dead i s (setCell s c { getCell s c with dirty := true }) :=
              dead_setCell_keep s c _ rfl
            exact deadTrans hd1
              (resDead_er (ihRC (setCell s c { getCell s c with dirty := true }) c) h1)
          | nf => trivial
        · have hd1 : Dead i s (setCell s c { getCell s c with dirty := true }) :=
            dead_setCell_keep s c _ rfl
          exact resDead_of_dead hd1 (ihML _ c [])
    -- markDirtyLoop
    · intro s c vis
      simp only [markDirtyLoop]
      split
      · exact deadRefl i s
      · split
        · exact ihML s c _
        · rename_i e heq hne
          cases e with
          | marker m =>
            try dsimp only
            cases h1 : markDirty f s m with
            | ok u s1 =>
              try dsimp only
              exact resDead_of_dead (resDead_ok (ihM s m) h1) (ihML s1 c _)
            | er e1 s1 =>
              try dsimp only
              exact resDead_of_dead (deadTrans (resDead_er (ihM s m) h1) (dead_logError s1))
                (ihML _ c _)
            | nf => trivial
          | eff j =>
            try dsimp only
            exact resDead_of_dead (dead_scheduleEffect s (NodeId.eff j)) (ihML _ c _)
    -- recompute
    · intro s c
      simp only [recompute]
      split
      · exact deadRefl i s
      · cases h1 : evalExpr f (recomputeBegin s c) (cellExpr (getCell (recomputeBegin s c) c)) with
        | ok newV s5 =>
          try dsimp only
          have p5 := deadTrans (dead_recomputeBegin s c) (resDead_ok (ihE _ _) h1)
          cases h2 : hasChangedCheck (getCell s5 c) newV with
          | none => exact deadTrans p5 (dead_finishRecompute s5 c)
          | some hc => exact deadTrans p5 (dead_recomputeFinish s5 c newV hc)
        | er e1 s5 =>
          exact deadTrans (dead_recomputeBegin s c)
            (deadTrans (resDead_er (ihE _ _) h1) (dead_finishRecompute s5 c))
        | nf => trivial
    -- runEffect
    · intro s j hj
      simp only [runEffect]
      cases h1 : runCmd f (runEffectBegin s j) (getEff (runEffectBegin s j) j).body with
      | ok u s3 =>
        intro h
        have hji : j ≠ i := by
          intro he
          rw [he, h.1] at hj
          exact absurd hj (by decide)
        exact (deadTrans (dead_runEffectBegin s j hji)
          (deadTrans (resDead_ok (ihC _ _) h1) (dead_popActive _))) h
      | er e1 s3 =>
        intro h
        have hji : j ≠ i := by
          intro he
          rw [he, h.1] at hj
          exact absurd hj (by decide)
        exact (deadTrans (dead_runEffectBegin s j hji)
          (deadTrans (resDead_er (ihC _ _) h1) (dead_popActive _))) h
      | nf => trivial
    -- runNode
    · intro s n hn
      cases n with
      | eff j => exact ihRE s j hn
      | marker c => exact ihM s c
    -- flushLoop
    · intro s iters
      simp only [flushLoop]
      split
      · exact deadRefl i s
      · split
        · exact dead_clearPending s
        · cases h1 : flushRun f (clearPending s) s.pending with
          | ok u s2 =>
            try dsimp only
            exact resDead_of_dead
              (deadTrans (dead_clearPending s) (resDead_ok (ihFR _ _) h1))
              (ihFL s2 (iters + 1))
          | er e1 s2 => exact deadTrans (dead_clearPending s) (resDead_er (ihFR _ _) h1)
          | nf => trivial
    -- flushRun
    · intro s l
      match l with
      | [] => exact deadRefl i s
      | e :: rest =>
        simp only [flushRun]
        split
        · exact ihFR s rest
        · rename_i hnd
          have hnd2 : nodeDisposed s e = false := by simpa using hnd
          cases h1 : runNode f s e with
          | ok u s1 =>
            try dsimp only
            exact resDead_of_dead (resDead_ok (ihRN s e hnd2) h1) (ihFR s1 rest)
          | er e1 s1 =>
            try dsimp only
            exact resDead_of_dead
              (deadTrans (resDead_er (ihRN s e hnd2) h1) (dead_logError s1)) (ihFR _ rest)
          | nf => trivial
    -- flushEffects
    · intro s
      simp only [flushEffects]
      cases h1 : flushLoop f s 0 with
      | ok u s1 => exact deadTrans (resDead_ok (ihFL s 0) h1) (dead_stopFlushing s1)
      | er e1 s1 => exact deadTrans (resDead_er (ihFL s 0) h1) (dead_stopFlushing s1)
      | nf => trivial
    -- runCmd
    · intro s c
      match c with
      | .skip => exact deadRefl i s
      | .seq a b =>
        simp only [runCmd]
        cases h1 : runCmd f s a with
        | ok u s1 =>
          try dsimp only
          exact resDead_of_dead (resDead_ok (ihC s a) h1) (ihC s1 b)
        | er e1 s1 => exact resDead_er (ihC s a) h1
        | nf => trivial
      | .throwC => exact deadRefl i s
      | .readC cc =>
        simp only [runCmd]
        cases h1 : readCell f s cc with
        | ok v s1 => exact deadTrans (resDead_ok (ihR s cc) h1) (dead_appendRead s1 v)
        | er e1 s1 => exact resDead_er (ihR s cc) h1
        | nf => trivial
      | .writeS cc e =>
        simp only [runCmd]
        cases h1 : evalExpr f s e with
        | ok v s1 =>
          try dsimp only
          exact resDead_of_dead (resDead_ok (ihE s e) h1) (ihW s1 cc v)
        | er e1 s1 => exact resDead_er (ihE s e) h1
        | nf => trivial
      | .batchC body =>
        simp only [runCmd]
        cases h1 : runCmd f (enterBatch s) body with
        | ok u s2 =>
          try dsimp only
          have p2 := deadTrans (dead_enterBatch s)
            (deadTrans (resDead_ok (ihC _ _) h1) (dead_exitBatch s2))
          split
          · cases h2 : flushEffects f (exitBatch s2) with
            | ok u2 s4 => exact deadTrans p2 (resDead_ok (ihFE _) h2)
            | er e2 s4 => exact deadTrans p2 (resDead_er (ihFE _) h2)
            | nf => trivial
          · exact p2
        | er e1 s2 =>
          try dsimp only
          have p2 := deadTrans (dead_enterBatch s)
            (deadTrans (resDead_er (ihC _ _) h1) (dead_exitBatch s2))
          split
          · cases h2 : flushEffects f (exitBatch s2) with
            | ok u2 s4 => exact deadTrans p2 (resDead_ok (ihFE _) h2)
            | er e2 s4 => exact deadTrans p2 (resDead_er (ihFE _) h2)
            | nf => trivial
          · exact p2
        | nf => trivial

/-- `getCell` after `setCell`, fully characterised. -/
theorem getCell_setCell_split (s : RState) (a k : Nat) (cl : Cell) :
    getCell (setCell s a cl) k =
      if k = a ∧ a < s.cells.length then cl else getCell s k := by
  simp only [getCell, setCell]
  exact getD_set_split s.cells a k cl

theorem removeEffect_disposed (st : RState) (c : Nat) (n : NodeId) (j : Nat) :
    (getEff (removeEffect st c n) j).disposed = (getEff st j).disposed := by
  cases n with
  | marker m => rfl
  | eff k =>
    apply effs_set_disposed st.effs k
    rfl

theorem foldRemove_effs_disposed (i : Nat) :
    ∀ (d : List Nat) (st : RState),
      (getEff (d.foldl (fun st c => removeEffect st c (NodeId.eff i)) st) i).disposed
        = (getEff st i).disposed := by
  intro d
  induction d with
  | nil => intro st; rfl
  | cons c t ih =>
    intro st
    rw [List.foldl_cons, ih (removeEffect st c (NodeId.eff i))]
    exact removeEffect_disposed st c (NodeId.eff i) i

theorem removeEffect_deps_self (st : RState) (c i : Nat) :
    (getEff (removeEffect st c (NodeId.eff i)) i).dependencies
      = eraseNat (getEff st i).dependencies c := by
  show ((st.effs.set i _).getD i default).dependencies = _
  rw [getD_set_split]
  by_cases hi : i < st.effs.length
  · rw [if_pos ⟨rfl, hi⟩]
    rfl
  · rw [if_neg (fun hp => hi hp.2)]
    rw [getEff, List.getD_eq_default st.effs default (Nat.le_of_not_lt hi)]
    rfl

theorem foldRemove_deps (i : Nat) :
    ∀ (d : List Nat) (st : RState),
      (getEff (d.foldl (fun st c => removeEffect st c (NodeId.eff i)) st) i).dependencies
        = d.foldl eraseNat (getEff st i).dependencies := by
  intro d
  induction d with
  | nil => intro st; rfl
  | cons c t ih =>
    intro st
    rw [List.foldl_cons, ih (removeEffect st c (NodeId.eff i)),
      removeEffect_deps_self st c i, List.foldl_cons]

theorem mem_removeEffect_self {st : RState} {c i k : Nat}
    (h : NodeId.eff i ∈ (getCell (removeEffect st c (NodeId.eff i)) k).effects) :
    NodeId.eff i ∈ (getCell st k).effects ∧ k ≠ c := by
  have h2 : NodeId.eff i ∈ (getCell (setCell st c
      { getCell st c with
        effects := eraseNode (getCell st c).effects (NodeId.eff i) }) k).effects := h
  rw [getCell_setCell_split] at h2
  by_cases hk : k = c ∧ c < st.cells.length
  · rw [if_pos hk] at h2
    exact absurd rfl (mem_of_mem_eraseNode h2).2
  · rw [if_neg hk] at h2
    refine ⟨h2, ?_⟩
    intro hkc
    subst hkc
    have hlen : ¬ k < st.cells.length := fun hl => hk ⟨rfl, hl⟩
    rw [getCell, List.getD_eq_default st.cells default (Nat.le_of_not_lt hlen)] at h2
    simp [default, Inhabited.default] at h2

theorem foldRemove_mem {i : Nat} :
    ∀ (d : List Nat) (st : RState) (k : Nat),
      NodeId.eff i ∈
        (getCell (d.foldl (fun st c => removeEffect st c (NodeId.eff i)) st) k).effects →
      NodeId.eff i ∈ (getCell st k).effects ∧ k ∉ d := by
  intro d
  induction d with
  | nil => intro st k h; exact ⟨h, by simp⟩
  | cons c t ih =>
    intro st k h
    have h1 := ih (removeEffect st c (NodeId.eff i)) k h
    have h2 := mem_removeEffect_self h1.1
    refine ⟨h2.1, ?_⟩
    intro hm
    rcases List.mem_cons.mp hm with he | he
    · exact h2.2 he
    · exact h1.2 he

theorem removeEffect_cells_len (st : RState) (c : Nat) (n : NodeId) :
    (removeEffect st c n).cells.length = st.cells.length := by
  cases n with
  | marker m => simp [removeEffect, setNodeDeps, setCell]
  | eff k => simp [removeEffect, setNodeDeps, setEff, setCell]

theorem foldRemove_cells_len (i : Nat) :
    ∀ (d : List Nat) (st : RState),
      (d.foldl (fun st c => removeEffect st c (NodeId.eff i)) st).cells.length
        = st.cells.length := by
  intro d
  induction d with
  | nil => intro st; rfl
  | cons c t ih =>
    intro st
    rw [List.foldl_cons, ih (removeEffect st c (NodeId.eff i)),
      removeEffect_cells_len st c (NodeId.eff i)]

theorem removeEffect_active (st : RState) (c : Nat) (n : NodeId) :
    (removeEffect st c n).active = st.active := by
  cases n with
  | marker m => rfl
  | eff k => rfl

theorem foldRemove_active (i : Nat) :
    ∀ (d : List Nat) (st : RState),
      (d.foldl (fun st c => removeEffect st c (NodeId.eff i)) st).active = st.active := by
  intro d
  induction d with
  | nil => intro st; rfl
  | cons c t ih =>
    intro st
    rw [List.foldl_cons, ih (removeEffect st c (NodeId.eff i)),
      removeEffect_active st c (NodeId.eff i)]

theorem removeEffect_counts (st : RState) (c : Nat) (n : NodeId) :
    (removeEffect st c n).runCounts = st.runCounts := by
  cases n with
  | marker m => rfl
  | eff k => rfl

theorem foldRemove_counts (i : Nat) :
    ∀ (d : List Nat) (st : RState),
      (d.foldl (fun st c => removeEffect st c (NodeId.eff i)) st).runCounts
        = st.runCounts := by
  intro d
  induction d with
  | nil => intro st; rfl
  | cons c t ih =>
    intro st
    rw [List.foldl_cons, ih (removeEffect st c (NodeId.eff i)),
      removeEffect_counts st c (NodeId.eff i)]

/-- `dispose` eagerly kills the node: given the one-sided link invariant of
the live runtime (every cell pointing at the node is recorded in the node's
`dependencies`) and the node not being mid-run, the node ends up disposed,
unlinked from every cell, and off the active stack. -/
theorem disposeEffect_dead (s : RState) (i : Nat)
    (hsub : ∀ c, c < s.cells.length → NodeId.eff i ∈ (getCell s c).effects →
      c ∈ (getEff s i).dependencies)
    (hact : NodeId.eff i ∉ s.active)
    (hi : i < s.effs.length) :
    DeadInv (disposeEffect s i) i := by
  unfold disposeEffect
  dsimp only
  refine ⟨?_, ?_, ?_⟩
  · rw [foldRemove_effs_disposed]
    show ((s.effs.set i _).getD i default).disposed = true
    rw [getD_set_split, if_pos ⟨rfl, hi⟩]
  · intro k hk hm
    have h1 := foldRemove_mem _ _ k hm
    have hmem : NodeId.eff i ∈ (getCell s k).effects := h1.1
    have hdeps : nodeDeps (setEff s i { getEff s i with disposed := true }) (NodeId.eff i)
        = (getEff s i).dependencies := by
      show ((s.effs.set i _).getD i default).dependencies = _
      rw [getD_set_split, if_pos ⟨rfl, hi⟩]
    rw [foldRemove_cells_len] at hk
    refine h1.2 ?_
    rw [hdeps]
    exact hsub k hk hmem
  · rw [foldRemove_active]
    exact hact

/-- `dispose` itself does not run the node: the ghost counters are
untouched. -/
theorem disposeEffect_counts (s : RState) (i : Nat) :
    (disposeEffect s i).runCounts = s.runCounts := by
  unfold disposeEffect
  dsimp only
  rw [foldRemove_counts]
  rfl

theorem effnode_update_disposed_self (e : EffectNode) (he : e.disposed = true) :
    { e with disposed := true } = e := by
  cases e with
  | mk b d dep =>
    subst he
    rfl

theorem mem_foldl_eraseNat :
    ∀ (d d0 : List Nat) (x : Nat), x ∈ d.foldl eraseNat d0 → x ∈ d0 ∧ x ∉ d := by
  intro d
  induction d with
  | nil => intro d0 x h; exact ⟨h, by simp⟩
  | cons c t ih =>
    intro d0 x h
    have h1 := ih (eraseNat d0 c) x h
    have h2 : x ∈ d0 ∧ x ≠ c := by
      have h3 := h1.1
      simp only [eraseNat, List.mem_filter, decide_eq_true_eq] at h3
      exact h3
    refine ⟨h2.1, ?_⟩
    intro hm
    rcases List.mem_cons.mp hm with he | he
    · exact h2.2 he
    · exact h1.2 he

theorem foldl_eraseNat_self (d : List Nat) : d.foldl eraseNat d = [] := by
  refine List.eq_nil_iff_forall_not_mem.mpr ?_
  intro x hx
  have h := mem_foldl_eraseNat d d x hx
  exact h.2 h.1

/-- A second `dispose()` is a literal no-op on the state. -/
theorem disposeEffect_idem (s : RState) (i : Nat) (hi : i < s.effs.length) :
    disposeEffect (disposeEffect s i) i = disposeEffect s i := by
  have hdisp : (getEff (disposeEffect s i) i).disposed = true := by
    unfold disposeEffect
    dsimp only
    rw [foldRemove_effs_disposed]
    show ((s.effs.set i _).getD i default).disposed = true
    rw [getD_set_split, if_pos ⟨rfl, hi⟩]
  have hdeps : (getEff (disposeEffect s i) i).dependencies = [] := by
    unfold disposeEffect
    dsimp only
    rw [foldRemove_deps]
    exact foldl_eraseNat_self _
  have hs1 : setEff (disposeEffect s i) i
      { getEff (disposeEffect s i) i with disposed := true } = disposeEffect s i := by
    rw [effnode_update_disposed_self _ hdisp]
    show { disposeEffect s i with
      effs := (disposeEffect s i).effs.set i ((disposeEffect s i).effs.getD i default) } = _
    rw [set_getD_self]
  calc disposeEffect (disposeEffect s i) i
      = (nodeDeps (setEff (disposeEffect s i) i
            { getEff (disposeEffect s i) i with disposed := true }) (NodeId.eff i)).foldl
          (fun st c => removeEffect st c (NodeId.eff i))
          (setEff (disposeEffect s i) i
            { getEff (disposeEffect s i) i with disposed := true }) := rfl
    _ = (nodeDeps (disposeEffect s i) (NodeId.eff i)).foldl
          (fun st c => removeEffect st c (NodeId.eff i)) (disposeEffect s i) := by rw [hs1]
    _ = List.foldl (fun st c => removeEffect st c (NodeId.eff i)) (disposeEffect s i) [] := by
          rw [show nodeDeps (disposeEffect s i) (NodeId.eff i) = [] from hdeps]
    _ = disposeEffect s i := rfl

/-- Disposal (of any node) preserves deadness of `i`. -/
theorem dead_disposeEffect {i : Nat} (s : RState) (j : Nat) :
    Dead i s (disposeEffect s j) := by
  unfold disposeEffect
  dsimp only
  refine deadTrans ?_ (dead_foldRemove _ _ _)
  intro h
  refine ⟨⟨?_, h.2.1, h.2.2⟩, rfl⟩
  show ((s.effs.set j _).getD i default).disposed = true
  rw [getD_set_split]
  by_cases hc : i = j ∧ j < s.effs.length
  · rw [if_pos hc]
  · rw [if_neg hc]
    exact h.1

/-- Registration of a fresh effect preserves deadness of `i`. -/
theorem dead_registerEffect {i : Nat} (f : Nat) (s : RState) (b : Cmd) :
    ResDead i s (registerEffect f s b) := by
  unfold registerEffect
  dsimp only
  have hd1 : Dead i s { s with
      effs := s.effs ++ [{ body := b, disposed := false, dependencies := [] }],
      runCounts := s.runCounts ++ [0] } := by
    intro h
    refine ⟨⟨?_, h.2.1, h.2.2⟩, ?_⟩
    · show ((s.effs ++ [_]).getD i default).disposed = true
      rw [getD_append_lt s.effs _ i (deadInv_lt h)]
      exact h.1
    · exact counts_append_zero s.runCounts i
  have hfresh : (getEff { s with
      effs := s.effs ++ [{ body := b, disposed := false, dependencies := [] }],
      runCounts := s.runCounts ++ [0] } s.effs.length).disposed = false := by
    show ((s.effs ++ [_]).getD s.effs.length default).disposed = false
    rw [getD_append_len]
  have hre := (deadAll i f).2.2.2.2.2.2.2.1 _ s.effs.length hfresh
  cases h1 : runEffect f { s with
      effs := s.effs ++ [{ body := b, disposed := false, dependencies := [] }],
      runCounts := s.runCounts ++ [0] } s.effs.length with
  | ok u s2 =>
    try dsimp only
    exact deadTrans hd1 (resDead_ok hre h1)
  | er e s2 =>
    try dsimp only
    exact deadTrans hd1 (resDead_er hre h1)
  | nf => trivial

/-- The one public operation that can resurrect an edge to a dead node:
a raw `addEffect` naming it. -/
def relinksTo : Op → Nat → Bool
  | .addEff _ j, i => j == i
  | _, _ => false

theorem dead_runOp {i : Nat} (f : Nat) (s : RState) (op : Op)
    (hop : relinksTo op i = false) : ResDead i s (runOp f s op) := by
  cases op with
  | write c v => exact (deadAll i f).2.2.1 s c v
  | readTop c =>
    simp only [runOp]
    cases h1 : readCell f s c with
    | ok v s1 => exact resDead_ok ((deadAll i f).2.1 s c) h1
    | er e s1 => exact resDead_er ((deadAll i f).2.1 s c) h1
    | nf => trivial
  | register b =>
    simp only [runOp]
    cases h1 : registerEffect f s b with
    | ok j s1 => exact resDead_ok (dead_registerEffect f s b) h1
    | er e s1 => exact resDead_er (dead_registerEffect f s b) h1
    | nf => trivial
  | dispose j => exact dead_disposeEffect s j
  | addEff c j =>
    have hne : j ≠ i := by
      simp only [relinksTo] at hop
      exact beq_eq_false_iff_ne.mp hop
    exact dead_addEffect s c (NodeId.eff j) (fun he => hne (by injection he))
  | removeEff c j => exact dead_removeEffect s c (NodeId.eff j)
  | batch b => exact (deadAll i (f + 1)).2.2.2.2.2.2.2.2.2.2.2.2 s (.batchC b)
  | flush => exact (deadAll i f).2.2.2.2.2.2.2.2.2.2.2.1 s

theorem dead_runOps {i : Nat} (f : Nat) (ops : List Op) :
    ops.all (fun op => !(relinksTo op i)) = true →
    ∀ s : RState, ResDead i s (runOps f s ops) := by
  induction ops with
  | nil => intro _ s; exact deadRefl i s
  | cons op rest ih =>
    intro hops s
    rw [List.all_cons, Bool.and_eq_true] at hops
    have hop1 : relinksTo op i = false := by
      have := hops.1
      simp only [Bool.not_eq_true'] at this
      exact this
    simp only [runOps]
    cases h1 : runOp f s op with
    | ok u s1 =>
      try dsimp only
      exact resDead_of_dead (resDead_ok (dead_runOp f s op hop1) h1) (ih hops.2 s1)
    | er e s1 =>
      try dsimp only
      exact resDead_of_dead (resDead_er (dead_runOp f s op hop1) h1) (ih hops.2 s1)
    | nf => trivial

/-- **C7.**  Disposal is eager and permanent.  Starting from a state whose
cell-side edges into effect `i` are all recorded in the node's
`dependencies` set (the invariant the live runtime maintains) with node `i`
not mid-run, `dispose()`:
(1) leaves `i` disposed, removes every cell-side edge to it, and keeps it
off the active stack; (2) does not itself bump the node's run counter;
(3) is a literal no-op when called a second time; and (4) along every
subsequent trace of public operations (writes, reads, registrations,
disposals, raw `removeEffect`s, batches, flushes — anything except a raw
`addEffect` that names node `i` again), normal or exceptional, the node
stays dead and its run counter never changes: it never executes again. -/
theorem C7_dispose_permanent (s : RState) (i f : Nat) (ops : List Op)
    (hi : i < s.effs.length)
    (hsub : ∀ c, c < s.cells.length → NodeId.eff i ∈ (getCell s c).effects →
      c ∈ (getEff s i).dependencies)
    (hact : NodeId.eff i ∉ s.active)
    (hops : ops.all (fun op => !(relinksTo op i)) = true) :
    DeadInv (disposeEffect s i) i ∧
    (disposeEffect s i).runCounts = s.runCounts ∧
    disposeEffect (disposeEffect s i) i = disposeEffect s i ∧
    (∀ (u : Unit) (s' : RState), runOps f (disposeEffect s i) ops = .ok u s' →
      DeadInv s' i ∧ s'.runCounts.getD i 0 = s.runCounts.getD i 0) ∧
    (∀ (e : RErr) (s' : RState), runOps f (disposeEffect s i) ops = .er e s' →
      DeadInv s' i ∧ s'.runCounts.getD i 0 = s.runCounts.getD i 0) := by
  have hdead := disposeEffect_dead s i hsub hact hi
  refine ⟨hdead, disposeEffect_counts s i, disposeEffect_idem s i hi, ?_, ?_⟩
  · intro u s' h
    have hr := (resDead_ok (dead_runOps f ops hops (disposeEffect s i)) h) hdead
    exact ⟨hr.1, hr.2.trans (by rw [disposeEffect_counts])⟩
  · intro e s' h
    have hr := (resDead_er (dead_runOps f ops hops (disposeEffect s i)) h) hdead
    exact ⟨hr.1, hr.2.trans (by rw [disposeEffect_counts])⟩

/-- The C7 scenario: one signal watched by one effect (which has run once and
is currently pending), then `dispose`, a write and a flush. -/
def c7s : RState :=
  { cells := [{ mkSig 1 with effects := [.eff 0] }],
    effs := [{ body := .readC 0, disposed := false, dependencies := [0] }],
    pending := [.eff 0], isFlushing := false, batchDepth := 0,
    active := [], errLog := 0, readLog := [], runCounts := [1] }

/-- C7 witness: dispose the watching effect, then write to the signal it
watched and flush (with the stale pending entry still present). -/
theorem C7_dispose_permanent_witness :
    DeadInv (disposeEffect c7s 0) 0 ∧
    (disposeEffect c7s 0).runCounts = c7s.runCounts ∧
    disposeEffect (disposeEffect c7s 0) 0 = disposeEffect c7s 0 ∧
    (∀ (u : Unit) (s' : RState),
      runOps 20 (disposeEffect c7s 0) [.write 0 5, .flush] = .ok u s' →
      DeadInv s' 0 ∧ s'.runCounts.getD 0 0 = c7s.runCounts.getD 0 0) ∧
    (∀ (e : RErr) (s' : RState),
      runOps 20 (disposeEffect c7s 0) [.write 0 5, .flush] = .er e s' →
      DeadInv s' 0 ∧ s'.runCounts.getD 0 0 = c7s.runCounts.getD 0 0) :=
  C7_dispose_permanent c7s 0 20 [.write 0 5, .flush]
    (by decide) (by decide) (by decide) (by decide)

/-!  ### C9: edge symmetry -/

/-- The claimed two-sided edge property for an (cell, effect-node) pair. -/
def effEdge (s : RState) (c i : Nat) : Prop :=
  NodeId.eff i ∈ (getCell s c).effects ↔ c ∈ (getEff s i).dependencies

/-- The claimed two-sided edge property for a (cell, marker) pair. -/
def mkEdge (s : RState) (c m : Nat) : Prop :=
  NodeId.marker m ∈ (getCell s c).effects ↔ c ∈ (getCell s m).markerDeps

/-- Edge symmetry: `cell ∈ node.dependencies ⇔ node ∈ cell.dependents`, for
every cell and every node of the runtime. -/
def EdgeSym (s : RState) : Prop :=
  (∀ c, c < s.cells.length → ∀ i, i < s.effs.length → effEdge s c i) ∧
  (∀ c, c < s.cells.length → ∀ m, m < s.cells.length → mkEdge s c m)

instance (s : RState) : Decidable (EdgeSym s) := by
  unfold EdgeSym effEdge mkEdge
  exact instDecidableAnd

/-- Between recomputations, a marker's collected dependencies are still
recorded in its computed's cached `sources` (so the next `recompute` can
unlink them all). -/
def MarkerSub (s : RState) : Prop :=
  ∀ m, m < s.cells.length → (getCell s m).isComputing = false →
    ∀ x, x ∈ (getCell s m).markerDeps → x ∈ (getCell s m).sources

instance (s : RState) : Decidable (MarkerSub s) := by
  unfold MarkerSub
  infer_instance

/-- A node is fit to sit on the `activeEffects` stack: a marker there is
mid-recompute. -/
def nodeOkActive (s : RState) : NodeId → Prop
  | .marker m => (getCell s m).isComputing = true
  | .eff _ => True

instance (s : RState) (n : NodeId) : Decidable (nodeOkActive s n) := by
  cases n with
  | marker m => exact inferInstanceAs (Decidable ((getCell s m).isComputing = true))
  | eff j => exact inferInstanceAs (Decidable True)

/-- Every marker on the active stack is mid-recompute. -/
def ActiveOk (s : RState) : Prop := ∀ n ∈ s.active, nodeOkActive s n

instance (s : RState) : Decidable (ActiveOk s) := by
  unfold ActiveOk
  infer_instance

/-- A compute function that cannot throw. -/
def NoThrow : Expr → Bool
  | .const _ => true
  | .readE _ => true
  | .add a b => NoThrow a && NoThrow b
  | .mul a b => NoThrow a && NoThrow b
  | .ifz c a b => NoThrow c && NoThrow a && NoThrow b
  | .throwE => false

def noThrowKind : CellKind → Bool
  | .sig => true
  | .comp e _ => NoThrow e

/-- No cell has a throwing `equals` and no compute function can throw. -/
def GoodCells (s : RState) : Prop :=
  ∀ cl ∈ s.cells, cl.equals ≠ EqPolicy.throwing ∧ noThrowKind cl.kind = true

instance (s : RState) : Decidable (GoodCells s) := by
  unfold GoodCells
  infer_instance

/-- The full invariant under which edge symmetry is preserved. -/
def SymInv (s : RState) : Prop :=
  EdgeSym s ∧ MarkerSub s ∧ ActiveOk s ∧ GoodCells s

instance (s : RState) : Decidable (SymInv s) := by
  unfold SymInv
  infer_instance

/-- The C9 scenario: two signals and a computed whose compute function reads
signal 1 only on the branch where it then throws. -/
def c9s : RState :=
  mkState [mkSig 1, mkSig 5,
    { value := 0, equals := .default, effects := [],
      kind := .comp (.ifz (.readE 0) (.const 7) (.ifz (.readE 1) .throwE .throwE)) false,
      dirty := true, isComputing := false, sources := [], markerDeps := [] }]

/-- Where the C9 trace ends: cell 1 still lists `marker 2` among its
dependents, but the marker's `dependencies` set is `[0]`. -/
def c9f : RState :=
  { cells := [{ mkSig 0 with effects := [.marker 2] },
      { mkSig 5 with effects := [.marker 2] },
      { value := 7, equals := .default, effects := [],
        kind := .comp (.ifz (.readE 0) (.const 7) (.ifz (.readE 1) .throwE .throwE)) false,
        dirty := false, isComputing := false, sources := [0], markerDeps := [0] }],
    effs := [], pending := [], isFlushing := false, batchDepth := 0,
    active := [], errLog := 0, readLog := [], runCounts := [] }

/-- **C9 counterexample.**  Edge symmetry does not hold at every quiescent
point: read the computed (its compute function reads both signals, then
throws — the exception reaches the reader and the recompute is abandoned
with its cached `sources` already cleared), write signal 0 back to `0`, and
read again.  The second recompute finds `sources = []`, so it unlinks
nothing, clears the marker's `dependencies`, and re-reads only signal 0:
signal 1 permanently retains a dependent edge to `marker 2` that the marker
does not reciprocate.  The initial state satisfies edge symmetry; the final
quiescent state does not. -/
theorem C9_throwing_compute_breaks_edge_symmetry :
    EdgeSym c9s ∧
    runOps 30 c9s [.readTop 2, .write 0 0, .readTop 2] = .ok () c9f ∧
    ¬ EdgeSym c9f ∧
    NodeId.marker 2 ∈ (getCell c9f 1).effects ∧ 1 ∉ (getCell c9f 2).markerDeps := by
  decide

theorem mem_insertNode_iff (l : List NodeId) (n n' : NodeId) :
    n' ∈ insertNode l n ↔ n' ∈ l ∨ n' = n := by
  unfold insertNode
  split
  · rename_i hin
    constructor
    · exact Or.inl
    · rintro (h2 | h2)
      · exact h2
      · exact h2 ▸ hin
  · simp [List.mem_append]

theorem mem_eraseNode_iff (l : List NodeId) (n n' : NodeId) :
    n' ∈ eraseNode l n ↔ n' ∈ l ∧ n' ≠ n := by
  simp [eraseNode, List.mem_filter]

theorem mem_insertNat_iff (l : List Nat) (c x : Nat) :
    x ∈ insertNat l c ↔ x ∈ l ∨ x = c := by
  unfold insertNat
  split
  · rename_i hin
    constructor
    · exact Or.inl
    · rintro (h2 | h2)
      · exact h2
      · exact h2 ▸ hin
  · simp [List.mem_append]

theorem mem_eraseNat_iff (l : List Nat) (c x : Nat) :
    x ∈ eraseNat l c ↔ x ∈ l ∧ x ≠ c := by
  simp [eraseNat, List.mem_filter]

theorem mem_copyAll (src : List Nat) :
    ∀ (dst : List Nat) (x : Nat), x ∈ copyAll dst src ↔ x ∈ dst ∨ x ∈ src := by
  induction src with
  | nil => intro dst x; simp [copyAll]
  | cons c t ih =>
    intro dst x
    rw [show copyAll dst (c :: t) = copyAll (insertNat dst c) t from rfl,
      ih (insertNat dst c) x, mem_insertNat_iff, List.mem_cons]
    tauto

theorem goodCell_getCell {s : RState} (h5 : GoodCells s) (c : Nat) :
    (getCell s c).equals ≠ EqPolicy.throwing ∧ noThrowKind (getCell s c).kind = true := by
  by_cases hc : c < s.cells.length
  · refine h5 _ ?_
    rw [getCell, List.getD_eq_getElem s.cells default hc]
    exact List.getElem_mem ..
  · rw [getCell, List.getD_eq_default s.cells default (Nat.le_of_not_lt hc)]
    exact ⟨by decide, by decide⟩

/-- Steps that leave cells, effect nodes and the active stack untouched
preserve the symmetry invariant. -/
theorem symInv_of_parts {s s' : RState} (hc : s'.cells = s.cells)
    (he : s'.effs = s.effs) (ha : s'.active = s.active) (h : SymInv s) : SymInv s' := by
  have hgc : ∀ k, getCell s' k = getCell s k := fun k => by rw [getCell, hc, getCell]
  have hge : ∀ j, getEff s' j = getEff s j := fun j => by rw [getEff, he, getEff]
  obtain ⟨⟨h1, h2⟩, h3, h4, h5⟩ := h
  refine ⟨⟨?_, ?_⟩, ?_, ?_, ?_⟩
  · intro c hcl i hil
    rw [hc] at hcl
    rw [he] at hil
    unfold effEdge
    rw [hgc, hge]
    exact h1 c hcl i hil
  · intro c hcl m hml
    rw [hc] at hcl
    rw [hc] at hml
    unfold mkEdge
    rw [hgc, hgc]
    exact h2 c hcl m hml
  · intro m hm hicm x hx
    rw [hc] at hm
    rw [hgc] at hicm hx
    rw [hgc]
    exact h3 m hm hicm x hx
  · intro n hn
    rw [ha] at hn
    have hb := h4 n hn
    cases n with
    | eff j => trivial
    | marker m =>
      show (getCell s' m).isComputing = true
      rw [hgc]
      exact hb
  · intro cl hm
    rw [hc] at hm
    exact h5 cl hm

/-- Replacing one cell preserves the invariant, provided the replacement
keeps the cell's effects, marker dependencies, kind and equality policy,
does not drop sources, and does not clear `isComputing`. -/
theorem sym_setCell_keep {s : RState} (h : SymInv s) (c : Nat) (cl : Cell)
    (heff : cl.effects = (getCell s c).effects)
    (hmk : cl.markerDeps = (getCell s c).markerDeps)
    (hsrc : ∀ x, x ∈ (getCell s c).sources → x ∈ cl.sources)
    (hic : cl.isComputing = true ∨ cl.isComputing = (getCell s c).isComputing)
    (hkd : cl.kind = (getCell s c).kind)
    (heq : cl.equals = (getCell s c).equals) :
    SymInv (setCell s c cl) := by
  obtain ⟨⟨h1, h2⟩, h3, h4, h5⟩ := h
  have hg : ∀ k, getCell (setCell s c cl) k
      = if k = c ∧ c < s.cells.length then cl else getCell s k :=
    fun k => getCell_setCell_split s c k cl
  have hlen : (setCell s c cl).cells.length = s.cells.length := by
    simp [setCell]
  refine ⟨⟨?_, ?_⟩, ?_, ?_, ?_⟩
  · intro k hk i hi
    rw [hlen] at hk
    have hb := h1 k hk i hi
    unfold effEdge at hb ⊢
    rw [hg k]
    by_cases hkc : k = c ∧ c < s.cells.length
    · rw [if_pos hkc, heff, ← hkc.1]
      exact hb
    · rw [if_neg hkc]
      exact hb
  · intro k hk m hm
    rw [hlen] at hk
    rw [hlen] at hm
    have hb := h2 k hk m hm
    unfold mkEdge at hb ⊢
    rw [hg k, hg m]
    by_cases hkc : k = c ∧ c < s.cells.length
    · by_cases hmc : m = c ∧ c < s.cells.length
      · rw [hkc.1, hmc.1] at hb
        rw [if_pos hkc, if_pos hmc, heff, hmk, hkc.1, hmc.1]
        exact hb
      · rw [hkc.1] at hb
        rw [if_pos hkc, if_neg hmc, heff, hkc.1]
        exact hb
    · by_cases hmc : m = c ∧ c < s.cells.length
      · rw [hmc.1] at hb
        rw [if_neg hkc, if_pos hmc, hmk, hmc.1]
        exact hb
      · rw [if_neg hkc, if_neg hmc]
        exact hb
  · intro m hm hicm x hx
    rw [hlen] at hm
    rw [hg m] at hicm hx ⊢
    by_cases hmc : m = c ∧ c < s.cells.length
    · rw [if_pos hmc] at hicm hx ⊢
      rcases hic with hT | hE
      · rw [hT] at hicm
        exact absurd hicm (by decide)
      · have hold : (getCell s c).isComputing = false := by rw [← hE]; exact hicm
        rw [hmk] at hx
        exact hsrc x (h3 c hmc.2 hold x hx)
    · rw [if_neg hmc] at hicm hx ⊢
      exact h3 m hm hicm x hx
  · intro n hn
    have hn' : n ∈ s.active := hn
    have hb := h4 n hn'
    cases n with
    | eff j => trivial
    | marker m =>
      show (getCell (setCell s c cl) m).isComputing = true
      rw [hg m]
      by_cases hmc : m = c ∧ c < s.cells.length
      · rw [if_pos hmc]
        rcases hic with hT | hE
        · exact hT
        · rw [hE, ← hmc.1]
          exact hb
      · rw [if_neg hmc]
        exact hb
  · intro cl' hm
    rcases List.mem_or_eq_of_mem_set hm with hin | hin
    · exact h5 cl' hin
    · subst hin
      have hgood := goodCell_getCell h5 c
      exact ⟨by rw [heq]; exact hgood.1, by rw [hkd]; exact hgood.2⟩

theorem addEffect_active (s : RState) (c : Nat) (n : NodeId) :
    (addEffect s c n).active = s.active := by
  cases n with
  | marker m => rfl
  | eff j => rfl

theorem addEffect_cells_len (s : RState) (c : Nat) (n : NodeId) :
    (addEffect s c n).cells.length = s.cells.length := by
  cases n with
  | marker m => simp [addEffect, setNodeDeps, setCell]
  | eff j => simp [addEffect, setNodeDeps, setEff, setCell]

theorem addEffect_effs_len (s : RState) (c : Nat) (n : NodeId) :
    (addEffect s c n).effs.length = s.effs.length := by
  cases n with
  | marker m => rfl
  | eff j => simp [addEffect, setNodeDeps, setEff, setCell]

theorem addEffect_effects_mem (s : RState) (c : Nat) (n : NodeId) (k : Nat) (n' : NodeId) :
    n' ∈ (getCell (addEffect s c n) k).effects ↔
      n' ∈ (getCell s k).effects ∨ (k = c ∧ c < s.cells.length ∧ n' = n) := by
  have hbase : ∀ k', getCell (setCell s c
      { getCell s c with effects := insertNode (getCell s c).effects n }) k'
      = if k' = c ∧ c < s.cells.length
        then { getCell s c with effects := insertNode (getCell s c).effects n }
        else getCell s k' :=
    fun k' => getCell_setCell_split s c k' _
  have hmain : ∀ k', n' ∈ (getCell (setCell s c
      { getCell s c with effects := insertNode (getCell s c).effects n }) k').effects ↔
      n' ∈ (getCell s k').effects ∨ (k' = c ∧ c < s.cells.length ∧ n' = n) := by
    intro k'
    rw [hbase k']
    by_cases hkc : k' = c ∧ c < s.cells.length
    · rw [if_pos hkc]
      show n' ∈ insertNode (getCell s c).effects n ↔ _
      rw [mem_insertNode_iff, hkc.1]
      constructor
      · rintro (h2 | h2)
        · exact Or.inl h2
        · exact Or.inr ⟨rfl, hkc.2, h2⟩
      · rintro (h2 | h2)
        · exact Or.inl h2
        · exact Or.inr h2.2.2
    · rw [if_neg hkc]
      constructor
      · exact Or.inl
      · rintro (h2 | h2)
        · exact h2
        · exact absurd ⟨h2.1, h2.2.1⟩ hkc
  cases n with
  | eff j => exact hmain k
  | marker m =>
    show n' ∈ (getCell (setCell _ m _) k).effects ↔ _
    rw [getCell_setCell_split]
    by_cases hkm : k = m ∧ m < (setCell s c
        { getCell s c with effects := insertNode (getCell s c).effects (NodeId.marker m) }).cells.length
    · rw [if_pos hkm]
      show n' ∈ (getCell (setCell s c _) m).effects ↔ _
      rw [hmain m, hkm.1]
    · rw [if_neg hkm]
      exact hmain k

theorem addEffect_deps_eff (s : RState) (c : Nat) (n : NodeId) (j : Nat) (x : Nat) :
    x ∈ (getEff (addEffect s c n) j).dependencies ↔
      x ∈ (getEff s j).dependencies ∨ (n = NodeId.eff j ∧ j < s.effs.length ∧ x = c) := by
  cases n with
  | marker m =>
    have hr : getEff (addEffect s c (NodeId.marker m)) j = getEff s j := rfl
    rw [hr]
    constructor
    · exact Or.inl
    · rintro (h2 | h2)
      · exact h2
      · exact absurd h2.1 (by simp)
  | eff i =>
    show x ∈ ((_ : RState).effs.set i _ |>.getD j default).dependencies ↔ _
    rw [getD_set_split]
    by_cases hji : j = i ∧ i < s.effs.length
    · obtain ⟨rfl, hilen⟩ := hji
      rw [if_pos ⟨rfl, hilen⟩]
      show x ∈ insertNat (nodeDeps _ (NodeId.eff j)) c ↔ _
      rw [mem_insertNat_iff]
      have hnd : nodeDeps (setCell s c
          { getCell s c with effects := insertNode (getCell s c).effects (NodeId.eff j) })
          (NodeId.eff j) = (getEff s j).dependencies := rfl
      rw [hnd]
      constructor
      · rintro (h2 | h2)
        · exact Or.inl h2
        · exact Or.inr ⟨rfl, hilen, h2⟩
      · rintro (h2 | h2)
        · exact Or.inl h2
        · exact Or.inr h2.2.2
    · rw [if_neg (by
        intro hp
        exact hji ⟨hp.1, by
          have := hp.2
          simpa [setCell] using this⟩)]
      constructor
      · exact Or.inl
      · rintro (h2 | h2)
        · exact h2
        · exfalso
          have hinj : i = j := by injection h2.1
          exact hji ⟨hinj.symm, by rw [hinj]; exact h2.2.1⟩

theorem addEffect_deps_mk (s : RState) (c : Nat) (n : NodeId) (m : Nat) (x : Nat) :
    x ∈ (getCell (addEffect s c n) m).markerDeps ↔
      x ∈ (getCell s m).markerDeps ∨ (n = NodeId.marker m ∧ m < s.cells.length ∧ x = c) := by
  cases n with
  | eff j =>
    have hm1 : (getCell (addEffect s c (NodeId.eff j)) m).markerDeps
        = (getCell s m).markerDeps := by
      show (getCell (setCell s c
        { getCell s c with effects := insertNode (getCell s c).effects (NodeId.eff j) })
        m).markerDeps = _
      rw [getCell_setCell_split]
      split
      · rename_i hp
        rw [hp.1]
      · rfl
    rw [hm1]
    constructor
    · exact Or.inl
    · rintro (h2 | h2)
      · exact h2
      · exact absurd h2.1 (by simp)
  | marker mm =>
    have hs1mk : ∀ k, (getCell (setCell s c
        { getCell s c with effects := insertNode (getCell s c).effects (NodeId.marker mm) })
        k).markerDeps = (getCell s k).markerDeps := by
      intro k
      rw [getCell_setCell_split]
      split
      · rename_i hp
        rw [hp.1]
      · rfl
    show x ∈ (getCell (setCell _ mm _) m).markerDeps ↔ _
    rw [getCell_setCell_split]
    by_cases hmm : m = mm ∧ mm < s.cells.length
    · obtain ⟨rfl, hlen⟩ := hmm
      rw [if_pos ⟨rfl, by simpa [setCell] using hlen⟩]
      show x ∈ insertNat (nodeDeps _ (NodeId.marker m)) c ↔ _
      rw [show nodeDeps (setCell s c
          { getCell s c with effects := insertNode (getCell s c).effects (NodeId.marker m) })
          (NodeId.marker m) = (getCell (setCell s c
          { getCell s c with effects := insertNode (getCell s c).effects (NodeId.marker m) })
          m).markerDeps from rfl, hs1mk m, mem_insertNat_iff]
      constructor
      · rintro (h2 | h2)
        · exact Or.inl h2
        · exact Or.inr ⟨rfl, hlen, h2⟩
      · rintro (h2 | h2)
        · exact Or.inl h2
        · exact Or.inr h2.2.2
    · rw [if_neg (by
        intro hp
        exact hmm ⟨hp.1, by simpa [setCell] using hp.2⟩)]
      rw [hs1mk m]
      constructor
      · exact Or.inl
      · rintro (h2 | h2)
        · exact h2
        · exfalso
          have hinj : mm = m := by injection h2.1
          exact hmm ⟨hinj.symm, by rw [hinj]; exact h2.2.1⟩

theorem rest_setCell (s : RState) (c : Nat) (cl : Cell)
    (hs : cl.sources = (getCell s c).sources)
    (hi : cl.isComputing = (getCell s c).isComputing)
    (hk : cl.kind = (getCell s c).kind)
    (he : cl.equals = (getCell s c).equals) (k : Nat) :
    (getCell (setCell s c cl) k).sources = (getCell s k).sources ∧
    (getCell (setCell s c cl) k).isComputing = (getCell s k).isComputing ∧
    (getCell (setCell s c cl) k).kind = (getCell s k).kind ∧
    (getCell (setCell s c cl) k).equals = (getCell s k).equals := by
  rw [getCell_setCell_split]
  split
  · rename_i hp
    rw [hp.1]
    exact ⟨hs, hi, hk, he⟩
  · exact ⟨rfl, rfl, rfl, rfl⟩

theorem addEffect_cell_rest (s : RState) (c : Nat) (n : NodeId) (k : Nat) :
    (getCell (addEffect s c n) k).sources = (getCell s k).sources ∧
    (getCell (addEffect s c n) k).isComputing = (getCell s k).isComputing ∧
    (getCell (addEffect s c n) k).kind = (getCell s k).kind ∧
    (getCell (addEffect s c n) k).equals = (getCell s k).equals := by
  cases n with
  | eff j =>
    exact rest_setCell s c
      { getCell s c with effects := insertNode (getCell s c).effects (NodeId.eff j) }
      rfl rfl rfl rfl k
  | marker m =>
    have hfst := rest_setCell s c
      { getCell s c with effects := insertNode (getCell s c).effects (NodeId.marker m) }
      rfl rfl rfl rfl
    have hsnd := rest_setCell (setCell s c
      { getCell s c with effects := insertNode (getCell s c).effects (NodeId.marker m) }) m
      { getCell (setCell s c
          { getCell s c with effects := insertNode (getCell s c).effects (NodeId.marker m) }) m
        with markerDeps := insertNat (nodeDeps (setCell s c
          { getCell s c with effects := insertNode (getCell s c).effects (NodeId.marker m) })
          (NodeId.marker m)) c }
      rfl rfl rfl rfl k
    refine ⟨(hsnd.1).trans (hfst k).1, (hsnd.2.1).trans (hfst k).2.1,
      (hsnd.2.2.1).trans (hfst k).2.2.1, (hsnd.2.2.2).trans (hfst k).2.2.2⟩

theorem good_setCell {s : RState} (h5 : GoodCells s) (c : Nat) (cl : Cell)
    (hk : cl.kind = (getCell s c).kind) (he : cl.equals = (getCell s c).equals) :
    GoodCells (setCell s c cl) := by
  intro cl' hm
  rcases List.mem_or_eq_of_mem_set hm with hin | hin
  · exact h5 cl' hin
  · subst hin
    have hgood := goodCell_getCell h5 c
    exact ⟨by rw [he]; exact hgood.1, by rw [hk]; exact hgood.2⟩

/-- Registering an edge through `addEffect` preserves the invariant: both
sides of the edge are inserted together (a marker endpoint must be
mid-recompute, which is how the runtime always calls it). -/
theorem sym_addEffect {s : RState} (h : SymInv s) (c : Nat) (n : NodeId)
    (hn : ∀ m, n = NodeId.marker m → (getCell s m).isComputing = true) :
    SymInv (addEffect s c n) := by
  obtain ⟨⟨h1, h2⟩, h3, h4, h5⟩ := h
  refine ⟨⟨?_, ?_⟩, ?_, ?_, ?_⟩
  · intro k hk i hi
    rw [addEffect_cells_len] at hk
    rw [addEffect_effs_len] at hi
    have hb := h1 k hk i hi
    unfold effEdge at hb ⊢
    constructor
    · intro hx
      rcases (addEffect_effects_mem s c n k (NodeId.eff i)).mp hx with h2' | h2'
      · exact (addEffect_deps_eff s c n i k).mpr (Or.inl (hb.mp h2'))
      · exact (addEffect_deps_eff s c n i k).mpr (Or.inr ⟨h2'.2.2.symm, hi, h2'.1⟩)
    · intro hx
      rcases (addEffect_deps_eff s c n i k).mp hx with h2' | h2'
      · exact (addEffect_effects_mem s c n k (NodeId.eff i)).mpr (Or.inl (hb.mpr h2'))
      · refine (addEffect_effects_mem s c n k (NodeId.eff i)).mpr
          (Or.inr ⟨h2'.2.2, ?_, h2'.1.symm⟩)
        rw [← h2'.2.2]
        exact hk
  · intro k hk m hm
    rw [addEffect_cells_len] at hk hm
    have hb := h2 k hk m hm
    unfold mkEdge at hb ⊢
    constructor
    · intro hx
      rcases (addEffect_effects_mem s c n k (NodeId.marker m)).mp hx with h2' | h2'
      · exact (addEffect_deps_mk s c n m k).mpr (Or.inl (hb.mp h2'))
      · exact (addEffect_deps_mk s c n m k).mpr (Or.inr ⟨h2'.2.2.symm, hm, h2'.1⟩)
    · intro hx
      rcases (addEffect_deps_mk s c n m k).mp hx with h2' | h2'
      · exact (addEffect_effects_mem s c n k (NodeId.marker m)).mpr (Or.inl (hb.mpr h2'))
      · refine (addEffect_effects_mem s c n k (NodeId.marker m)).mpr
          (Or.inr ⟨h2'.2.2, ?_, h2'.1.symm⟩)
        rw [← h2'.2.2]
        exact hk
  · intro m hm hicm x hx
    rw [addEffect_cells_len] at hm
    have hrest := addEffect_cell_rest s c n m
    rw [hrest.2.1] at hicm
    rw [hrest.1]
    rcases (addEffect_deps_mk s c n m x).mp hx with h2' | h2'
    · exact h3 m hm hicm x h2'
    · have hcm := hn m h2'.1
      rw [hicm] at hcm
      exact absurd hcm (by decide)
  · intro n' hn'
    rw [addEffect_active] at hn'
    have hb := h4 n' hn'
    cases n' with
    | eff j => trivial
    | marker m =>
      show (getCell (addEffect s c n) m).isComputing = true
      rw [(addEffect_cell_rest s c n m).2.1]
      exact hb
  · cases n with
    | eff j =>
      intro cl hm
      exact good_setCell h5 c
        { getCell s c with effects := insertNode (getCell s c).effects (NodeId.eff j) }
        rfl rfl cl hm
    | marker m =>
      have hgc := good_setCell h5 c
        { getCell s c with effects := insertNode (getCell s c).effects (NodeId.marker m) }
        rfl rfl
      exact good_setCell hgc m _ rfl rfl

theorem removeEffect_effs_len (s : RState) (c : Nat) (n : NodeId) :
    (removeEffect s c n).effs.length = s.effs.length := by
  cases n with
  | marker m => rfl
  | eff j => simp [removeEffect, setNodeDeps, setEff, setCell]

theorem removeEffect_effects_mem (s : RState) (c : Nat) (n : NodeId) (k : Nat) (n' : NodeId) :
    n' ∈ (getCell (removeEffect s c n) k).effects ↔
      n' ∈ (getCell s k).effects ∧ ¬(k = c ∧ c < s.cells.length ∧ n' = n) := by
  have hmain : ∀ k', n' ∈ (getCell (setCell s c
      { getCell s c with effects := eraseNode (getCell s c).effects n }) k').effects ↔
      n' ∈ (getCell s k').effects ∧ ¬(k' = c ∧ c < s.cells.length ∧ n' = n) := by
    intro k'
    rw [getCell_setCell_split]
    by_cases hkc : k' = c ∧ c < s.cells.length
    · rw [if_pos hkc]
      show n' ∈ eraseNode (getCell s c).effects n ↔ _
      rw [mem_eraseNode_iff, hkc.1]
      constructor
      · rintro ⟨hin, hne⟩
        exact ⟨hin, fun hp => hne hp.2.2⟩
      · rintro ⟨hin, hnot⟩
        exact ⟨hin, fun heq => hnot ⟨rfl, hkc.2, heq⟩⟩
    · rw [if_neg hkc]
      constructor
      · intro hin
        exact ⟨hin, fun hp => hkc ⟨hp.1, hp.2.1⟩⟩
      · exact And.left
  cases n with
  | eff j => exact hmain k
  | marker m =>
    show n' ∈ (getCell (setCell _ m _) k).effects ↔ _
    rw [getCell_setCell_split]
    split
    · rename_i hp
      rw [hp.1]
      exact hmain m
    · exact hmain k

theorem removeEffect_deps_eff (s : RState) (c : Nat) (n : NodeId) (j : Nat) (x : Nat) :
    x ∈ (getEff (removeEffect s c n) j).dependencies ↔
      x ∈ (getEff s j).dependencies ∧ ¬(n = NodeId.eff j ∧ j < s.effs.length ∧ x = c) := by
  cases n with
  | marker m =>
    have hr : getEff (removeEffect s c (NodeId.marker m)) j = getEff s j := rfl
    rw [hr]
    constructor
    · intro hin
      exact ⟨hin, fun hp => by simp at hp⟩
    · exact And.left
  | eff i =>
    show x ∈ ((_ : RState).effs.set i _ |>.getD j default).dependencies ↔ _
    rw [getD_set_split]
    by_cases hji : j = i ∧ i < s.effs.length
    · obtain ⟨rfl, hilen⟩ := hji
      rw [if_pos ⟨rfl, hilen⟩]
      show x ∈ eraseNat (nodeDeps _ (NodeId.eff j)) c ↔ _
      rw [show nodeDeps (setCell s c
          { getCell s c with effects := eraseNode (getCell s c).effects (NodeId.eff j) })
          (NodeId.eff j) = (getEff s j).dependencies from rfl, mem_eraseNat_iff]
      constructor
      · rintro ⟨hin, hne⟩
        exact ⟨hin, fun hp => hne hp.2.2⟩
      · rintro ⟨hin, hnot⟩
        exact ⟨hin, fun hxc => hnot ⟨rfl, hilen, hxc⟩⟩
    · rw [if_neg (by
        intro hp
        exact hji ⟨hp.1, by simpa [setCell] using hp.2⟩)]
      constructor
      · intro hin
        refine ⟨hin, ?_⟩
        intro hp
        have hinj : i = j := by injection hp.1
        exact hji ⟨hinj.symm, by rw [hinj]; exact hp.2.1⟩
      · exact And.left

theorem removeEffect_deps_mk (s : RState) (c : Nat) (n : NodeId) (m : Nat) (x : Nat) :
    x ∈ (getCell (removeEffect s c n) m).markerDeps ↔
      x ∈ (getCell s m).markerDeps ∧ ¬(n = NodeId.marker m ∧ m < s.cells.length ∧ x = c) := by
  cases n with
  | eff j =>
    have hm1 : (getCell (removeEffect s c (NodeId.eff j)) m).markerDeps
        = (getCell s m).markerDeps := by
      show (getCell (setCell s c
        { getCell s c with effects := eraseNode (getCell s c).effects (NodeId.eff j) })
        m).markerDeps = _
      rw [getCell_setCell_split]
      split
      · rename_i hp
        rw [hp.1]
      · rfl
    rw [hm1]
    constructor
    · intro hin
      exact ⟨hin, fun hp => by simp at hp⟩
    · exact And.left
  | marker mm =>
    have hs1mk : ∀ k, (getCell (setCell s c
        { getCell s c with effects := eraseNode (getCell s c).effects (NodeId.marker mm) })
        k).markerDeps = (getCell s k).markerDeps := by
      intro k
      rw [getCell_setCell_split]
      split
      · rename_i hp
        rw [hp.1]
      · rfl
    show x ∈ (getCell (setCell _ mm _) m).markerDeps ↔ _
    rw [getCell_setCell_split]
    by_cases hmm : m = mm ∧ mm < s.cells.length
    · obtain ⟨rfl, hlen⟩ := hmm
      rw [if_pos ⟨rfl, by simpa [setCell] using hlen⟩]
      show x ∈ eraseNat (nodeDeps _ (NodeId.marker m)) c ↔ _
      rw [show nodeDeps (setCell s c
          { getCell s c with effects := eraseNode (getCell s c).effects (NodeId.marker m) })
          (NodeId.marker m) = (getCell (setCell s c
          { getCell s c with effects := eraseNode (getCell s c).effects (NodeId.marker m) })
          m).markerDeps from rfl, hs1mk m, mem_eraseNat_iff]
      constructor
      · rintro ⟨hin, hne⟩
        exact ⟨hin, fun hp => hne hp.2.2⟩
      · rintro ⟨hin, hnot⟩
        exact ⟨hin, fun hxc => hnot ⟨rfl, hlen, hxc⟩⟩
    · rw [if_neg (by
        intro hp
        exact hmm ⟨hp.1, by simpa [setCell] using hp.2⟩)]
      rw [hs1mk m]
      constructor
      · intro hin
        refine ⟨hin, ?_⟩
        intro hp
        have hinj : mm = m := by injection hp.1
        exact hmm ⟨hinj.symm, by rw [hinj]; exact hp.2.1⟩
      · exact And.left

theorem removeEffect_cell_rest (s : RState) (c : Nat) (n : NodeId) (k : Nat) :
    (getCell (removeEffect s c n) k).sources = (getCell s k).sources ∧
    (getCell (removeEffect s c n) k).isComputing = (getCell s k).isComputing ∧
    (getCell (removeEffect s c n) k).kind = (getCell s k).kind ∧
    (getCell (removeEffect s c n) k).equals = (getCell s k).equals := by
  cases n with
  | eff j =>
    exact rest_setCell s c
      { getCell s c with effects := eraseNode (getCell s c).effects (NodeId.eff j) }
      rfl rfl rfl rfl k
  | marker m =>
    have hfst := rest_setCell s c
      { getCell s c with effects := eraseNode (getCell s c).effects (NodeId.marker m) }
      rfl rfl rfl rfl
    have hsnd := rest_setCell (setCell s c
      { getCell s c with effects := eraseNode (getCell s c).effects (NodeId.marker m) }) m
      { getCell (setCell s c
          { getCell s c with effects := eraseNode (getCell s c).effects (NodeId.marker m) }) m
        with markerDeps := eraseNat (nodeDeps (setCell s c
          { getCell s c with effects := eraseNode (getCell s c).effects (NodeId.marker m) })
          (NodeId.marker m)) c }
      rfl rfl rfl rfl k
    refine ⟨(hsnd.1).trans (hfst k).1, (hsnd.2.1).trans (hfst k).2.1,
      (hsnd.2.2.1).trans (hfst k).2.2.1, (hsnd.2.2.2).trans (hfst k).2.2.2⟩

/-- Unlinking an edge through `removeEffect` preserves the invariant: both
sides of the edge are deleted together. -/
theorem sym_removeEffect {s : RState} (h : SymInv s) (c : Nat) (n : NodeId) :
    SymInv (removeEffect s c n) := by
  obtain ⟨⟨h1, h2⟩, h3, h4, h5⟩ := h
  refine ⟨⟨?_, ?_⟩, ?_, ?_, ?_⟩
  · intro k hk i hi
    rw [removeEffect_cells_len] at hk
    rw [removeEffect_effs_len] at hi
    have hb := h1 k hk i hi
    unfold effEdge at hb ⊢
    constructor
    · intro hx
      obtain ⟨hin, hnot⟩ := (removeEffect_effects_mem s c n k (NodeId.eff i)).mp hx
      refine (removeEffect_deps_eff s c n i k).mpr ⟨hb.mp hin, ?_⟩
      intro hB
      exact hnot ⟨hB.2.2, by rw [← hB.2.2]; exact hk, hB.1.symm⟩
    · intro hx
      obtain ⟨hin, hnot⟩ := (removeEffect_deps_eff s c n i k).mp hx
      refine (removeEffect_effects_mem s c n k (NodeId.eff i)).mpr ⟨hb.mpr hin, ?_⟩
      intro hA
      exact hnot ⟨hA.2.2.symm, hi, hA.1⟩
  · intro k hk m hm
    rw [removeEffect_cells_len] at hk hm
    have hb := h2 k hk m hm
    unfold mkEdge at hb ⊢
    constructor
    · intro hx
      obtain ⟨hin, hnot⟩ := (removeEffect_effects_mem s c n k (NodeId.marker m)).mp hx
      refine (removeEffect_deps_mk s c n m k).mpr ⟨hb.mp hin, ?_⟩
      intro hB
      exact hnot ⟨hB.2.2, by rw [← hB.2.2]; exact hk, hB.1.symm⟩
    · intro hx
      obtain ⟨hin, hnot⟩ := (removeEffect_deps_mk s c n m k).mp hx
      refine (removeEffect_effects_mem s c n k (NodeId.marker m)).mpr ⟨hb.mpr hin, ?_⟩
      intro hA
      exact hnot ⟨hA.2.2.symm, hm, hA.1⟩
  · intro m hm hicm x hx
    rw [removeEffect_cells_len] at hm
    have hrest := removeEffect_cell_rest s c n m
    rw [hrest.2.1] at hicm
    rw [hrest.1]
    exact h3 m hm hicm x ((removeEffect_deps_mk s c n m x).mp hx).1
  · intro n' hn'
    rw [removeEffect_active] at hn'
    have hb := h4 n' hn'
    cases n' with
    | eff j => trivial
    | marker m =>
      show (getCell (removeEffect s c n) m).isComputing = true
      rw [(removeEffect_cell_rest s c n m).2.1]
      exact hb
  · cases n with
    | eff j =>
      intro cl hm
      exact good_setCell h5 c
        { getCell s c with effects := eraseNode (getCell s c).effects (NodeId.eff j) }
        rfl rfl cl hm
    | marker m =>
      have hgc := good_setCell h5 c
        { getCell s c with effects := eraseNode (getCell s c).effects (NodeId.marker m) }
        rfl rfl
      exact good_setCell hgc m _ rfl rfl

/-- `symInv_of_parts`, generalised to an active stack that only shrinks. -/
theorem sym_active_sub {s s' : RState} (hc : s'.cells = s.cells)
    (he : s'.effs = s.effs) (ha : ∀ n, n ∈ s'.active → n ∈ s.active)
    (h : SymInv s) : SymInv s' := by
  have hgc : ∀ k, getCell s' k = getCell s k := fun k => by rw [getCell, hc, getCell]
  have hge : ∀ j, getEff s' j = getEff s j := fun j => by rw [getEff, he, getEff]
  obtain ⟨⟨h1, h2⟩, h3, h4, h5⟩ := h
  refine ⟨⟨?_, ?_⟩, ?_, ?_, ?_⟩
  · intro c hcl i hil
    rw [hc] at hcl
    rw [he] at hil
    unfold effEdge
    rw [hgc, hge]
    exact h1 c hcl i hil
  · intro c hcl m hml
    rw [hc] at hcl
    rw [hc] at hml
    unfold mkEdge
    rw [hgc, hgc]
    exact h2 c hcl m hml
  · intro m hm hicm x hx
    rw [hc] at hm
    rw [hgc] at hicm hx
    rw [hgc]
    exact h3 m hm hicm x hx
  · intro n hn
    have hb := h4 n (ha n hn)
    cases n with
    | eff j => trivial
    | marker m =>
      show (getCell s' m).isComputing = true
      rw [hgc]
      exact hb
  · intro cl hm
    rw [hc] at hm
    exact h5 cl hm

theorem sym_popActive {s : RState} (h : SymInv s) : SymInv (popActive s) :=
  @sym_active_sub s (popActive s) rfl rfl
    (fun n hn => List.dropLast_subset s.active hn) h

theorem sym_pushActive {s : RState} (h : SymInv s) (n : NodeId)
    (hok : nodeOkActive s n) : SymInv (pushActive s n) := by
  obtain ⟨he', h3, h4, h5⟩ := h
  refine ⟨he', h3, ?_, h5⟩
  intro n' hn'
  rcases List.mem_append.mp hn' with h2 | h2
  · exact h4 n' h2
  · rw [List.mem_singleton.mp h2]
    exact hok

theorem sym_scheduleEffect {s : RState} (h : SymInv s) (n : NodeId) :
    SymInv (scheduleEffect s n) := by
  unfold scheduleEffect
  split
  · exact h
  · dsimp only
    split
    · exact symInv_of_parts rfl rfl rfl h
    · exact symInv_of_parts rfl rfl rfl h

theorem sym_trackRead {s : RState} (h : SymInv s) (c : Nat) :
    SymInv (trackRead s c) := by
  unfold trackRead
  cases hg : s.active.getLast? with
  | none => exact h
  | some n =>
    refine sym_addEffect h c n ?_
    intro m hm
    subst hm
    exact h.2.2.1 _ (mem_getLast? s.active _ hg)

theorem sym_foldRemove {n : NodeId} (l : List Nat) :
    ∀ s : RState, SymInv s → SymInv (l.foldl (fun st c => removeEffect st c n) s) := by
  induction l with
  | nil => intro s h; exact h
  | cons c t ih =>
    intro s h
    exact ih (removeEffect s c n) (sym_removeEffect h c n)

/-- Self-membership after a general `removeEffect` of the same node. -/
theorem mem_removeEffect_self_any {st : RState} {c k : Nat} {n : NodeId}
    (h : n ∈ (getCell (removeEffect st c n) k).effects) :
    n ∈ (getCell st k).effects ∧ k ≠ c := by
  obtain ⟨hin, hnot⟩ := (removeEffect_effects_mem st c n k n).mp h
  refine ⟨hin, ?_⟩
  intro hkc
  subst hkc
  by_cases hl : k < st.cells.length
  · exact hnot ⟨rfl, hl, rfl⟩
  · rw [getCell, List.getD_eq_default st.cells default (Nat.le_of_not_lt hl)] at hin
    simp [default, Inhabited.default] at hin

theorem foldRemove_mem_any {n : NodeId} :
    ∀ (d : List Nat) (st : RState) (k : Nat),
      n ∈ (getCell (d.foldl (fun st c => removeEffect st c n) st) k).effects →
      n ∈ (getCell st k).effects ∧ k ∉ d := by
  intro d
  induction d with
  | nil => intro st k h; exact ⟨h, by simp⟩
  | cons c t ih =>
    intro st k h
    have h1 := ih (removeEffect st c n) k h
    have h2 := mem_removeEffect_self_any h1.1
    refine ⟨h2.1, ?_⟩
    intro hm
    rcases List.mem_cons.mp hm with he | he
    · exact h2.2 he
    · exact h1.2 he

theorem foldRemove_cells_len_any (n : NodeId) :
    ∀ (d : List Nat) (st : RState),
      (d.foldl (fun st c => removeEffect st c n) st).cells.length = st.cells.length := by
  intro d
  induction d with
  | nil => intro st; rfl
  | cons c t ih =>
    intro st
    rw [List.foldl_cons, ih (removeEffect st c n), removeEffect_cells_len st c n]

theorem foldRemove_rest_any (n : NodeId) :
    ∀ (d : List Nat) (st : RState) (k : Nat),
      (getCell (d.foldl (fun st c => removeEffect st c n) st) k).sources
        = (getCell st k).sources ∧
      (getCell (d.foldl (fun st c => removeEffect st c n) st) k).isComputing
        = (getCell st k).isComputing := by
  intro d
  induction d with
  | nil => intro st k; exact ⟨rfl, rfl⟩
  | cons c t ih =>
    intro st k
    have h1 := ih (removeEffect st c n) k
    have h2 := removeEffect_cell_rest st c n k
    exact ⟨h1.1.trans h2.1, h1.2.trans h2.2.1⟩

theorem foldRemove_active_any (n : NodeId) :
    ∀ (d : List Nat) (st : RState),
      (d.foldl (fun st c => removeEffect st c n) st).active = st.active := by
  intro d
  induction d with
  | nil => intro st; rfl
  | cons c t ih =>
    intro st
    rw [List.foldl_cons, ih (removeEffect st c n), removeEffect_active st c n]

/-- Clearing the dependency set of an effect node that no cell points at
preserves the invariant. -/
theorem sym_setDepsEmpty {s : RState} (h : SymInv s) (j : Nat)
    (hempty : ∀ k, k < s.cells.length → NodeId.eff j ∉ (getCell s k).effects) :
    SymInv (setNodeDeps s (NodeId.eff j) []) := by
  obtain ⟨⟨h1, h2⟩, h3, h4, h5⟩ := h
  refine ⟨⟨?_, ?_⟩, h3, h4, h5⟩
  · intro k hk i hi
    have hk' : k < s.cells.length := hk
    have hi' : i < s.effs.length := by
      have := hi
      simpa [setNodeDeps, setEff] using this
    unfold effEdge
    by_cases hij : i = j
    · subst hij
      constructor
      · intro hx
        exact absurd hx (hempty k hk')
      · intro hx
        exfalso
        have hdep : (getEff (setNodeDeps s (NodeId.eff i) []) i).dependencies = [] := by
          show ((s.effs.set i _).getD i default).dependencies = []
          rw [getD_set_split, if_pos ⟨rfl, hi'⟩]
        rw [hdep] at hx
        simp at hx
    · have hdep : getEff (setNodeDeps s (NodeId.eff j) []) i = getEff s i := by
        show (s.effs.set j _).getD i default = s.effs.getD i default
        rw [getD_set_split, if_neg (fun hp => hij hp.1)]
      rw [hdep]
      exact h1 k hk' i hi'
  · intro k hk m hm
    exact h2 k hk m hm

theorem cleanupDeps_active_eff (s : RState) (j : Nat) :
    (cleanupDeps s (NodeId.eff j)).active = s.active := by
  unfold cleanupDeps
  dsimp only
  show (setNodeDeps _ (NodeId.eff j) []).active = _
  rw [show ∀ t : RState, (setNodeDeps t (NodeId.eff j) []).active = t.active
      from fun t => rfl]
  exact foldRemove_active_any (NodeId.eff j) _ s

theorem sym_cleanupDeps_eff {s : RState} (h : SymInv s) (j : Nat) :
    SymInv (cleanupDeps s (NodeId.eff j)) := by
  by_cases hj : j < s.effs.length
  · unfold cleanupDeps
    dsimp only
    have hfold := sym_foldRemove (n := NodeId.eff j) (nodeDeps s (NodeId.eff j)) s h
    refine sym_setDepsEmpty hfold j ?_
    intro k hk hmem
    have h1 := foldRemove_mem_any _ s k hmem
    rw [foldRemove_cells_len_any] at hk
    exact h1.2 ((h.1.1 k hk j hj).mp h1.1)
  · have hd : nodeDeps s (NodeId.eff j) = [] := by
      show (getEff s j).dependencies = []
      rw [getEff, List.getD_eq_default s.effs default (Nat.le_of_not_lt hj)]
      rfl
    unfold cleanupDeps
    dsimp only
    rw [hd]
    show SymInv (setNodeDeps s (NodeId.eff j) [])
    refine @symInv_of_parts s (setNodeDeps s (NodeId.eff j) []) rfl ?_ rfl h
    show s.effs.set j _ = s.effs
    exact List.set_eq_of_length_le (Nat.le_of_not_lt hj)

theorem effects_setCell_keep (s : RState) (c : Nat) (cl : Cell)
    (heff : cl.effects = (getCell s c).effects) (k : Nat) :
    (getCell (setCell s c cl) k).effects = (getCell s k).effects := by
  rw [getCell_setCell_split]
  split
  · rename_i hp
    rw [heff, hp.1]
  · rfl

theorem scheduleEffect_active (s : RState) (n : NodeId) :
    (scheduleEffect s n).active = s.active := by
  unfold scheduleEffect
  split
  · rfl
  · dsimp only
    split
    · rfl
    · rfl

theorem sym_recomputeNotify (l : List NodeId) :
    ∀ (s : RState) (c : Nat), SymInv s → SymInv (recomputeNotify s c l) := by
  induction l with
  | nil => intro s c h; exact h
  | cons e t ih =>
    intro s c h
    unfold recomputeNotify
    split
    · exact ih _ c (sym_removeEffect h c e)
    · split
      · exact ih s c h
      · exact ih _ c (sym_scheduleEffect h e)

theorem recomputeNotify_mk_mem (l : List NodeId) :
    ∀ (s : RState) (c m x : Nat),
      (x ∈ (getCell (recomputeNotify s c l) m).markerDeps ↔
        x ∈ (getCell s m).markerDeps) := by
  induction l with
  | nil => intro s c m x; exact Iff.rfl
  | cons e t ih =>
    intro s c m x
    unfold recomputeNotify
    split
    · rename_i hd
      cases e with
      | marker mm => simp [nodeDisposed] at hd
      | eff j =>
        rw [ih _ c m x, removeEffect_deps_mk]
        constructor
        · exact And.left
        · intro hin
          exact ⟨hin, fun hp => by simp at hp⟩
    · split
      · exact ih s c m x
      · rename_i hd hne
        rw [ih _ c m x]
        rw [show getCell (scheduleEffect s e) m = getCell s m from by
          rw [getCell, scheduleEffect_cells, getCell]]
    
theorem recomputeNotify_active (l : List NodeId) :
    ∀ (s : RState) (c : Nat), (recomputeNotify s c l).active = s.active := by
  induction l with
  | nil => intro s c; rfl
  | cons e t ih =>
    intro s c
    unfold recomputeNotify
    split
    · rw [ih _ c, removeEffect_active]
    · split
      · exact ih s c
      · rw [ih _ c, scheduleEffect_active]

theorem recomputeNotify_cells_len (l : List NodeId) :
    ∀ (s : RState) (c : Nat), (recomputeNotify s c l).cells.length = s.cells.length := by
  induction l with
  | nil => intro s c; rfl
  | cons e t ih =>
    intro s c
    unfold recomputeNotify
    split
    · rw [ih _ c, removeEffect_cells_len]
    · split
      · exact ih s c
      · rw [ih _ c, scheduleEffect_cells]

theorem recomputeNotify_rest (l : List NodeId) :
    ∀ (s : RState) (c k : Nat),
      (getCell (recomputeNotify s c l) k).sources = (getCell s k).sources ∧
      (getCell (recomputeNotify s c l) k).isComputing = (getCell s k).isComputing := by
  induction l with
  | nil => intro s c k; exact ⟨rfl, rfl⟩
  | cons e t ih =>
    intro s c k
    unfold recomputeNotify
    split
    · have h1 := ih (removeEffect s c e) c k
      have h2 := removeEffect_cell_rest s c e k
      exact ⟨h1.1.trans h2.1, h1.2.trans h2.2.1⟩
    · split
      · exact ih s c k
      · have h1 := ih (scheduleEffect s e) c k
        have h2 : getCell (scheduleEffect s e) k = getCell s k := by
          rw [getCell, scheduleEffect_cells, getCell]
        rw [h2] at h1
        exact h1

/-- Clearing a mid-recompute marker's `sources` and `dependencies` after all
its cell-side edges are gone preserves the invariant. -/
theorem sym_clearSrcMk {s : RState} (h : SymInv s) (c : Nat)
    (hic : (getCell s c).isComputing = true)
    (hnomk : ∀ k, k < s.cells.length → NodeId.marker c ∉ (getCell s k).effects) :
    SymInv (setCell s c { getCell s c with sources := [], markerDeps := [] }) := by
  obtain ⟨⟨h1, h2⟩, h3, h4, h5⟩ := h
  have hg : ∀ k, getCell (setCell s c { getCell s c with sources := [], markerDeps := [] }) k
      = if k = c ∧ c < s.cells.length
        then { getCell s c with sources := [], markerDeps := [] }
        else getCell s k :=
    fun k => getCell_setCell_split s c k _
  have hlen : (setCell s c { getCell s c with sources := [], markerDeps := [] }).cells.length
      = s.cells.length := by
    simp [setCell]
  refine ⟨⟨?_, ?_⟩, ?_, ?_, ?_⟩
  · intro k hk i hi
    rw [hlen] at hk
    have hb := h1 k hk i hi
    unfold effEdge at hb ⊢
    rw [hg k]
    by_cases hkc : k = c ∧ c < s.cells.length
    · rw [if_pos hkc]
      show NodeId.eff i ∈ (getCell s c).effects ↔ _
      rw [← hkc.1]
      exact hb
    · rw [if_neg hkc]
      exact hb
  · intro k hk m hm
    rw [hlen] at hk
    rw [hlen] at hm
    have hb := h2 k hk m hm
    unfold mkEdge at hb ⊢
    rw [hg k, hg m]
    by_cases hmc : m = c ∧ c < s.cells.length
    · rw [if_pos hmc]
      by_cases hkc : k = c ∧ c < s.cells.length
      · rw [if_pos hkc]
        show NodeId.marker m ∈ (getCell s c).effects ↔ k ∈ ([] : List Nat)
        constructor
        · intro hx
          rw [hmc.1] at hx
          exact absurd hx (hnomk c hkc.2)
        · intro hx
          simp at hx
      · rw [if_neg hkc]
        show NodeId.marker m ∈ (getCell s k).effects ↔ k ∈ ([] : List Nat)
        constructor
        · intro hx
          rw [hmc.1] at hx
          exact absurd hx (hnomk k hk)
        · intro hx
          simp at hx
    · rw [if_neg hmc]
      by_cases hkc : k = c ∧ c < s.cells.length
      · rw [if_pos hkc]
        show NodeId.marker m ∈ (getCell s c).effects ↔ _
        rw [← hkc.1]
        exact hb
      · rw [if_neg hkc]
        exact hb
  · intro m hm hicm x hx
    rw [hlen] at hm
    rw [hg m] at hicm hx ⊢
    by_cases hmc : m = c ∧ c < s.cells.length
    · rw [if_pos hmc] at hicm
      have hicm' : (getCell s c).isComputing = false := hicm
      rw [hic] at hicm'
      exact absurd hicm' (by decide)
    · rw [if_neg hmc] at hicm hx ⊢
      exact h3 m hm hicm x hx
  · intro n hn
    have hb := h4 n hn
    cases n with
    | eff j => trivial
    | marker m =>
      show (getCell _ m).isComputing = true
      rw [hg m]
      by_cases hmc : m = c ∧ c < s.cells.length
      · rw [if_pos hmc]
        show (getCell s c).isComputing = true
        exact hic
      · rw [if_neg hmc]
        exact hb
  · exact good_setCell h5 c _ rfl rfl

theorem setCell_len (s : RState) (c : Nat) (cl : Cell) :
    (setCell s c cl).cells.length = s.cells.length := by
  simp [setCell]

theorem sym_runEffectBegin {s : RState} (h : SymInv s) (j : Nat) :
    SymInv (runEffectBegin s j) ∧
      (runEffectBegin s j).active = s.active ++ [NodeId.eff j] := by
  have h0 : SymInv { s with runCounts := bumpCount s.runCounts j } :=
    symInv_of_parts rfl rfl rfl h
  have h1 : SymInv (cleanupDeps { s with runCounts := bumpCount s.runCounts j }
      (NodeId.eff j)) :=
    sym_cleanupDeps_eff h0 j
  constructor
  · exact sym_pushActive h1 (NodeId.eff j) True.intro
  · show (cleanupDeps { s with runCounts := bumpCount s.runCounts j }
      (NodeId.eff j)).active ++ [NodeId.eff j] = s.active ++ [NodeId.eff j]
    rw [cleanupDeps_active_eff]

theorem removeSources_rest (s : RState) (c k : Nat) :
    (getCell (removeSources s c) k).sources = (getCell s k).sources ∧
    (getCell (removeSources s c) k).isComputing = (getCell s k).isComputing :=
  foldRemove_rest_any (NodeId.marker c) _ s k

theorem removeSources_cells_len (s : RState) (c : Nat) :
    (removeSources s c).cells.length = s.cells.length :=
  foldRemove_cells_len_any (NodeId.marker c) _ s

theorem removeSources_active (s : RState) (c : Nat) :
    (removeSources s c).active = s.active :=
  foldRemove_active_any (NodeId.marker c) _ s

theorem removeSources_mem {s : RState} {c k : Nat}
    (h : NodeId.marker c ∈ (getCell (removeSources s c) k).effects) :
    NodeId.marker c ∈ (getCell s k).effects ∧ k ∉ (getCell s c).sources :=
  foldRemove_mem_any _ s k h

theorem sym_removeSources {s : RState} (h : SymInv s) (c : Nat) :
    SymInv (removeSources s c) :=
  sym_foldRemove _ s h

theorem sym_recomputeBegin {s : RState} (h : SymInv s) (c : Nat)
    (hclen : c < s.cells.length) (hic : (getCell s c).isComputing = false) :
    SymInv (recomputeBegin s c) ∧
      (recomputeBegin s c).active = s.active ++ [NodeId.marker c] := by
  have hs1 : SymInv (setCell s c { getCell s c with isComputing := true }) :=
    sym_setCell_keep h c { getCell s c with isComputing := true } rfl rfl
      (fun x hx => hx) (Or.inl rfl) rfl rfl
  have hs2 : SymInv (removeSources (setCell s c
      { getCell s c with isComputing := true }) c) :=
    sym_removeSources hs1 c
  have hic2 : (getCell (removeSources (setCell s c
      { getCell s c with isComputing := true }) c) c).isComputing = true := by
    rw [(removeSources_rest _ c c).2, getCell_setCell_split, if_pos ⟨rfl, hclen⟩]
  have hnomk : ∀ k, k < (removeSources (setCell s c
      { getCell s c with isComputing := true }) c).cells.length →
      NodeId.marker c ∉ (getCell (removeSources (setCell s c
        { getCell s c with isComputing := true }) c) k).effects := by
    intro k hk hmem
    have h1 := removeSources_mem hmem
    rw [removeSources_cells_len, setCell_len] at hk
    have hmem0 : NodeId.marker c ∈ (getCell s k).effects := by
      rw [effects_setCell_keep s c { getCell s c with isComputing := true } rfl k] at h1
      exact h1.1
    have hkc := (h.1.2 k hk c hclen).mp hmem0
    have hsrc := h.2.1 c hclen hic k hkc
    refine h1.2 ?_
    have hss : (getCell (setCell s c { getCell s c with isComputing := true }) c).sources
        = (getCell s c).sources := by
      rw [getCell_setCell_split, if_pos ⟨rfl, hclen⟩]
    rw [hss]
    exact hsrc
  have hs3 : SymInv (setCell (removeSources (setCell s c
      { getCell s c with isComputing := true }) c) c
      { getCell (removeSources (setCell s c
        { getCell s c with isComputing := true }) c) c with
        sources := [], markerDeps := [] }) :=
    sym_clearSrcMk hs2 c hic2 hnomk
  have hok : (getCell (setCell (removeSources (setCell s c
      { getCell s c with isComputing := true }) c) c
      { getCell (removeSources (setCell s c
        { getCell s c with isComputing := true }) c) c with
        sources := [], markerDeps := [] }) c).isComputing = true := by
    rw [getCell_setCell_split, if_pos ⟨rfl, by
      rw [removeSources_cells_len, setCell_len]
      exact hclen⟩]
    exact hic2
  constructor
  · exact sym_pushActive hs3 (NodeId.marker c) hok
  · show (removeSources (setCell s c
      { getCell s c with isComputing := true }) c).active ++ [NodeId.marker c]
      = s.active ++ [NodeId.marker c]
    rw [removeSources_active]
    rfl

/-- The `finally` of `recompute`: pop the marker, clear `isComputing`. -/
theorem sym_uncompute {t : RState} (h : SymInv t) (c : Nat) (A : List NodeId)
    (hact : t.active = A ++ [NodeId.marker c]) (hnA : NodeId.marker c ∉ A)
    (hsub : ∀ x, x ∈ (getCell t c).markerDeps → x ∈ (getCell t c).sources) :
    SymInv (finishRecompute t c) ∧ (finishRecompute t c).active = A := by
  have hdrop : t.active.dropLast = A := by
    rw [hact]
    simp
  have ht2 : SymInv { t with active := t.active.dropLast } :=
    @sym_active_sub t { t with active := t.active.dropLast } rfl rfl
      (fun n hn => List.dropLast_subset t.active hn) h
  constructor
  · show SymInv (setCell { t with active := t.active.dropLast } c
      { getCell { t with active := t.active.dropLast } c with isComputing := false })
    obtain ⟨⟨h1, h2⟩, h3, h4, h5⟩ := ht2
    have hg : ∀ k, getCell (setCell { t with active := t.active.dropLast } c
        { getCell { t with active := t.active.dropLast } c with isComputing := false }) k
        = if k = c ∧ c < ({ t with active := t.active.dropLast } : RState).cells.length
          then { getCell { t with active := t.active.dropLast } c with isComputing := false }
          else getCell { t with active := t.active.dropLast } k :=
      fun k => getCell_setCell_split _ c k _
    refine ⟨⟨?_, ?_⟩, ?_, ?_, ?_⟩
    · intro k hk i hi
      rw [setCell_len] at hk
      have hb := h1 k hk i hi
      unfold effEdge at hb ⊢
      rw [hg k]
      by_cases hkc : k = c ∧ c < ({ t with active := t.active.dropLast } : RState).cells.length
      · rw [if_pos hkc]
        show NodeId.eff i ∈ (getCell { t with active := t.active.dropLast } c).effects ↔ _
        rw [← hkc.1]
        exact hb
      · rw [if_neg hkc]
        exact hb
    · intro k hk m hm
      rw [setCell_len] at hk
      rw [setCell_len] at hm
      have hb := h2 k hk m hm
      unfold mkEdge at hb ⊢
      rw [hg k, hg m]
      by_cases hkc : k = c ∧ c < ({ t with active := t.active.dropLast } : RState).cells.length
      · by_cases hmc : m = c ∧ c < ({ t with active := t.active.dropLast } : RState).cells.length
        · rw [hkc.1, hmc.1] at hb
          rw [if_pos hkc, if_pos hmc, hkc.1, hmc.1]
          exact hb
        · rw [hkc.1] at hb
          rw [if_pos hkc, if_neg hmc, hkc.1]
          exact hb
      · by_cases hmc : m = c ∧ c < ({ t with active := t.active.dropLast } : RState).cells.length
        · rw [hmc.1] at hb
          rw [if_neg hkc, if_pos hmc, hmc.1]
          exact hb
        · rw [if_neg hkc, if_neg hmc]
          exact hb
    · intro m hm hicm x hx
      rw [setCell_len] at hm
      rw [hg m] at hicm hx ⊢
      by_cases hmc : m = c ∧ c < ({ t with active := t.active.dropLast } : RState).cells.length
      · rw [if_pos hmc] at hx ⊢
        exact hsub x hx
      · rw [if_neg hmc] at hicm hx ⊢
        exact h3 m hm hicm x hx
    · intro n hn
      have hn2 : n ∈ t.active.dropLast := hn
      have hb := h4 n hn2
      cases n with
      | eff j => trivial
      | marker m =>
        show (getCell _ m).isComputing = true
        rw [hg m]
        by_cases hmc : m = c ∧ c < ({ t with active := t.active.dropLast } : RState).cells.length
        · exfalso
          rw [hdrop] at hn2
          rw [hmc.1] at hn2
          exact hnA hn2
        · rw [if_neg hmc]
          exact hb
    · exact good_setCell h5 c _ rfl rfl
  · show ({ t with active := t.active.dropLast } : RState).active = A
    exact hdrop

theorem sym_recomputeFinish {s5 : RState} (h : SymInv s5) (c newV : Nat) (hc : Bool)
    (A : List NodeId) (hact : s5.active = A ++ [NodeId.marker c])
    (hnA : NodeId.marker c ∉ A) (hclen : c < s5.cells.length) :
    SymInv (recomputeFinish s5 c newV hc) ∧ (recomputeFinish s5 c newV hc).active = A := by
  unfold recomputeFinish
  dsimp only
  have hs6 : SymInv (if hc then recomputeNotify (setCell s5 c { getCell s5 c with value := newV }) c (getCell (setCell s5 c { getCell s5 c with value := newV }) c).effects else s5) := by
    split
    · refine sym_recomputeNotify _ _ c ?_
      exact sym_setCell_keep h c { getCell s5 c with value := newV } rfl rfl
        (fun x hx => hx) (Or.inr rfl) rfl rfl
    · exact h
  have hact6 : ((if hc then recomputeNotify (setCell s5 c { getCell s5 c with value := newV }) c (getCell (setCell s5 c { getCell s5 c with value := newV }) c).effects else s5)).active = s5.active := by
    split
    · rw [recomputeNotify_active]
      rfl
    · rfl
  have hlen6 : ((if hc then recomputeNotify (setCell s5 c { getCell s5 c with value := newV }) c (getCell (setCell s5 c { getCell s5 c with value := newV }) c).effects else s5)).cells.length = s5.cells.length := by
    split
    · rw [recomputeNotify_cells_len, setCell_len]
    · rfl
  have hs7 : SymInv (setCell (if hc then recomputeNotify (setCell s5 c { getCell s5 c with value := newV }) c (getCell (setCell s5 c { getCell s5 c with value := newV }) c).effects else s5) c { getCell (if hc then recomputeNotify (setCell s5 c { getCell s5 c with value := newV }) c (getCell (setCell s5 c { getCell s5 c with value := newV }) c).effects else s5) c with dirty := false }) :=
    sym_setCell_keep hs6 c { getCell (if hc then recomputeNotify (setCell s5 c { getCell s5 c with value := newV }) c (getCell (setCell s5 c { getCell s5 c with value := newV }) c).effects else s5) c with dirty := false } rfl rfl
      (fun x hx => hx) (Or.inr rfl) rfl rfl
  have hact7 : ((setCell (if hc then recomputeNotify (setCell s5 c { getCell s5 c with value := newV }) c (getCell (setCell s5 c { getCell s5 c with value := newV }) c).effects else s5) c { getCell (if hc then recomputeNotify (setCell s5 c { getCell s5 c with value := newV }) c (getCell (setCell s5 c { getCell s5 c with value := newV }) c).effects else s5) c with dirty := false })).active = s5.active := hact6
  have hlen7 : ((setCell (if hc then recomputeNotify (setCell s5 c { getCell s5 c with value := newV }) c (getCell (setCell s5 c { getCell s5 c with value := newV }) c).effects else s5) c { getCell (if hc then recomputeNotify (setCell s5 c { getCell s5 c with value := newV }) c (getCell (setCell s5 c { getCell s5 c with value := newV }) c).effects else s5) c with dirty := false })).cells.length = s5.cells.length := (setCell_len _ c _).trans hlen6
  have hs8 : SymInv (setCell (setCell (if hc then recomputeNotify (setCell s5 c { getCell s5 c with value := newV }) c (getCell (setCell s5 c { getCell s5 c with value := newV }) c).effects else s5) c { getCell (if hc then recomputeNotify (setCell s5 c { getCell s5 c with value := newV }) c (getCell (setCell s5 c { getCell s5 c with value := newV }) c).effects else s5) c with dirty := false }) c { getCell (setCell (if hc then recomputeNotify (setCell s5 c { getCell s5 c with value := newV }) c (getCell (setCell s5 c { getCell s5 c with value := newV }) c).effects else s5) c { getCell (if hc then recomputeNotify (setCell s5 c { getCell s5 c with value := newV }) c (getCell (setCell s5 c { getCell s5 c with value := newV }) c).effects else s5) c with dirty := false }) c with sources := copyAll (getCell (setCell (if hc then recomputeNotify (setCell s5 c { getCell s5 c with value := newV }) c (getCell (setCell s5 c { getCell s5 c with value := newV }) c).effects else s5) c { getCell (if hc then recomputeNotify (setCell s5 c { getCell s5 c with value := newV }) c (getCell (setCell s5 c { getCell s5 c with value := newV }) c).effects else s5) c with dirty := false }) c).sources (getCell (setCell (if hc then recomputeNotify (setCell s5 c { getCell s5 c with value := newV }) c (getCell (setCell s5 c { getCell s5 c with value := newV }) c).effects else s5) c { getCell (if hc then recomputeNotify (setCell s5 c { getCell s5 c with value := newV }) c (getCell (setCell s5 c { getCell s5 c with value := newV }) c).effects else s5) c with dirty := false }) c).markerDeps }) :=
    sym_setCell_keep hs7 c
      { getCell (setCell (if hc then recomputeNotify (setCell s5 c { getCell s5 c with value := newV }) c (getCell (setCell s5 c { getCell s5 c with value := newV }) c).effects else s5) c { getCell (if hc then recomputeNotify (setCell s5 c { getCell s5 c with value := newV }) c (getCell (setCell s5 c { getCell s5 c with value := newV }) c).effects else s5) c with dirty := false }) c with
        sources := copyAll (getCell (setCell (if hc then recomputeNotify (setCell s5 c { getCell s5 c with value := newV }) c (getCell (setCell s5 c { getCell s5 c with value := newV }) c).effects else s5) c { getCell (if hc then recomputeNotify (setCell s5 c { getCell s5 c with value := newV }) c (getCell (setCell s5 c { getCell s5 c with value := newV }) c).effects else s5) c with dirty := false }) c).sources (getCell (setCell (if hc then recomputeNotify (setCell s5 c { getCell s5 c with value := newV }) c (getCell (setCell s5 c { getCell s5 c with value := newV }) c).effects else s5) c { getCell (if hc then recomputeNotify (setCell s5 c { getCell s5 c with value := newV }) c (getCell (setCell s5 c { getCell s5 c with value := newV }) c).effects else s5) c with dirty := false }) c).markerDeps } rfl rfl
      (fun x hx => (mem_copyAll _ _ x).mpr (Or.inl hx)) (Or.inr rfl) rfl rfl
  have hact8 : ((setCell (setCell (if hc then recomputeNotify (setCell s5 c { getCell s5 c with value := newV }) c (getCell (setCell s5 c { getCell s5 c with value := newV }) c).effects else s5) c { getCell (if hc then recomputeNotify (setCell s5 c { getCell s5 c with value := newV }) c (getCell (setCell s5 c { getCell s5 c with value := newV }) c).effects else s5) c with dirty := false }) c { getCell (setCell (if hc then recomputeNotify (setCell s5 c { getCell s5 c with value := newV }) c (getCell (setCell s5 c { getCell s5 c with value := newV }) c).effects else s5) c { getCell (if hc then recomputeNotify (setCell s5 c { getCell s5 c with value := newV }) c (getCell (setCell s5 c { getCell s5 c with value := newV }) c).effects else s5) c with dirty := false }) c with sources := copyAll (getCell (setCell (if hc then recomputeNotify (setCell s5 c { getCell s5 c with value := newV }) c (getCell (setCell s5 c { getCell s5 c with value := newV }) c).effects else s5) c { getCell (if hc then recomputeNotify (setCell s5 c { getCell s5 c with value := newV }) c (getCell (setCell s5 c { getCell s5 c with value := newV }) c).effects else s5) c with dirty := false }) c).sources (getCell (setCell (if hc then recomputeNotify (setCell s5 c { getCell s5 c with value := newV }) c (getCell (setCell s5 c { getCell s5 c with value := newV }) c).effects else s5) c { getCell (if hc then recomputeNotify (setCell s5 c { getCell s5 c with value := newV }) c (getCell (setCell s5 c { getCell s5 c with value := newV }) c).effects else s5) c with dirty := false }) c).markerDeps })).active = A ++ [NodeId.marker c] := hact7.trans hact
  have hsub8 : ∀ x, x ∈ (getCell (setCell (setCell (if hc then recomputeNotify (setCell s5 c { getCell s5 c with value := newV }) c (getCell (setCell s5 c { getCell s5 c with value := newV }) c).effects else s5) c { getCell (if hc then recomputeNotify (setCell s5 c { getCell s5 c with value := newV }) c (getCell (setCell s5 c { getCell s5 c with value := newV }) c).effects else s5) c with dirty := false }) c { getCell (setCell (if hc then recomputeNotify (setCell s5 c { getCell s5 c with value := newV }) c (getCell (setCell s5 c { getCell s5 c with value := newV }) c).effects else s5) c { getCell (if hc then recomputeNotify (setCell s5 c { getCell s5 c with value := newV }) c (getCell (setCell s5 c { getCell s5 c with value := newV }) c).effects else s5) c with dirty := false }) c with sources := copyAll (getCell (setCell (if hc then recomputeNotify (setCell s5 c { getCell s5 c with value := newV }) c (getCell (setCell s5 c { getCell s5 c with value := newV }) c).effects else s5) c { getCell (if hc then recomputeNotify (setCell s5 c { getCell s5 c with value := newV }) c (getCell (setCell s5 c { getCell s5 c with value := newV }) c).effects else s5) c with dirty := false }) c).sources (getCell (setCell (if hc then recomputeNotify (setCell s5 c { getCell s5 c with value := newV }) c (getCell (setCell s5 c { getCell s5 c with value := newV }) c).effects else s5) c { getCell (if hc then recomputeNotify (setCell s5 c { getCell s5 c with value := newV }) c (getCell (setCell s5 c { getCell s5 c with value := newV }) c).effects else s5) c with dirty := false }) c).markerDeps }) c).markerDeps → x ∈ (getCell (setCell (setCell (if hc then recomputeNotify (setCell s5 c { getCell s5 c with value := newV }) c (getCell (setCell s5 c { getCell s5 c with value := newV }) c).effects else s5) c { getCell (if hc then recomputeNotify (setCell s5 c { getCell s5 c with value := newV }) c (getCell (setCell s5 c { getCell s5 c with value := newV }) c).effects else s5) c with dirty := false }) c { getCell (setCell (if hc then recomputeNotify (setCell s5 c { getCell s5 c with value := newV }) c (getCell (setCell s5 c { getCell s5 c with value := newV }) c).effects else s5) c { getCell (if hc then recomputeNotify (setCell s5 c { getCell s5 c with value := newV }) c (getCell (setCell s5 c { getCell s5 c with value := newV }) c).effects else s5) c with dirty := false }) c with sources := copyAll (getCell (setCell (if hc then recomputeNotify (setCell s5 c { getCell s5 c with value := newV }) c (getCell (setCell s5 c { getCell s5 c with value := newV }) c).effects else s5) c { getCell (if hc then recomputeNotify (setCell s5 c { getCell s5 c with value := newV }) c (getCell (setCell s5 c { getCell s5 c with value := newV }) c).effects else s5) c with dirty := false }) c).sources (getCell (setCell (if hc then recomputeNotify (setCell s5 c { getCell s5 c with value := newV }) c (getCell (setCell s5 c { getCell s5 c with value := newV }) c).effects else s5) c { getCell (if hc then recomputeNotify (setCell s5 c { getCell s5 c with value := newV }) c (getCell (setCell s5 c { getCell s5 c with value := newV }) c).effects else s5) c with dirty := false }) c).markerDeps }) c).sources := by
    have hc8 : getCell (setCell (setCell (if hc then recomputeNotify (setCell s5 c { getCell s5 c with value := newV }) c (getCell (setCell s5 c { getCell s5 c with value := newV }) c).effects else s5) c { getCell (if hc then recomputeNotify (setCell s5 c { getCell s5 c with value := newV }) c (getCell (setCell s5 c { getCell s5 c with value := newV }) c).effects else s5) c with dirty := false }) c { getCell (setCell (if hc then recomputeNotify (setCell s5 c { getCell s5 c with value := newV }) c (getCell (setCell s5 c { getCell s5 c with value := newV }) c).effects else s5) c { getCell (if hc then recomputeNotify (setCell s5 c { getCell s5 c with value := newV }) c (getCell (setCell s5 c { getCell s5 c with value := newV }) c).effects else s5) c with dirty := false }) c with sources := copyAll (getCell (setCell (if hc then recomputeNotify (setCell s5 c { getCell s5 c with value := newV }) c (getCell (setCell s5 c { getCell s5 c with value := newV }) c).effects else s5) c { getCell (if hc then recomputeNotify (setCell s5 c { getCell s5 c with value := newV }) c (getCell (setCell s5 c { getCell s5 c with value := newV }) c).effects else s5) c with dirty := false }) c).sources (getCell (setCell (if hc then recomputeNotify (setCell s5 c { getCell s5 c with value := newV }) c (getCell (setCell s5 c { getCell s5 c with value := newV }) c).effects else s5) c { getCell (if hc then recomputeNotify (setCell s5 c { getCell s5 c with value := newV }) c (getCell (setCell s5 c { getCell s5 c with value := newV }) c).effects else s5) c with dirty := false }) c).markerDeps }) c
        = { getCell (setCell (if hc then recomputeNotify (setCell s5 c { getCell s5 c with value := newV }) c (getCell (setCell s5 c { getCell s5 c with value := newV }) c).effects else s5) c { getCell (if hc then recomputeNotify (setCell s5 c { getCell s5 c with value := newV }) c (getCell (setCell s5 c { getCell s5 c with value := newV }) c).effects else s5) c with dirty := false }) c with
            sources := copyAll (getCell (setCell (if hc then recomputeNotify (setCell s5 c { getCell s5 c with value := newV }) c (getCell (setCell s5 c { getCell s5 c with value := newV }) c).effects else s5) c { getCell (if hc then recomputeNotify (setCell s5 c { getCell s5 c with value := newV }) c (getCell (setCell s5 c { getCell s5 c with value := newV }) c).effects else s5) c with dirty := false }) c).sources (getCell (setCell (if hc then recomputeNotify (setCell s5 c { getCell s5 c with value := newV }) c (getCell (setCell s5 c { getCell s5 c with value := newV }) c).effects else s5) c { getCell (if hc then recomputeNotify (setCell s5 c { getCell s5 c with value := newV }) c (getCell (setCell s5 c { getCell s5 c with value := newV }) c).effects else s5) c with dirty := false }) c).markerDeps } := by
      rw [getCell_setCell_split, if_pos ⟨rfl, by rw [hlen7]; exact hclen⟩]
    intro x hx
    rw [hc8] at hx ⊢
    exact (mem_copyAll _ _ x).mpr (Or.inr hx)
  exact sym_uncompute hs8 c A hact8 hnA hsub8

/-- Result-level invariant preservation: the invariant holds in the carried
state and the active stack is restored, on both exits. -/
def SymRes {α : Type} (s : RState) : Res α → Prop
  | .ok _ s' => SymInv s' ∧ s'.active = s.active
  | .er _ s' => SymInv s' ∧ s'.active = s.active
  | .nf => True

/-- Like `SymRes` but additionally: the call cannot throw. -/
def SymResNE {α : Type} (s : RState) : Res α → Prop
  | .ok _ s' => SymInv s' ∧ s'.active = s.active
  | .er _ _ => False
  | .nf => True

theorem symNE_of {α : Type} {s t : RState} {r : Res α}
    (h1 : SymInv t ∧ t.active = s.active) (h2 : SymResNE t r) : SymResNE s r := by
  cases r with
  | ok a s1 => exact ⟨h2.1, h2.2.trans h1.2⟩
  | er e s1 => exact h2
  | nf => trivial

theorem symRes_of {α : Type} {s t : RState} {r : Res α}
    (h1 : SymInv t ∧ t.active = s.active) (h2 : SymRes t r) : SymRes s r := by
  cases r with
  | ok a s1 => exact ⟨h2.1, h2.2.trans h1.2⟩
  | er e s1 => exact ⟨h2.1, h2.2.trans h1.2⟩
  | nf => trivial

theorem symNE_res {α : Type} {s : RState} {r : Res α} (h : SymResNE s r) : SymRes s r := by
  cases r with
  | ok a s1 => exact h
  | er e s1 => exact h.elim
  | nf => trivial

theorem symNE_okE {α : Type} {s : RState} {r : Res α} {a : α} {s1 : RState}
    (h : SymResNE s r) (he : r = .ok a s1) : SymInv s1 ∧ s1.active = s.active := by
  subst he; exact h

theorem symNE_erE {α : Type} {s : RState} {r : Res α} {e : RErr} {s1 : RState}
    (h : SymResNE s r) (he : r = .er e s1) : False := by
  subst he; exact h

theorem symRes_okE {α : Type} {s : RState} {r : Res α} {a : α} {s1 : RState}
    (h : SymRes s r) (he : r = .ok a s1) : SymInv s1 ∧ s1.active = s.active := by
  subst he; exact h

theorem symRes_erE {α : Type} {s : RState} {r : Res α} {e : RErr} {s1 : RState}
    (h : SymRes s r) (he : r = .er e s1) : SymInv s1 ∧ s1.active = s.active := by
  subst he; exact h

theorem trackRead_active (s : RState) (c : Nat) : (trackRead s c).active = s.active := by
  unfold trackRead
  cases s.active.getLast? with
  | none => rfl
  | some n => exact addEffect_active s c n

theorem hcc_ne_none {cl : Cell} (he : cl.equals ≠ EqPolicy.throwing) (v : Nat) :
    hasChangedCheck cl v ≠ none := by
  unfold hasChangedCheck
  split
  · simp
  · cases hE : cl.equals with
    | throwing => exact absurd hE he
    | default => simp [EqPolicy.run]
    | neverEq => simp [EqPolicy.run]

theorem recomputeBegin_cells_len (s : RState) (c : Nat) :
    (recomputeBegin s c).cells.length = s.cells.length := by
  show (setCell (removeSources (setCell s c
    { getCell s c with isComputing := true }) c) c _).cells.length = _
  rw [setCell_len, removeSources_cells_len, setCell_len]

theorem marker_not_active {s : RState} (h : SymInv s) {c : Nat}
    (hic : (getCell s c).isComputing = false) : NodeId.marker c ∉ s.active := by
  intro hmem
  have hb := h.2.2.1 _ hmem
  have hb' : (getCell s c).isComputing = true := hb
  rw [hic] at hb'
  exact absurd hb' (by decide)

theorem cellExpr_nothrow (cl : Cell) (h : noThrowKind cl.kind = true) :
    NoThrow (cellExpr cl) = true := by
  unfold cellExpr
  split
  · rename_i e eg heq
    rw [heq] at h
    exact h
  · decide

/-- Every interpreter entry point preserves the edge-symmetry invariant on
both exits and restores the active stack; the compute-function chain
(`evalExpr` on throw-free code, `readCell`, `recompute`) cannot throw. -/
theorem symAll (f : Nat) :
    (∀ (s : RState) (e : Expr), SymInv s →
      SymRes s (evalExpr f s e) ∧ (NoThrow e = true → SymResNE s (evalExpr f s e))) ∧
    (∀ (s : RState) (c : Nat), SymInv s → SymResNE s (readCell f s c)) ∧
    (∀ (s : RState) (c v : Nat), SymInv s → SymRes s (writeCell f s c v)) ∧
    (∀ (s : RState) (c : Nat) (l : List NodeId), SymInv s →
      SymResNE s (writeNotify f s c l)) ∧
    (∀ (s : RState) (c : Nat), SymInv s → SymResNE s (markDirty f s c)) ∧
    (∀ (s : RState) (c : Nat) (vis : List NodeId), SymInv s →
      SymResNE s (markDirtyLoop f s c vis)) ∧
    (∀ (s : RState) (c : Nat), SymInv s → c < s.cells.length →
      SymResNE s (recompute f s c)) ∧
    (∀ (s : RState) (j : Nat), SymInv s → SymRes s (runEffect f s j)) ∧
    (∀ (s : RState) (n : NodeId), SymInv s → SymRes s (runNode f s n)) ∧
    (∀ (s : RState) (iters : Nat), SymInv s → SymRes s (flushLoop f s iters)) ∧
    (∀ (s : RState) (l : List NodeId), SymInv s → SymRes s (flushRun f s l)) ∧
    (∀ s : RState, SymInv s → SymRes s (flushEffects f s)) ∧
    (∀ (s : RState) (c : Cmd), SymInv s → SymRes s (runCmd f s c)) := by
  induction f with
  | zero =>
    refine ⟨?_, ?_, ?_, ?_, ?_, ?_, ?_, ?_, ?_, ?_, ?_, ?_, ?_⟩ <;>
      intros <;> simp [evalExpr, readCell, writeCell, writeNotify, markDirty, markDirtyLoop,
        recompute, runEffect, runNode, flushLoop, flushRun, flushEffects, runCmd,
        SymRes, SymResNE]
  | succ f ih =>
    obtain ⟨ihE, ihR, ihW, ihWN, ihM, ihML, ihRC, ihRE, ihRN, ihFL, ihFR, ihFE, ihC⟩ := ih
    refine ⟨?_, ?_, ?_, ?_, ?_, ?_, ?_, ?_, ?_, ?_, ?_, ?_, ?_⟩
    -- evalExpr
    · intro s e hInv
      match e with
      | .const n => exact ⟨⟨hInv, rfl⟩, fun _ => ⟨hInv, rfl⟩⟩
      | .readE c =>
        exact ⟨symNE_res (ihR s c hInv), fun _ => ihR s c hInv⟩
      | .throwE =>
        refine ⟨⟨hInv, rfl⟩, fun hNT => absurd hNT (by decide)⟩
      | .add a b =>
        simp only [evalExpr]
        constructor
        · cases h1 : evalExpr f s a with
          | ok va s1 =>
            try dsimp only
            have p1 := symRes_okE (ihE s a hInv).1 h1
            cases h2 : evalExpr f s1 b with
            | ok vb s2 =>
              have p2 := symRes_okE (ihE s1 b p1.1).1 h2
              exact ⟨p2.1, p2.2.trans p1.2⟩
            | er e2 s2 =>
              have p2 := symRes_erE (ihE s1 b p1.1).1 h2
              exact ⟨p2.1, p2.2.trans p1.2⟩
            | nf => trivial
          | er e1 s1 => exact symRes_erE (ihE s a hInv).1 h1
          | nf => trivial
        · intro hNT
          have hNT2 : NoThrow a = true ∧ NoThrow b = true := by
            have h0 : (NoThrow a && NoThrow b) = true := hNT
            simp only [Bool.and_eq_true] at h0
            exact h0
          obtain ⟨hNa, hNb⟩ := hNT2
          cases h1 : evalExpr f s a with
          | ok va s1 =>
            try dsimp only
            have p1 := symNE_okE ((ihE s a hInv).2 hNa) h1
            cases h2 : evalExpr f s1 b with
            | ok vb s2 =>
              have p2 := symNE_okE ((ihE s1 b p1.1).2 hNb) h2
              exact ⟨p2.1, p2.2.trans p1.2⟩
            | er e2 s2 => exact symNE_erE ((ihE s1 b p1.1).2 hNb) h2
            | nf => trivial
          | er e1 s1 => exact symNE_erE ((ihE s a hInv).2 hNa) h1
          | nf => trivial
      | .mul a b =>
        simp only [evalExpr]
        constructor
        · cases h1 : evalExpr f s a with
          | ok va s1 =>
            try dsimp only
            have p1 := symRes_okE (ihE s a hInv).1 h1
            cases h2 : evalExpr f s1 b with
            | ok vb s2 =>
              have p2 := symRes_okE (ihE s1 b p1.1).1 h2
              exact ⟨p2.1, p2.2.trans p1.2⟩
            | er e2 s2 =>
              have p2 := symRes_erE (ihE s1 b p1.1).1 h2
              exact ⟨p2.1, p2.2.trans p1.2⟩
            | nf => trivial
          | er e1 s1 => exact symRes_erE (ihE s a hInv).1 h1
          | nf => trivial
        · intro hNT
          have hNT2 : NoThrow a = true ∧ NoThrow b = true := by
            have h0 : (NoThrow a && NoThrow b) = true := hNT
            simp only [Bool.and_eq_true] at h0
            exact h0
          obtain ⟨hNa, hNb⟩ := hNT2
          cases h1 : evalExpr f s a with
          | ok va s1 =>
            try dsimp only
            have p1 := symNE_okE ((ihE s a hInv).2 hNa) h1
            cases h2 : evalExpr f s1 b with
            | ok vb s2 =>
              have p2 := symNE_okE ((ihE s1 b p1.1).2 hNb) h2
              exact ⟨p2.1, p2.2.trans p1.2⟩
            | er e2 s2 => exact symNE_erE ((ihE s1 b p1.1).2 hNb) h2
            | nf => trivial
          | er e1 s1 => exact symNE_erE ((ihE s a hInv).2 hNa) h1
          | nf => trivial
      | .ifz cnd a b =>
        simp only [evalExpr]
        constructor
        · cases h1 : evalExpr f s cnd with
          | ok vc s1 =>
            try dsimp only
            have p1 := symRes_okE (ihE s cnd hInv).1 h1
            split
            · exact symRes_of p1 (ihE s1 a p1.1).1
            · exact symRes_of p1 (ihE s1 b p1.1).1
          | er e1 s1 => exact symRes_erE (ihE s cnd hInv).1 h1
          | nf => trivial
        · intro hNT
          have hNT2 : (NoThrow cnd = true ∧ NoThrow a = true) ∧ NoThrow b = true := by
            have h0 : (NoThrow cnd && NoThrow a && NoThrow b) = true := hNT
            simp only [Bool.and_eq_true] at h0
            exact h0
          obtain ⟨⟨hNc, hNa⟩, hNb⟩ := hNT2
          cases h1 : evalExpr f s cnd with
          | ok vc s1 =>
            try dsimp only
            have p1 := symNE_okE ((ihE s cnd hInv).2 hNc) h1
            split
            · exact symNE_of p1 ((ihE s1 a p1.1).2 hNa)
            · exact symNE_of p1 ((ihE s1 b p1.1).2 hNb)
          | er e1 s1 => exact symNE_erE ((ihE s cnd hInv).2 hNc) h1
          | nf => trivial
    -- readCell
    · intro s c hInv
      simp only [readCell]
      split
      · exact ⟨sym_trackRead hInv c, trackRead_active s c⟩
      · rename_i e eg heq
        split
        · have hclen : c < s.cells.length := by
            by_contra hno
            rw [getCell, List.getD_eq_default s.cells default (Nat.le_of_not_lt hno)] at heq
            exact CellKind.noConfusion heq
          cases h1 : recompute f s c with
          | ok u s1 =>
            try dsimp only
            have p1 := symNE_okE (ihRC s c hInv hclen) h1
            exact ⟨sym_trackRead p1.1 c, (trackRead_active s1 c).trans p1.2⟩
          | er e1 s1 => exact symNE_erE (ihRC s c hInv hclen) h1
          | nf => trivial
        · exact ⟨sym_trackRead hInv c, trackRead_active s c⟩
    -- writeCell
    · intro s c v hInv
      simp only [writeCell]
      split
      · exact ⟨hInv, rfl⟩
      · split
        · exact ⟨hInv, rfl⟩
        · exact ⟨hInv, rfl⟩
        · have h1 : SymInv (setCell s c { getCell s c with value := v }) :=
            sym_setCell_keep hInv c { getCell s c with value := v } rfl rfl
              (fun x hx => hx) (Or.inr rfl) rfl rfl
          exact symRes_of ⟨h1, rfl⟩ (symNE_res (ihWN _ c _ h1))
    -- writeNotify
    · intro s c l hInv
      match l with
      | [] => exact ⟨hInv, rfl⟩
      | e :: rest =>
        simp only [writeNotify]
        split
        · have hre := sym_removeEffect hInv c e
          exact symNE_of ⟨hre, removeEffect_active s c e⟩ (ihWN _ c rest hre)
        · cases e with
          | marker m =>
            try dsimp only
            cases h1 : markDirty f s m with
            | ok u s1 =>
              try dsimp only
              have p1 := symNE_okE (ihM s m hInv) h1
              exact symNE_of p1 (ihWN s1 c rest p1.1)
            | er e1 s1 => exact (symNE_erE (ihM s m hInv) h1).elim
            | nf => trivial
          | eff j =>
            try dsimp only
            have hse := sym_scheduleEffect hInv (NodeId.eff j)
            exact symNE_of ⟨hse, scheduleEffect_active s _⟩ (ihWN _ c rest hse)
    -- markDirty
    · intro s c hInv
      simp only [markDirty]
      split
      · exact ⟨hInv, rfl⟩
      · have hs1 : SymInv (setCell s c { getCell s c with dirty := true }) :=
          sym_setCell_keep hInv c { getCell s c with dirty := true } rfl rfl
            (fun x hx => hx) (Or.inr rfl) rfl rfl
        split
        · rename_i hcond
          have hclen : c < s.cells.length := by
            by_contra hno
            have hcE : cellEager (getCell (setCell s c
                { getCell s c with dirty := true }) c) = true := by
              have h0 := hcond
              simp only [Bool.and_eq_true] at h0
              exact h0.1
            rw [getCell_setCell_split, if_neg (fun hp => hno hp.2)] at hcE
            rw [getCell, List.getD_eq_default s.cells default (Nat.le_of_not_lt hno)] at hcE
            exact absurd hcE (by decide)
          have hclen1 : c < (setCell s c { getCell s c with dirty := true }).cells.length := by
            rw [setCell_len]
            exact hclen
          cases h1 : recompute f (setCell s c { getCell s c with dirty := true }) c with
          | ok u s1 =>
            try dsimp only
            have p1 := symNE_okE (ihRC _ c hs1 hclen1) h1
            exact symNE_of ⟨p1.1, p1.2⟩ (ihML s1 c [] p1.1)
          | er e1 s1 => exact (symNE_erE (ihRC _ c hs1 hclen1) h1).elim
          | nf => trivial
        · exact symNE_of ⟨hs1, rfl⟩ (ihML _ c [] hs1)
    -- markDirtyLoop
    · intro s c vis hInv
      simp only [markDirtyLoop]
      split
      · exact ⟨hInv, rfl⟩
      · split
        · exact ihML s c _ hInv
        · rename_i e heq hne
          cases e with
          | marker m =>
            try dsimp only
            cases h1 : markDirty f s m with
            | ok u s1 =>
              try dsimp only
              have p1 := symNE_okE (ihM s m hInv) h1
              exact symNE_of p1 (ihML s1 c _ p1.1)
            | er e1 s1 => exact (symNE_erE (ihM s m hInv) h1).elim
            | nf => trivial
          | eff j =>
            try dsimp only
            have hse := sym_scheduleEffect hInv (NodeId.eff j)
            exact symNE_of ⟨hse, scheduleEffect_active s _⟩ (ihML _ c _ hse)
    -- recompute
    · intro s c hInv hclen
      simp only [recompute]
      split
      · exact ⟨hInv, rfl⟩
      · rename_i hic0
        have hic : (getCell s c).isComputing = false := by simpa using hic0
        have hRB := sym_recomputeBegin hInv c hclen hic
        have hNT : NoThrow (cellExpr (getCell (recomputeBegin s c) c)) = true :=
          cellExpr_nothrow _ (goodCell_getCell hRB.1.2.2.2 c).2
        cases h1 : evalExpr f (recomputeBegin s c)
            (cellExpr (getCell (recomputeBegin s c) c)) with
        | ok newV s5 =>
          try dsimp only
          have p5 := symNE_okE ((ihE _ _ hRB.1).2 hNT) h1
          have hact5 : s5.active = s.active ++ [NodeId.marker c] := p5.2.trans hRB.2
          have hnA : NodeId.marker c ∉ s.active := marker_not_active hInv hic
          have hclen5 : c < s5.cells.length := by
            have hp := resPres_ok ((presAll f).1 (recomputeBegin s c) _) h1
            rw [hp.1, recomputeBegin_cells_len]
            exact hclen
          cases h2 : hasChangedCheck (getCell s5 c) newV with
          | none =>
            exact absurd h2 (hcc_ne_none (goodCell_getCell p5.1.2.2.2 c).1 newV)
          | some hcB =>
            have hfin := sym_recomputeFinish p5.1 c newV hcB s.active hact5 hnA hclen5
            exact ⟨hfin.1, hfin.2⟩
        | er e1 s5 => exact (symNE_erE ((ihE _ _ hRB.1).2 hNT) h1).elim
        | nf => trivial
    -- runEffect
    · intro s j hInv
      simp only [runEffect]
      have hRB := sym_runEffectBegin hInv j
      cases h1 : runCmd f (runEffectBegin s j) (getEff (runEffectBegin s j) j).body with
      | ok u s3 =>
        have p3 := symRes_okE (ihC _ _ hRB.1) h1
        refine ⟨sym_popActive p3.1, ?_⟩
        show s3.active.dropLast = s.active
        rw [p3.2, hRB.2]
        simp
      | er e1 s3 =>
        have p3 := symRes_erE (ihC _ _ hRB.1) h1
        refine ⟨sym_popActive p3.1, ?_⟩
        show s3.active.dropLast = s.active
        rw [p3.2, hRB.2]
        simp
      | nf => trivial
    -- runNode
    · intro s n hInv
      cases n with
      | eff j => exact ihRE s j hInv
      | marker m => exact symNE_res (ihM s m hInv)
    -- flushLoop
    · intro s iters hInv
      simp only [flushLoop]
      split
      · exact ⟨hInv, rfl⟩
      · split
        · exact ⟨symInv_of_parts rfl rfl rfl hInv, rfl⟩
        · have hcp : SymInv (clearPending s) := symInv_of_parts rfl rfl rfl hInv
          cases h1 : flushRun f (clearPending s) s.pending with
          | ok u s2 =>
            try dsimp only
            have p2 := symRes_okE (ihFR _ _ hcp) h1
            exact symRes_of ⟨p2.1, p2.2⟩ (ihFL s2 (iters + 1) p2.1)
          | er e1 s2 =>
            have p2 := symRes_erE (ihFR _ _ hcp) h1
            exact ⟨p2.1, p2.2⟩
          | nf => trivial
    -- flushRun
    · intro s l hInv
      match l with
      | [] => exact ⟨hInv, rfl⟩
      | e :: rest =>
        simp only [flushRun]
        split
        · exact ihFR s rest hInv
        · cases h1 : runNode f s e with
          | ok u s1 =>
            try dsimp only
            have p1 := symRes_okE (ihRN s e hInv) h1
            exact symRes_of p1 (ihFR s1 rest p1.1)
          | er e1 s1 =>
            try dsimp only
            have p1 := symRes_erE (ihRN s e hInv) h1
            have hle : SymInv (logError s1) := symInv_of_parts rfl rfl rfl p1.1
            exact symRes_of ⟨hle, p1.2⟩ (ihFR _ rest hle)
          | nf => trivial
    -- flushEffects
    · intro s hInv
      simp only [flushEffects]
      cases h1 : flushLoop f s 0 with
      | ok u s1 =>
        have p1 := symRes_okE (ihFL s 0 hInv) h1
        exact ⟨symInv_of_parts rfl rfl rfl p1.1, p1.2⟩
      | er e1 s1 =>
        have p1 := symRes_erE (ihFL s 0 hInv) h1
        exact ⟨symInv_of_parts rfl rfl rfl p1.1, p1.2⟩
      | nf => trivial
    -- runCmd
    · intro s c hInv
      match c with
      | .skip => exact ⟨hInv, rfl⟩
      | .throwC => exact ⟨hInv, rfl⟩
      | .seq a b =>
        simp only [runCmd]
        cases h1 : runCmd f s a with
        | ok u s1 =>
          try dsimp only
          have p1 := symRes_okE (ihC s a hInv) h1
          exact symRes_of p1 (ihC s1 b p1.1)
        | er e1 s1 => exact symRes_erE (ihC s a hInv) h1
        | nf => trivial
      | .readC cc =>
        simp only [runCmd]
        cases h1 : readCell f s cc with
        | ok v s1 =>
          have p1 := symNE_okE (ihR s cc hInv) h1
          exact ⟨symInv_of_parts rfl rfl rfl p1.1, p1.2⟩
        | er e1 s1 => exact (symNE_erE (ihR s cc hInv) h1).elim
        | nf => trivial
      | .writeS cc e =>
        simp only [runCmd]
        cases h1 : evalExpr f s e with
        | ok v s1 =>
          try dsimp only
          have p1 := symRes_okE (ihE s e hInv).1 h1
          exact symRes_of p1 (ihW s1 cc v p1.1)
        | er e1 s1 => exact symRes_erE (ihE s e hInv).1 h1
        | nf => trivial
      | .batchC body =>
        simp only [runCmd]
        have hEB : SymInv (enterBatch s) := symInv_of_parts rfl rfl rfl hInv
        cases h1 : runCmd f (enterBatch s) body with
        | ok u s2 =>
          try dsimp only
          have p2 := symRes_okE (ihC _ _ hEB) h1
          have hXB : SymInv (exitBatch s2) := symInv_of_parts rfl rfl rfl p2.1
          split
          · cases h2 : flushEffects f (exitBatch s2) with
            | ok u2 s4 =>
              have p4 := symRes_okE (ihFE _ hXB) h2
              exact ⟨p4.1, p4.2.trans p2.2⟩
            | er e2 s4 =>
              have p4 := symRes_erE (ihFE _ hXB) h2
              exact ⟨p4.1, p4.2.trans p2.2⟩
            | nf => trivial
          · exact ⟨hXB, p2.2⟩
        | er e1 s2 =>
          try dsimp only
          have p2 := symRes_erE (ihC _ _ hEB) h1
          have hXB : SymInv (exitBatch s2) := symInv_of_parts rfl rfl rfl p2.1
          split
          · cases h2 : flushEffects f (exitBatch s2) with
            | ok u2 s4 =>
              have p4 := symRes_okE (ihFE _ hXB) h2
              exact ⟨p4.1, p4.2.trans p2.2⟩
            | er e2 s4 =>
              have p4 := symRes_erE (ihFE _ hXB) h2
              exact ⟨p4.1, p4.2.trans p2.2⟩
            | nf => trivial
          · exact ⟨hXB, p2.2⟩
        | nf => trivial

/-- Flipping an effect node's `disposed` flag touches no edge: the node's
`dependencies` set and every cell are untouched. -/
theorem sym_setEff_disposed {s : RState} (h : SymInv s) (i : Nat) (d : Bool) :
    SymInv (setEff s i { getEff s i with disposed := d }) := by
  obtain ⟨⟨h1, h2⟩, h3, h4, h5⟩ := h
  have hdep : ∀ j, (getEff (setEff s i { getEff s i with disposed := d }) j).dependencies
      = (getEff s j).dependencies := by
    intro j
    show ((s.effs.set i { getEff s i with disposed := d }).getD j default).dependencies
      = (getEff s j).dependencies
    rw [getD_set_split]
    by_cases hc : j = i ∧ i < s.effs.length
    · rw [if_pos hc, hc.1]
    · rw [if_neg hc]
      rfl
  refine ⟨⟨?_, ?_⟩, ?_, ?_, ?_⟩
  · intro c hcl j hjl
    rw [show (setEff s i { getEff s i with disposed := d }).effs.length = s.effs.length
      from List.length_set s.effs i _] at hjl
    unfold effEdge
    rw [hdep j]
    exact h1 c hcl j hjl
  · intro c hcl m hml
    exact h2 c hcl m hml
  · intro m hm hicm x hx
    exact h3 m hm hicm x hx
  · intro nd hnd
    exact h4 nd hnd
  · intro cl hm
    exact h5 cl hm

/-- `dispose()` (src/unnamed/part_002 lines 218-233) preserves the
invariant: it flips the `disposed` flag (no edge) and then removes the
node's edges two-sidedly, one `removeEffect` per cached dependency. -/
theorem sym_disposeEffect {s : RState} (h : SymInv s) (i : Nat) :
    SymInv (disposeEffect s i) := by
  unfold disposeEffect
  dsimp only
  exact sym_foldRemove _ _ (sym_setEff_disposed h i true)

/-- **C9 (amended).**  Edge symmetry (`cell ∈ node.dependencies ⇔ node ∈
cell.dependents`) is an invariant of every quiescent point — preserved by
every operation that touches edges: tracked reads, writes, effect runs and
re-tracking, computed recomputes, batches and flushes (on normal and
exceptional exit alike), `dispose`, `removeEffect`, and `addEffect` (for
ordinary effect nodes unconditionally; for marker nodes when the marker is
mid-recompute, which is the only way the code ever registers one — the
tracked-read path links the top of `activeEffects`) — **provided no compute
function can throw and no cell carries a throwing `equals`** (`GoodCells`,
folded into `SymInv` together with the auxiliary facts that make the
induction go through: a marker's collected dependencies stay recorded in
its computed's cached `sources` between recomputes, and markers on the
active stack are mid-recompute).  Under that proviso the compute-function
chain never throws: a tracked read cannot produce an exception at all.
Without the proviso the property is false — see the separate
counterexample, where an abandoned recompute of a throwing compute function
strands a one-sided edge. -/
theorem C9_edge_symmetry_invariant (f : Nat) (s : RState) (hInv : SymInv s) :
    (∀ (cmd : Cmd) (u : Unit) (s' : RState), runCmd f s cmd = .ok u s' →
      EdgeSym s' ∧ SymInv s') ∧
    (∀ (cmd : Cmd) (e : RErr) (s' : RState), runCmd f s cmd = .er e s' →
      EdgeSym s' ∧ SymInv s') ∧
    (∀ (u : Unit) (s' : RState), flushEffects f s = .ok u s' → EdgeSym s' ∧ SymInv s') ∧
    (∀ (e : RErr) (s' : RState), flushEffects f s = .er e s' → EdgeSym s' ∧ SymInv s') ∧
    (∀ (c v : Nat) (u : Unit) (s' : RState), writeCell f s c v = .ok u s' →
      EdgeSym s' ∧ SymInv s') ∧
    (∀ (c v : Nat) (s' : RState), readCell f s c = .ok v s' → EdgeSym s' ∧ SymInv s') ∧
    (∀ (c : Nat) (e : RErr) (s' : RState), readCell f s c ≠ .er e s') ∧
    (∀ (c : Nat) (n : NodeId), (∀ m, n = NodeId.marker m → (getCell s m).isComputing = true) →
      EdgeSym (addEffect s c n) ∧ SymInv (addEffect s c n)) ∧
    (∀ (c : Nat) (n : NodeId), EdgeSym (removeEffect s c n) ∧ SymInv (removeEffect s c n)) ∧
    (∀ (i : Nat), EdgeSym (disposeEffect s i) ∧ SymInv (disposeEffect s i)) := by
  have hA := symAll f
  refine ⟨?_, ?_, ?_, ?_, ?_, ?_, ?_, ?_, ?_, ?_⟩
  · intro cmd u s' h
    have hp := symRes_okE (hA.2.2.2.2.2.2.2.2.2.2.2.2 s cmd hInv) h
    exact ⟨hp.1.1, hp.1⟩
  · intro cmd e s' h
    have hp := symRes_erE (hA.2.2.2.2.2.2.2.2.2.2.2.2 s cmd hInv) h
    exact ⟨hp.1.1, hp.1⟩
  · intro u s' h
    have hp := symRes_okE (hA.2.2.2.2.2.2.2.2.2.2.2.1 s hInv) h
    exact ⟨hp.1.1, hp.1⟩
  · intro e s' h
    have hp := symRes_erE (hA.2.2.2.2.2.2.2.2.2.2.2.1 s hInv) h
    exact ⟨hp.1.1, hp.1⟩
  · intro c v u s' h
    have hp := symRes_okE (hA.2.2.1 s c v hInv) h
    exact ⟨hp.1.1, hp.1⟩
  · intro c v s' h
    have hp := symNE_okE (hA.2.1 s c hInv) h
    exact ⟨hp.1.1, hp.1⟩
  · intro c e s' h
    exact symNE_erE (hA.2.1 s c hInv) h
  · intro c n hn
    have hp := sym_addEffect hInv c n hn
    exact ⟨hp.1, hp⟩
  · intro c n
    have hp := sym_removeEffect hInv c n
    exact ⟨hp.1, hp⟩
  · intro i
    have hp := sym_disposeEffect hInv i
    exact ⟨hp.1, hp⟩

/-- The C9 witness state: two signals and one throw-free computed,
satisfying the invariant. -/
def c9w : RState :=
  mkState [mkSig 1, mkSig 5, mkComp (.add (.readE 0) (.const 1))]

/-- C9 witness: the amended invariant theorem applied to a concrete
throw-free state. -/
theorem C9_edge_symmetry_invariant_witness :
    (∀ (cmd : Cmd) (u : Unit) (s' : RState), runCmd 30 c9w cmd = .ok u s' →
      EdgeSym s' ∧ SymInv s') ∧
    (∀ (cmd : Cmd) (e : RErr) (s' : RState), runCmd 30 c9w cmd = .er e s' →
      EdgeSym s' ∧ SymInv s') ∧
    (∀ (u : Unit) (s' : RState), flushEffects 30 c9w = .ok u s' → EdgeSym s' ∧ SymInv s') ∧
    (∀ (e : RErr) (s' : RState), flushEffects 30 c9w = .er e s' → EdgeSym s' ∧ SymInv s') ∧
    (∀ (c v : Nat) (u : Unit) (s' : RState), writeCell 30 c9w c v = .ok u s' →
      EdgeSym s' ∧ SymInv s') ∧
    (∀ (c v : Nat) (s' : RState), readCell 30 c9w c = .ok v s' → EdgeSym s' ∧ SymInv s') ∧
    (∀ (c : Nat) (e : RErr) (s' : RState), readCell 30 c9w c ≠ .er e s') ∧
    (∀ (c : Nat) (n : NodeId),
      (∀ m, n = NodeId.marker m → (getCell c9w m).isComputing = true) →
      EdgeSym (addEffect c9w c n) ∧ SymInv (addEffect c9w c n)) ∧
    (∀ (c : Nat) (n : NodeId), EdgeSym (removeEffect c9w c n) ∧ SymInv (removeEffect c9w c n)) ∧
    (∀ (i : Nat), EdgeSym (disposeEffect c9w i) ∧ SymInv (disposeEffect c9w i)) :=
  C9_edge_symmetry_invariant 30 c9w (by decide)

/-!  ### C1: synchronous consistency across computed chains of arbitrary depth -/

theorem rstate_ext {a b : RState} (h1 : a.cells = b.cells) (h2 : a.effs = b.effs)
    (h3 : a.pending = b.pending) (h4 : a.isFlushing = b.isFlushing)
    (h5 : a.batchDepth = b.batchDepth) (h6 : a.active = b.active)
    (h7 : a.errLog = b.errLog) (h8 : a.readLog = b.readLog)
    (h9 : a.runCounts = b.runCounts) : a = b := by
  cases a
  cases b
  simp_all

theorem map_range_set (f g : Nat → Cell) (m j : Nat) (x : Cell) (hj : j < m)
    (hx : x = g j) (hagree : ∀ k, k < m → k ≠ j → f k = g k) :
    ((List.range m).map f).set j x = (List.range m).map g := by
  apply List.ext_getElem
  · simp
  · intro i h1 h2
    simp only [List.length_set, List.length_map, List.length_range] at h1 h2
    simp only [List.getElem_set, List.getElem_map, List.getElem_range]
    split
    · rename_i hij
      rw [hx, hij]
    · rename_i hij
      exact hagree i h2 (fun he => hij he.symm)

theorem getCell_cells_map {s : RState} {f : Nat → Cell} {m : Nat}
    (hc : s.cells = (List.range m).map f) (k : Nat) (hk : k < m) :
    getCell s k = f k := by
  rw [getCell, hc, List.getD_eq_getElem _ default (by simpa using hk)]
  simp

/-- The chain state: cell `0` is a signal holding `v`, cell `k` (for
`1 ≤ k ≤ n`) is the lazy computed `cell (k-1) + 1` holding the cached value
`w + k`, wired to its source through its sync marker, and dirty exactly when
`k ≤ j`. -/
def chc (v w n j k : Nat) : Cell :=
  if k = 0 then { mkSig v with effects := [.marker 1] }
  else
    { value := w + k, equals := .default,
      effects := if k = n then [] else [.marker (k + 1)],
      kind := .comp (.add (.readE (k - 1)) (.const 1)) false,
      dirty := decide (k ≤ j), isComputing := false,
      sources := [k - 1], markerDeps := [k - 1] }

def chainSt (v w n j : Nat) : RState := mkState ((List.range (n + 1)).map (chc v w n j))

/-- Mid-read cell states: recomputes of cells `top+1 … n` have begun (their
markers are unlinked and pushed), cells `1 … top` are still dirty awaiting
their turn (cell `top` already unlinked from above). -/
def rch (w ww n top k : Nat) : Cell :=
  if k = 0 then { mkSig ww with effects := if top = 0 then [] else [.marker 1] }
  else if k ≤ top then
    { value := w + k, equals := .default,
      effects := if k = top then [] else [.marker (k + 1)],
      kind := .comp (.add (.readE (k - 1)) (.const 1)) false,
      dirty := true, isComputing := false, sources := [k - 1], markerDeps := [k - 1] }
  else
    { value := w + k, equals := .default, effects := [],
      kind := .comp (.add (.readE (k - 1)) (.const 1)) false,
      dirty := true, isComputing := true, sources := [], markerDeps := [] }

/-- The active-marker stack while recomputes of cells `n, n-1, …, top+1` are
in progress (pushed in that order). -/
def actStackAux (n : Nat) : Nat → List NodeId
  | 0 => []
  | d + 1 => actStackAux n d ++ [NodeId.marker (n - d)]

def actStack (n top : Nat) : List NodeId := actStackAux n (n - top)

def readChain (w ww n top : Nat) : RState :=
  { mkState ((List.range (n + 1)).map (rch w ww n top)) with active := actStack n top }

/-- After `readCell top` completes mid-chain: cells `≤ top` are recomputed
to `ww + k` and re-wired, the marker of the enclosing recompute (cell
`top+1`, if any) has re-collected its dependency on cell `top`. -/
def pch (w ww n top k : Nat) : Cell :=
  if k = 0 then { mkSig ww with effects := [.marker 1] }
  else if k ≤ top then
    { value := ww + k, equals := .default,
      effects := if k = n then [] else [.marker (k + 1)],
      kind := .comp (.add (.readE (k - 1)) (.const 1)) false,
      dirty := false, isComputing := false, sources := [k - 1], markerDeps := [k - 1] }
  else if k = top + 1 then
    { value := w + k, equals := .default, effects := [],
      kind := .comp (.add (.readE (k - 1)) (.const 1)) false,
      dirty := true, isComputing := true, sources := [], markerDeps := [top] }
  else
    { value := w + k, equals := .default, effects := [],
      kind := .comp (.add (.readE (k - 1)) (.const 1)) false,
      dirty := true, isComputing := true, sources := [], markerDeps := [] }

def postChain (w ww n top : Nat) : RState :=
  { mkState ((List.range (n + 1)).map (pch w ww n top)) with active := actStack n top }

theorem actStack_self (n : Nat) : actStack n n = [] := by
  unfold actStack
  rw [Nat.sub_self]
  rfl

theorem actStack_lt (n top : Nat) (h : top < n) :
    actStack n top = actStack n (top + 1) ++ [NodeId.marker (top + 1)] := by
  unfold actStack
  have h1 : n - top = (n - (top + 1)) + 1 := by omega
  rw [h1]
  show actStackAux n (n - (top + 1)) ++ [NodeId.marker (n - (n - (top + 1)))] = _
  have h2 : n - (n - (top + 1)) = top + 1 := by omega
  rw [h2]

theorem actStack_getLast (n top : Nat) (h : top < n) :
    (actStack n top).getLast? = some (NodeId.marker (top + 1)) := by
  rw [actStack_lt n top h]
  simp

theorem getCell_chainSt (v w n j k : Nat) (hk : k < n + 1) :
    getCell (chainSt v w n j) k = chc v w n j k :=
  getCell_cells_map rfl k hk

theorem getCell_readChain (w ww n top k : Nat) (hk : k < n + 1) :
    getCell (readChain w ww n top) k = rch w ww n top k :=
  getCell_cells_map rfl k hk

theorem getCell_postChain (w ww n top k : Nat) (hk : k < n + 1) :
    getCell (postChain w ww n top) k = pch w ww n top k :=
  getCell_cells_map rfl k hk

theorem chainSt_cells_len (v w n j : Nat) : (chainSt v w n j).cells.length = n + 1 := by
  show ((List.range (n + 1)).map (chc v w n j)).length = n + 1
  simp

theorem readChain_cells_len (w ww n top : Nat) :
    (readChain w ww n top).cells.length = n + 1 := by
  show ((List.range (n + 1)).map (rch w ww n top)).length = n + 1
  simp

theorem postChain_cells_len (w ww n top : Nat) :
    (postChain w ww n top).cells.length = n + 1 := by
  show ((List.range (n + 1)).map (pch w ww n top)).length = n + 1
  simp

/-- Two-index version of `map_range_set`. -/
theorem map_range_set2 (f g : Nat → Cell) (m j1 j2 : Nat) (x1 x2 : Cell)
    (hj1 : j1 < m) (hj2 : j2 < m) (hne12 : j1 ≠ j2)
    (hx1 : x1 = g j1) (hx2 : x2 = g j2)
    (hagree : ∀ k, k < m → k ≠ j1 → k ≠ j2 → f k = g k) :
    (((List.range m).map f).set j1 x1).set j2 x2 = (List.range m).map g := by
  apply List.ext_getElem
  · simp
  · intro i h1 h2
    simp only [List.length_set, List.length_map, List.length_range] at h1 h2
    simp only [List.getElem_set, List.getElem_map, List.getElem_range]
    by_cases hA : j2 = i
    · rw [if_pos hA, hx2, hA]
    · rw [if_neg hA]
      by_cases hB : j1 = i
      · rw [if_pos hB, hx1, hB]
      · rw [if_neg hB]
        exact hagree i h2 (fun he => hB he.symm) (fun he => hA he.symm)

theorem chc_dirty_eq (ww w n k : Nat) (h1 : 1 ≤ k) :
    ({ chc ww w n (k - 1) k with dirty := true } : Cell) = chc ww w n k k := by
  have h0 : ¬ k = 0 := by omega
  simp only [chc, if_neg h0]
  rw [decide_eq_true (show k ≤ k from le_refl k)]

theorem chc_dirty_agree (ww w n k k' : Nat) (h1 : 1 ≤ k) (hne : k' ≠ k) :
    chc ww w n (k - 1) k' = chc ww w n k k' := by
  by_cases h0 : k' = 0
  · simp only [chc, if_pos h0]
  · simp only [chc, if_neg h0]
    rw [decide_eq_decide.mpr (show k' ≤ k - 1 ↔ k' ≤ k by omega)]

theorem chainSt_dirty_step (ww w n k : Nat) (h1 : 1 ≤ k) (h2 : k ≤ n) :
    setCell (chainSt ww w n (k - 1)) k
      { getCell (chainSt ww w n (k - 1)) k with dirty := true }
      = chainSt ww w n k := by
  apply rstate_ext <;> try rfl
  show ((List.range (n + 1)).map (chc ww w n (k - 1))).set k
      { getCell (chainSt ww w n (k - 1)) k with dirty := true }
      = (List.range (n + 1)).map (chc ww w n k)
  refine map_range_set (chc ww w n (k - 1)) (chc ww w n k) (n + 1) k _ (by omega) ?_ ?_
  · rw [getCell_chainSt ww w n (k - 1) k (by omega)]
    exact chc_dirty_eq ww w n k h1
  · intro k' _ hk'
    exact chc_dirty_agree ww w n k k' h1 hk'

theorem chc_effects_lt (v w n j k : Nat) (h1 : 1 ≤ k) (h2 : k < n) :
    (chc v w n j k).effects = [NodeId.marker (k + 1)] := by
  unfold chc
  rw [if_neg (by omega)]
  show (if k = n then [] else [NodeId.marker (k + 1)]) = [NodeId.marker (k + 1)]
  rw [if_neg (by omega)]

theorem chc_effects_n (v w n j : Nat) (h1 : 1 ≤ n) :
    (chc v w n j n).effects = [] := by
  unfold chc
  rw [if_neg (by omega)]
  show (if n = n then [] else [NodeId.marker (n + 1)]) = []
  rw [if_pos rfl]

theorem chc_dirty_false (v w n j k : Nat) (h1 : 1 ≤ k) (h2 : j < k) :
    (chc v w n j k).dirty = false := by
  unfold chc
  rw [if_neg (by omega)]
  show decide (k ≤ j) = false
  exact decide_eq_false (by omega)

theorem chc_eager (v w n j k : Nat) (h1 : 1 ≤ k) :
    cellEager (chc v w n j k) = false := by
  unfold chc
  rw [if_neg (by omega)]
  rfl

/-- The synchronous dirty sweep: invoking the marker of cell `k` while cells
`1 … k-1` are already dirty marks cells `k … n` dirty through the inline
marker chain, scheduling nothing and returning to the caller of the write. -/
theorem c1_markDirty (ww w n : Nat) :
    ∀ d k f, k + d = n → 1 ≤ k → 2 * d + 2 ≤ f →
      markDirty f (chainSt ww w n (k - 1)) k = .ok () (chainSt ww w n n) := by
  intro d
  induction d with
  | zero =>
    intro k f hk h1 hf
    have hkn : k = n := by omega
    obtain ⟨f', rfl⟩ : ∃ f', f = f' + 1 + 1 := ⟨f - 2, by omega⟩
    have hd0 : (getCell (chainSt ww w n (k - 1)) k).dirty = false := by
      rw [getCell_chainSt ww w n (k - 1) k (by omega)]
      exact chc_dirty_false ww w n (k - 1) k h1 (by omega)
    have hset := chainSt_dirty_step ww w n k h1 (by omega)
    have hlz : cellEager (getCell (setCell (chainSt ww w n (k - 1)) k
        { getCell (chainSt ww w n (k - 1)) k with dirty := true }) k) = false := by
      rw [hset, getCell_chainSt ww w n k k (by omega)]
      exact chc_eager ww w n k k h1
    rw [markDirty_clean_lazy (f' + 1) (chainSt ww w n (k - 1)) k hd0 hlz, hset]
    have he : ((getCell (chainSt ww w n k) k).effects.filter
        (fun e => e ∉ ([] : List NodeId))).head? = none := by
      rw [getCell_chainSt ww w n k k (by omega), hkn, chc_effects_n ww w n n (by omega)]
      rfl
    rw [markDirtyLoop_none f' (chainSt ww w n k) k [] he, hkn]
  | succ d ih =>
    intro k f hk h1 hf
    obtain ⟨f', rfl⟩ : ∃ f', f = f' + 1 + 1 := ⟨f - 2, by omega⟩
    have hd0 : (getCell (chainSt ww w n (k - 1)) k).dirty = false := by
      rw [getCell_chainSt ww w n (k - 1) k (by omega)]
      exact chc_dirty_false ww w n (k - 1) k h1 (by omega)
    have hset := chainSt_dirty_step ww w n k h1 (by omega)
    have hlz : cellEager (getCell (setCell (chainSt ww w n (k - 1)) k
        { getCell (chainSt ww w n (k - 1)) k with dirty := true }) k) = false := by
      rw [hset, getCell_chainSt ww w n k k (by omega)]
      exact chc_eager ww w n k k h1
    rw [markDirty_clean_lazy (f' + 1) (chainSt ww w n (k - 1)) k hd0 hlz, hset]
    have hh : ((getCell (chainSt ww w n k) k).effects.filter
        (fun e => e ∉ ([] : List NodeId))).head? = some (NodeId.marker (k + 1)) := by
      rw [getCell_chainSt ww w n k k (by omega), chc_effects_lt ww w n k k h1 (by omega)]
      rfl
    have hm : markDirty f' (chainSt ww w n k) (k + 1) = .ok () (chainSt ww w n n) := by
      have hrec := ih (k + 1) f' (by omega) (by omega) (by omega)
      simpa using hrec
    rw [markDirtyLoop_marker_ok f' (chainSt ww w n k) (chainSt ww w n n) k (k + 1) [] ()
      hh (by omega) hm]
    simp only [List.nil_append]
    obtain ⟨f'', rfl⟩ : ∃ f'', f' = f'' + 1 := ⟨f' - 1, by omega⟩
    have hh2 : ((getCell (chainSt ww w n n) k).effects.filter
        (fun e => e ∉ [NodeId.marker (k + 1)])).head? = none := by
      rw [getCell_chainSt ww w n n k (by omega), chc_effects_lt ww w n n k h1 (by omega)]
      simp
    rw [markDirtyLoop_none f'' (chainSt ww w n n) k [NodeId.marker (k + 1)] hh2]

theorem chainSt_write_set (w ww n : Nat) :
    setCell (chainSt w w n 0) 0 { getCell (chainSt w w n 0) 0 with value := ww }
      = chainSt ww w n 0 := by
  apply rstate_ext <;> try rfl
  show ((List.range (n + 1)).map (chc w w n 0)).set 0
      { getCell (chainSt w w n 0) 0 with value := ww }
      = (List.range (n + 1)).map (chc ww w n 0)
  refine map_range_set (chc w w n 0) (chc ww w n 0) (n + 1) 0 _ (by omega) ?_ ?_
  · rw [getCell_chainSt w w n 0 0 (by omega)]
    unfold chc
    rw [if_pos rfl, if_pos rfl]
    rfl
  · intro k' _ hk'
    unfold chc
    rw [if_neg hk', if_neg hk']

/-- Writing a fresh value to the root signal of a clean consistent chain
completes synchronously, leaving every computed in the chain dirty and
nothing pending. -/
theorem c1_write_prop (n w ww : Nat) (hn : 1 ≤ n) (hne : w ≠ ww) :
    ∀ f, 2 * n + 2 ≤ f →
      writeCell f (chainSt w w n 0) 0 ww = .ok () (chainSt ww w n n) := by
  intro f hf
  obtain ⟨f', rfl⟩ : ∃ f', f = f' + 1 + 1 + 1 := ⟨f - 3, by omega⟩
  have hk : (getCell (chainSt w w n 0) 0).kind = .sig := by
    rw [getCell_chainSt w w n 0 0 (by omega)]
    unfold chc
    rw [if_pos rfl]
    rfl
  rw [writeCell_sig (f' + 1 + 1) (chainSt w w n 0) 0 ww hk]
  have heq : (getCell (chainSt w w n 0) 0).equals.run (getCell (chainSt w w n 0) 0).value ww
      = some false := by
    rw [getCell_chainSt w w n 0 0 (by omega)]
    unfold chc
    rw [if_pos rfl]
    show EqPolicy.run .default w ww = some false
    simp only [EqPolicy.run, Option.some.injEq]
    exact beq_eq_false_iff_ne.mpr hne
  rw [heq]
  show writeNotify (f' + 1 + 1) (setCell (chainSt w w n 0) 0
      { getCell (chainSt w w n 0) 0 with value := ww }) 0
      (getCell (setCell (chainSt w w n 0) 0
        { getCell (chainSt w w n 0) 0 with value := ww }) 0).effects
      = .ok () (chainSt ww w n n)
  rw [chainSt_write_set w ww n]
  have he0 : (getCell (chainSt ww w n 0) 0).effects = [NodeId.marker 1] := by
    rw [getCell_chainSt ww w n 0 0 (by omega)]
    unfold chc
    rw [if_pos rfl]
  rw [he0]
  have hm : markDirty (f' + 1) (chainSt ww w n 0) 1 = .ok () (chainSt ww w n n) := by
    have hrec := c1_markDirty ww w n (n - 1) 1 (f' + 1) (by omega) (by omega) (by omega)
    simpa using hrec
  rw [writeNotify_marker_ok (f' + 1) (chainSt ww w n 0) (chainSt ww w n n) 0 1 [] () hm]
  exact writeNotify_nil f' (chainSt ww w n n) 0

theorem rch_agree (w ww n top i : Nat) (h1 : 1 ≤ top)
    (hA : ¬ i = top) (hB : ¬ i = top - 1) :
    rch w ww n top i = rch w ww n (top - 1) i := by
  unfold rch
  split_ifs <;> first | rfl | omega

/-- The cell of the computed whose recompute is about to start. -/
theorem rch_top_lit (w ww n top : Nat) (h1 : 1 ≤ top) :
    rch w ww n top top =
      { value := w + top, equals := .default, effects := [],
        kind := .comp (.add (.readE (top - 1)) (.const 1)) false,
        dirty := true, isComputing := false,
        sources := [top - 1], markerDeps := [top - 1] } := by
  unfold rch
  rw [if_neg (by omega), if_pos (le_refl top), if_pos (rfl : top = top)]

/-- Unlinking the marker of cell `top` from its source cell `top - 1`. -/
theorem rch_unlink (w ww n top : Nat) (h1 : 1 ≤ top) :
    ({ rch w ww n top (top - 1) with
        effects := eraseNode (rch w ww n top (top - 1)).effects (NodeId.marker top) } : Cell)
      = rch w ww n (top - 1) (top - 1) := by
  by_cases htop1 : top = 1
  · subst htop1
    simp [rch, eraseNode]
  · have hs : top - 1 + 1 = top := by omega
    unfold rch
    rw [hs]
    simp [eraseNode, show ¬ (top - 1 = 0) from by omega, show ¬ (top - 1 = top) from by omega,
      show top - 1 ≤ top from by omega]

theorem c1_begin (w ww n top : Nat) (h1 : 1 ≤ top) (h2 : top ≤ n) :
    recomputeBegin (readChain w ww n top) top = readChain w ww n (top - 1) := by
  have hlen : top < (readChain w ww n top).cells.length := by
    rw [readChain_cells_len]
    omega
  have hgtop : getCell (readChain w ww n top) top = rch w ww n top top :=
    getCell_readChain w ww n top top (by omega)
  have hsrcL : (getCell (setCell (readChain w ww n top) top
      { rch w ww n top top with isComputing := true }) top).sources = [top - 1] := by
    rw [getCell_setCell_split, if_pos ⟨rfl, hlen⟩, rch_top_lit w ww n top h1]
  have hs1m : getCell (setCell (readChain w ww n top) top
      { rch w ww n top top with isComputing := true }) (top - 1)
      = rch w ww n top (top - 1) := by
    rw [getCell_setCell_split, if_neg (fun hp => absurd hp.1 (show ¬ top - 1 = top from by omega))]
    exact getCell_readChain w ww n top (top - 1) (by omega)
  have hinner : getCell (setCell (setCell (readChain w ww n top) top
      { rch w ww n top top with isComputing := true }) (top - 1)
      { rch w ww n top (top - 1) with
          effects := eraseNode (rch w ww n top (top - 1)).effects (NodeId.marker top) }) top
      = { rch w ww n top top with isComputing := true } := by
    rw [getCell_setCell_split, if_neg (fun hp => absurd hp.1 (show ¬ top = top - 1 from by omega)),
      getCell_setCell_split, if_pos ⟨rfl, hlen⟩]
  have hlen2 : top < (setCell (setCell (readChain w ww n top) top
      { rch w ww n top top with isComputing := true }) (top - 1)
      { rch w ww n top (top - 1) with
          effects := eraseNode (rch w ww n top (top - 1)).effects (NodeId.marker top) }).cells.length := by
    show top < (((readChain w ww n top).cells.set top _).set (top - 1) _).length
    simp only [List.length_set]
    exact hlen
  have houter : getCell (setCell (setCell (setCell (readChain w ww n top) top
      { rch w ww n top top with isComputing := true }) (top - 1)
      { rch w ww n top (top - 1) with
          effects := eraseNode (rch w ww n top (top - 1)).effects (NodeId.marker top) }) top
      { { rch w ww n top top with isComputing := true } with
          markerDeps := eraseNat ({ rch w ww n top top with isComputing := true } : Cell).markerDeps (top - 1) }) top
      = { { rch w ww n top top with isComputing := true } with
          markerDeps := eraseNat ({ rch w ww n top top with isComputing := true } : Cell).markerDeps (top - 1) } := by
    rw [getCell_setCell_split, if_pos ⟨rfl, hlen2⟩]
  have hZ : ({ { { rch w ww n top top with isComputing := true } with
        markerDeps := eraseNat ({ rch w ww n top top with isComputing := true } : Cell).markerDeps (top - 1) } with
        sources := [], markerDeps := [] } : Cell) = rch w ww n (top - 1) top := by
    rw [rch_top_lit w ww n top h1]
    unfold rch
    rw [if_neg (show ¬ top = 0 from by omega), if_neg (show ¬ top ≤ top - 1 from by omega)]
  have hE := rch_unlink w ww n top h1
  simp only [recomputeBegin]
  rw [hgtop]
  unfold removeSources
  rw [hsrcL]
  simp only [List.foldl_cons, List.foldl_nil]
  simp only [removeEffect, setNodeDeps, nodeDeps]
  rw [hs1m, hinner, houter]
  apply rstate_ext <;> try rfl
  · show ((((((List.range (n + 1)).map (rch w ww n top)).set top _).set (top - 1) _).set top _).set top _ : List Cell)
        = (List.range (n + 1)).map (rch w ww n (top - 1))
    apply List.ext_getElem
    · simp only [List.length_set, List.length_map, List.length_range]
    · intro i hA hB
      simp only [List.length_map, List.length_range] at hB
      simp only [List.getElem_set, List.getElem_map, List.getElem_range]
      by_cases hi : top = i
      · simp only [if_pos hi]
        rw [← hi]
        exact hZ
      · simp only [if_neg hi]
        by_cases hj : top - 1 = i
        · simp only [if_pos hj]
          rw [← hj]
          exact hE
        · simp only [if_neg hj]
          exact rch_agree w ww n top i h1 (fun he => hi he.symm) (fun he => hj he.symm)
  · show actStack n top ++ [NodeId.marker top] = actStack n (top - 1)
    rw [actStack_lt n (top - 1) (by omega), show top - 1 + 1 = top from by omega]

theorem setCell_setCell (s : RState) (c : Nat) (a b : Cell) :
    setCell (setCell s c a) c b = setCell s c b := by
  apply rstate_ext <;> try rfl
  show (s.cells.set c a).set c b = s.cells.set c b
  exact List.set_set a b s.cells c

theorem finishRecompute_set (s : RState) (c : Nat) (cl : Cell) (hc : c < s.cells.length) :
    finishRecompute (setCell s c cl) c
      = setCell { s with active := s.active.dropLast } c { cl with isComputing := false } := by
  have hg : getCell { setCell s c cl with active := (setCell s c cl).active.dropLast } c = cl := by
    show (s.cells.set c cl).getD c default = cl
    rw [getD_set_split, if_pos ⟨rfl, hc⟩]
  simp only [finishRecompute]
  rw [hg]
  apply rstate_ext <;> try rfl
  show (s.cells.set c cl).set c { cl with isComputing := false }
      = s.cells.set c { cl with isComputing := false }
  exact List.set_set cl { cl with isComputing := false } s.cells c

theorem trackRead_none (s : RState) (c : Nat) (hlast : s.active.getLast? = none) :
    trackRead s c = s := by
  unfold trackRead
  rw [hlast]

theorem trackRead_set_marker (s : RState) (c m : Nat) (cl cm : Cell)
    (hlast : s.active.getLast? = some (NodeId.marker m))
    (hc : getCell s c = cl) (hm2 : getCell s m = cm) (hmc : ¬ m = c) :
    trackRead s c
      = setCell (setCell s c { cl with effects := insertNode cl.effects (NodeId.marker m) }) m
          { cm with markerDeps := insertNat cm.markerDeps c } := by
  unfold trackRead
  rw [hlast]
  show addEffect s c (NodeId.marker m) = _
  simp only [addEffect, setNodeDeps, nodeDeps]
  rw [hc, getCell_setCell_split, if_neg (fun hp => hmc hp.1), hm2]

/-- The cell of the computed whose recompute just returned (the enclosing
frame of the reader, still mid-recompute). -/
theorem pch_mid_lit (w ww n t : Nat) :
    pch w ww n t (t + 1) =
      { value := w + (t + 1), equals := .default, effects := [],
        kind := .comp (.add (.readE (t + 1 - 1)) (.const 1)) false,
        dirty := true, isComputing := true, sources := [], markerDeps := [t] } := by
  unfold pch
  rw [if_neg (show ¬ t + 1 = 0 from by omega), if_neg (show ¬ t + 1 ≤ t from by omega),
    if_pos (rfl : t + 1 = t + 1)]

theorem pch_deep_lit (w ww n t k : Nat) (hk : t + 1 < k) :
    pch w ww n t k =
      { value := w + k, equals := .default, effects := [],
        kind := .comp (.add (.readE (k - 1)) (.const 1)) false,
        dirty := true, isComputing := true, sources := [], markerDeps := [] } := by
  unfold pch
  rw [if_neg (show ¬ k = 0 from by omega), if_neg (show ¬ k ≤ t from by omega),
    if_neg (show ¬ k = t + 1 from by omega)]

theorem pch_agree (w ww n t i : Nat) (hA : ¬ i = t + 1) (hB : ¬ i = t + 2) :
    pch w ww n t i = pch w ww n (t + 1) i := by
  unfold pch
  split_ifs <;> first | rfl | omega

/-- The cached cell of the enclosing computed right after its compute
function stored the fresh value (recompute of cell `t + 1`, mid-finish). -/
def c1xp (w ww n t : Nat) : Cell := { pch w ww n t (t + 1) with value := ww + t + 1 }

def c1d7 (w ww n t : Nat) : Cell := { c1xp w ww n t with dirty := false }

def c1d8 (w ww n t : Nat) : Cell := { c1d7 w ww n t with sources := [t] }

def c1fin (w ww n t : Nat) : Cell := { c1d8 w ww n t with isComputing := false }

theorem c1xp_lit (w ww n t : Nat) :
    c1xp w ww n t =
      { value := ww + t + 1, equals := .default, effects := [],
        kind := .comp (.add (.readE (t + 1 - 1)) (.const 1)) false,
        dirty := true, isComputing := true, sources := [], markerDeps := [t] } := by
  unfold c1xp
  rw [pch_mid_lit w ww n t]

theorem c1d7_lit (w ww n t : Nat) :
    c1d7 w ww n t =
      { value := ww + t + 1, equals := .default, effects := [],
        kind := .comp (.add (.readE (t + 1 - 1)) (.const 1)) false,
        dirty := false, isComputing := true, sources := [], markerDeps := [t] } := by
  unfold c1d7
  rw [c1xp_lit w ww n t]

theorem c1d8_lit (w ww n t : Nat) :
    c1d8 w ww n t =
      { value := ww + t + 1, equals := .default, effects := [],
        kind := .comp (.add (.readE (t + 1 - 1)) (.const 1)) false,
        dirty := false, isComputing := true, sources := [t], markerDeps := [t] } := by
  unfold c1d8
  rw [c1d7_lit w ww n t]

theorem c1fin_lit (w ww n t : Nat) :
    c1fin w ww n t =
      { value := ww + t + 1, equals := .default, effects := [],
        kind := .comp (.add (.readE (t + 1 - 1)) (.const 1)) false,
        dirty := false, isComputing := false, sources := [t], markerDeps := [t] } := by
  unfold c1fin
  rw [c1d8_lit w ww n t]

/-- Finishing the recompute of cell `t + 1` with the fresh value, then the
tracked-read registration of the reader, lands exactly in the next
mid-read state. -/
theorem c1_finish (w ww n t : Nat) (hn : t + 1 ≤ n) :
    trackRead (recomputeFinish (postChain w ww n t) (t + 1) (ww + t + 1) true) (t + 1)
      = postChain w ww n (t + 1) := by
  have hlenP : t + 1 < (postChain w ww n t).cells.length := by
    rw [postChain_cells_len]
    omega
  have hPm : getCell (postChain w ww n t) (t + 1) = pch w ww n t (t + 1) :=
    getCell_postChain w ww n t (t + 1) (by omega)
  have hbig : recomputeFinish (postChain w ww n t) (t + 1) (ww + t + 1) true
      = finishRecompute (setCell (setCell (recomputeNotify (setCell (postChain w ww n t) (t + 1) { getCell (postChain w ww n t) (t + 1) with value := ww + t + 1 }) (t + 1) (getCell (setCell (postChain w ww n t) (t + 1) { getCell (postChain w ww n t) (t + 1) with value := ww + t + 1 }) (t + 1)).effects) (t + 1) { getCell (recomputeNotify (setCell (postChain w ww n t) (t + 1) { getCell (postChain w ww n t) (t + 1) with value := ww + t + 1 }) (t + 1) (getCell (setCell (postChain w ww n t) (t + 1) { getCell (postChain w ww n t) (t + 1) with value := ww + t + 1 }) (t + 1)).effects) (t + 1) with dirty := false }) (t + 1) { getCell (setCell (recomputeNotify (setCell (postChain w ww n t) (t + 1) { getCell (postChain w ww n t) (t + 1) with value := ww + t + 1 }) (t + 1) (getCell (setCell (postChain w ww n t) (t + 1) { getCell (postChain w ww n t) (t + 1) with value := ww + t + 1 }) (t + 1)).effects) (t + 1) { getCell (recomputeNotify (setCell (postChain w ww n t) (t + 1) { getCell (postChain w ww n t) (t + 1) with value := ww + t + 1 }) (t + 1) (getCell (setCell (postChain w ww n t) (t + 1) { getCell (postChain w ww n t) (t + 1) with value := ww + t + 1 }) (t + 1)).effects) (t + 1) with dirty := false }) (t + 1) with sources := copyAll (getCell (setCell (recomputeNotify (setCell (postChain w ww n t) (t + 1) { getCell (postChain w ww n t) (t + 1) with value := ww + t + 1 }) (t + 1) (getCell (setCell (postChain w ww n t) (t + 1) { getCell (postChain w ww n t) (t + 1) with value := ww + t + 1 }) (t + 1)).effects) (t + 1) { getCell (recomputeNotify (setCell (postChain w ww n t) (t + 1) { getCell (postChain w ww n t) (t + 1) with value := ww + t + 1 }) (t + 1) (getCell (setCell (postChain w ww n t) (t + 1) { getCell (postChain w ww n t) (t + 1) with value := ww + t + 1 }) (t + 1)).effects) (t + 1) with dirty := false }) (t + 1)).sources (getCell (setCell (recomputeNotify (setCell (postChain w ww n t) (t + 1) { getCell (postChain w ww n t) (t + 1) with value := ww + t + 1 }) (t + 1) (getCell (setCell (postChain w ww n t) (t + 1) { getCell (postChain w ww n t) (t + 1) with value := ww + t + 1 }) (t + 1)).effects) (t + 1) { getCell (recomputeNotify (setCell (postChain w ww n t) (t + 1) { getCell (postChain w ww n t) (t + 1) with value := ww + t + 1 }) (t + 1) (getCell (setCell (postChain w ww n t) (t + 1) { getCell (postChain w ww n t) (t + 1) with value := ww + t + 1 }) (t + 1)).effects) (t + 1) with dirty := false }) (t + 1)).markerDeps }) (t + 1) := rfl
  have hxp : ({ pch w ww n t (t + 1) with value := ww + t + 1 } : Cell) = c1xp w ww n t := rfl
  have heff : (getCell (setCell (postChain w ww n t) (t + 1) (c1xp w ww n t)) (t + 1)).effects
      = [] := by
    rw [getCell_setCell_split, if_pos ⟨rfl, hlenP⟩, c1xp_lit w ww n t]
  have h6 : recomputeNotify (setCell (postChain w ww n t) (t + 1) (c1xp w ww n t)) (t + 1)
      (getCell (setCell (postChain w ww n t) (t + 1) (c1xp w ww n t)) (t + 1)).effects
      = setCell (postChain w ww n t) (t + 1) (c1xp w ww n t) := by
    rw [heff]
    rfl
  have hg1 : getCell (setCell (postChain w ww n t) (t + 1) (c1xp w ww n t)) (t + 1)
      = c1xp w ww n t := by
    rw [getCell_setCell_split, if_pos ⟨rfl, hlenP⟩]
  have hd7 : ({ c1xp w ww n t with dirty := false } : Cell) = c1d7 w ww n t := rfl
  have hlen2 : t + 1 < (setCell (postChain w ww n t) (t + 1) (c1xp w ww n t)).cells.length := by
    show t + 1 < ((postChain w ww n t).cells.set (t + 1) (c1xp w ww n t)).length
    rw [List.length_set]
    exact hlenP
  have hg2 : getCell (setCell (setCell (postChain w ww n t) (t + 1) (c1xp w ww n t)) (t + 1)
      (c1d7 w ww n t)) (t + 1) = c1d7 w ww n t := by
    rw [getCell_setCell_split, if_pos ⟨rfl, hlen2⟩]
  have hcopy : copyAll (c1d7 w ww n t).sources (c1d7 w ww n t).markerDeps = [t] := by
    rw [c1d7_lit w ww n t]
    rfl
  have hd8 : ({ c1d7 w ww n t with sources := [t] } : Cell) = c1d8 w ww n t := rfl
  have hfin : ({ c1d8 w ww n t with isComputing := false } : Cell) = c1fin w ww n t := rfl
  have hdrop : ((postChain w ww n t).active).dropLast = actStack n (t + 1) := by
    show (actStack n t).dropLast = actStack n (t + 1)
    rw [actStack_lt n t (by omega)]
    simp
  rw [hbig, hPm, hxp, h6, hg1, hd7, hg2, hcopy, hd8]
  simp only [setCell_setCell]
  rw [finishRecompute_set (postChain w ww n t) (t + 1) (c1d8 w ww n t) hlenP, hfin]
  by_cases hcase : t + 1 = n
  · have hgetA : (setCell { postChain w ww n t with
        active := (postChain w ww n t).active.dropLast } (t + 1)
        (c1fin w ww n t)).active.getLast? = none := by
      show ((postChain w ww n t).active.dropLast).getLast? = none
      rw [hdrop, hcase, actStack_self]
      rfl
    rw [trackRead_none _ (t + 1) hgetA]
    have hxA : c1fin w ww n t = pch w ww n (t + 1) (t + 1) := by
      rw [c1fin_lit w ww n t]
      unfold pch
      rw [if_neg (show ¬ t + 1 = 0 from by omega), if_pos (le_refl (t + 1)), if_pos hcase]
      rfl
    apply rstate_ext <;> try rfl
    · show (((List.range (n + 1)).map (pch w ww n t)).set (t + 1) _ : List Cell)
          = (List.range (n + 1)).map (pch w ww n (t + 1))
      refine map_range_set _ _ (n + 1) (t + 1) _ (by omega) hxA ?_
      intro k hk hkne
      exact pch_agree w ww n t k hkne (by omega)
    · show (postChain w ww n t).active.dropLast = actStack n (t + 1)
      exact hdrop
  · have hgetB : (setCell { postChain w ww n t with
        active := (postChain w ww n t).active.dropLast } (t + 1)
        (c1fin w ww n t)).active.getLast? = some (NodeId.marker (t + 2)) := by
      show ((postChain w ww n t).active.dropLast).getLast? = some (NodeId.marker (t + 2))
      rw [hdrop, actStack_getLast n (t + 1) (by omega)]
    have hcl : getCell (setCell { postChain w ww n t with
        active := (postChain w ww n t).active.dropLast } (t + 1)
        (c1fin w ww n t)) (t + 1) = c1fin w ww n t := by
      rw [getCell_setCell_split, if_pos ⟨rfl, hlenP⟩]
    have hm2 : getCell (setCell { postChain w ww n t with
        active := (postChain w ww n t).active.dropLast } (t + 1)
        (c1fin w ww n t)) (t + 2) = pch w ww n t (t + 2) := by
      rw [getCell_setCell_split,
        if_neg (fun hp => absurd hp.1 (show ¬ t + 2 = t + 1 from by omega))]
      exact getCell_cells_map rfl (t + 2) (by omega)
    rw [trackRead_set_marker (setCell { postChain w ww n t with
        active := (postChain w ww n t).active.dropLast } (t + 1)
        (c1fin w ww n t)) (t + 1) (t + 2) (c1fin w ww n t) (pch w ww n t (t + 2))
      hgetB hcl hm2 (by omega)]
    rw [setCell_setCell]
    have hxB : ({ c1fin w ww n t with
        effects := insertNode (c1fin w ww n t).effects (NodeId.marker (t + 2)) } : Cell)
        = pch w ww n (t + 1) (t + 1) := by
      rw [c1fin_lit w ww n t]
      unfold pch
      rw [if_neg (show ¬ t + 1 = 0 from by omega), if_pos (le_refl (t + 1)), if_neg hcase]
      rfl
    have hy : ({ pch w ww n t (t + 2) with
        markerDeps := insertNat (pch w ww n t (t + 2)).markerDeps (t + 1) } : Cell)
        = pch w ww n (t + 1) (t + 2) := by
      rw [pch_deep_lit w ww n t (t + 2) (by omega)]
      unfold pch
      rw [if_neg (show ¬ t + 2 = 0 from by omega), if_neg (show ¬ t + 2 ≤ t + 1 from by omega),
        if_pos (show t + 2 = t + 1 + 1 from by omega)]
      rfl
    apply rstate_ext <;> try rfl
    · show ((((List.range (n + 1)).map (pch w ww n t)).set (t + 1) _).set (t + 2) _ : List Cell)
          = (List.range (n + 1)).map (pch w ww n (t + 1))
      refine map_range_set2 _ _ (n + 1) (t + 1) (t + 2) _ _ (by omega) (by omega) (by omega)
        hxB hy ?_
      intro k hk hk1 hk2
      exact pch_agree w ww n t k hk1 hk2
    · show (postChain w ww n t).active.dropLast = actStack n (t + 1)
      exact hdrop

/-- The tracked read at the bottom of the chain: the signal registers the
innermost recomputing marker. -/
theorem c1_track0 (w ww n : Nat) (hn : 1 ≤ n) :
    trackRead (readChain w ww n 0) 0 = postChain w ww n 0 := by
  have hlast : (readChain w ww n 0).active.getLast? = some (NodeId.marker 1) := by
    show (actStack n 0).getLast? = some (NodeId.marker 1)
    have h := actStack_getLast n 0 (by omega)
    simpa using h
  have hc0 : getCell (readChain w ww n 0) 0 = rch w ww n 0 0 :=
    getCell_readChain w ww n 0 0 (by omega)
  have hc1 : getCell (readChain w ww n 0) 1 = rch w ww n 0 1 :=
    getCell_readChain w ww n 0 1 (by omega)
  rw [trackRead_set_marker (readChain w ww n 0) 0 1 (rch w ww n 0 0) (rch w ww n 0 1)
    hlast hc0 hc1 (by omega)]
  apply rstate_ext <;> try rfl
  · show ((((List.range (n + 1)).map (rch w ww n 0)).set 0 _).set 1 _ : List Cell)
        = (List.range (n + 1)).map (pch w ww n 0)
    refine map_range_set2 _ _ (n + 1) 0 1 _ _ (by omega) (by omega) (by omega) ?_ ?_ ?_
    · rfl
    · rfl
    · intro k hk h0 h1
      unfold rch pch
      split_ifs <;> first | rfl | omega

/-- Reading the chain mid-state at depth `top` recomputes cells `top, …, 1`
recursively from the fresh signal value before returning. -/
theorem c1_read_prop (w ww n : Nat) (hn : 1 ≤ n) :
    ∀ top, top ≤ n → ∀ f, 4 * top + 1 ≤ f →
      readCell f (readChain w ww n top) top = .ok (ww + top) (postChain w ww n top) := by
  intro top
  induction top with
  | zero =>
    intro _ f hf
    obtain ⟨g, rfl⟩ : ∃ g, f = g + 1 := ⟨f - 1, by omega⟩
    have hk : (getCell (readChain w ww n 0) 0).kind = .sig := by
      rw [getCell_readChain w ww n 0 0 (by omega)]
      rfl
    rw [readCell_sig g (readChain w ww n 0) 0 hk, c1_track0 w ww n hn]
    have hv : (getCell (postChain w ww n 0) 0).value = ww + 0 := by
      rw [getCell_postChain w ww n 0 0 (by omega)]
      rfl
    rw [hv]
  | succ t ih =>
    intro htop f hf
    obtain ⟨g, rfl⟩ : ∃ g, f = g + 1 + 1 + 1 + 1 := ⟨f - 4, by omega⟩
    have hBe : recomputeBegin (readChain w ww n (t + 1)) (t + 1) = readChain w ww n t := by
      have h := c1_begin w ww n (t + 1) (by omega) htop
      simpa using h
    have hread : evalExpr (g + 1) (readChain w ww n t) (.readE t)
        = .ok (ww + t) (postChain w ww n t) := by
      rw [evalExpr_read g (readChain w ww n t) t]
      exact ih (by omega) g (by omega)
    have hconst : evalExpr (g + 1) (postChain w ww n t) (.const 1)
        = .ok 1 (postChain w ww n t) :=
      evalExpr_const g (postChain w ww n t) 1
    have hadd : evalExpr (g + 1 + 1) (readChain w ww n t) (.add (.readE t) (.const 1))
        = .ok (ww + t + 1) (postChain w ww n t) :=
      evalExpr_add_ok (g + 1) (readChain w ww n t) (postChain w ww n t) (postChain w ww n t)
        (.readE t) (.const 1) (ww + t) 1 hread hconst
    have hexpr : cellExpr (getCell (readChain w ww n t) (t + 1)) = .add (.readE t) (.const 1) := by
      rw [getCell_readChain w ww n t (t + 1) (by omega)]
      unfold rch
      rw [if_neg (show ¬ t + 1 = 0 from by omega), if_neg (show ¬ t + 1 ≤ t from by omega)]
      rfl
    have hev : evalExpr (g + 1 + 1) (recomputeBegin (readChain w ww n (t + 1)) (t + 1))
        (cellExpr (getCell (recomputeBegin (readChain w ww n (t + 1)) (t + 1)) (t + 1)))
        = .ok (ww + t + 1) (postChain w ww n t) := by
      rw [hBe, hexpr]
      exact hadd
    have hic : (getCell (readChain w ww n (t + 1)) (t + 1)).isComputing = false := by
      rw [getCell_readChain w ww n (t + 1) (t + 1) (by omega),
        rch_top_lit w ww n (t + 1) (by omega)]
    have hcc : hasChangedCheck (getCell (postChain w ww n t) (t + 1)) (ww + t + 1)
        = some true := by
      rw [getCell_postChain w ww n t (t + 1) (by omega), pch_mid_lit w ww n t]
      rfl
    have hrc : recompute (g + 1 + 1 + 1) (readChain w ww n (t + 1)) (t + 1)
        = .ok () (recomputeFinish (postChain w ww n t) (t + 1) (ww + t + 1) true) :=
      recompute_step_ok (g + 1 + 1) (readChain w ww n (t + 1)) (postChain w ww n t) (t + 1)
        (ww + t + 1) true hic hev hcc
    have hkind : (getCell (readChain w ww n (t + 1)) (t + 1)).kind
        = .comp (.add (.readE (t + 1 - 1)) (.const 1)) false := by
      rw [getCell_readChain w ww n (t + 1) (t + 1) (by omega),
        rch_top_lit w ww n (t + 1) (by omega)]
    have hdirty : (getCell (readChain w ww n (t + 1)) (t + 1)).dirty = true := by
      rw [getCell_readChain w ww n (t + 1) (t + 1) (by omega),
        rch_top_lit w ww n (t + 1) (by omega)]
    rw [readCell_comp_dirty_ok (g + 1 + 1 + 1) (readChain w ww n (t + 1))
      (recomputeFinish (postChain w ww n t) (t + 1) (ww + t + 1) true) (t + 1)
      (.add (.readE (t + 1 - 1)) (.const 1)) false () hkind hdirty hrc]
    rw [c1_finish w ww n t htop]
    have hv : (getCell (postChain w ww n (t + 1)) (t + 1)).value = ww + (t + 1) := by
      rw [getCell_postChain w ww n (t + 1) (t + 1) (by omega)]
      unfold pch
      rw [if_neg (show ¬ t + 1 = 0 from by omega), if_pos (le_refl (t + 1))]
    rw [hv]

/-- After the write, the fully dirty chain is exactly the starting state of
the read phase (nothing mid-recompute, empty active stack). -/
theorem chainSt_readChain (w ww n : Nat) (hn : 1 ≤ n) :
    chainSt ww w n n = readChain w ww n n := by
  apply rstate_ext <;> try rfl
  · show (List.range (n + 1)).map (chc ww w n n) = (List.range (n + 1)).map (rch w ww n n)
    apply List.ext_getElem
    · simp
    · intro i h1 h2
      simp only [List.length_map, List.length_range] at h2
      simp only [List.getElem_map, List.getElem_range]
      by_cases h0 : i = 0
      · subst h0
        unfold chc rch
        rw [if_pos rfl, if_pos rfl, if_neg (show ¬ n = 0 from by omega)]
      · unfold chc rch
        rw [if_neg h0, if_neg h0, if_pos (show i ≤ n from by omega),
          decide_eq_true (show i ≤ n from by omega)]
  · show ([] : List NodeId) = actStack n n
    exact (actStack_self n).symm

/-- After the read completes, the chain is exactly the clean consistent
chain at the new base value. -/
theorem postChain_chainSt (w ww n : Nat) (hn : 1 ≤ n) :
    postChain w ww n n = chainSt ww ww n 0 := by
  apply rstate_ext <;> try rfl
  · show (List.range (n + 1)).map (pch w ww n n) = (List.range (n + 1)).map (chc ww ww n 0)
    apply List.ext_getElem
    · simp
    · intro i h1 h2
      simp only [List.length_map, List.length_range] at h2
      simp only [List.getElem_map, List.getElem_range]
      by_cases h0 : i = 0
      · subst h0
        unfold pch chc
        rw [if_pos rfl, if_pos rfl]
      · unfold pch chc
        rw [if_neg h0, if_neg h0, if_pos (show i ≤ n from by omega),
          decide_eq_false (show ¬ i ≤ 0 from by omega)]
  · show actStack n n = ([] : List NodeId)
    exact actStack_self n

/-- **C1.**  Synchronous consistency across computed chains of arbitrary
depth (`Signal.set value`, src/core/signal.ts lines 34-59, and
`Computed.markDirtyEffect`, src/core/computed.ts lines 168-197).
`chainSt v w n j` is the depth-`n` chain: cell `0` a plain signal, cell `k`
the lazy computed `cell (k-1) + 1`, each wired to the next through its
sync-tagged marker node.  Writing a fresh value `ww` to the root signal of
the clean consistent chain `chainSt w w n 0` returns synchronously having
invoked the markers inline: every computed in the chain is dirty afterwards
and the scheduler's pending set is empty — no flush is involved or needed.
A subsequent read of the deepest computed — still before any flush —
recomputes the whole chain from fresh sources and returns `ww + n`, the
value consistent with the most recent write, leaving the chain exactly in
the clean consistent state over the new base value.  This holds for every
depth `n ≥ 1` (given fuel proportional to the depth). -/
theorem C1_synchronous_chain_consistency (n w ww f g : Nat)
    (hn : 1 ≤ n) (hne : w ≠ ww) (hf : 2 * n + 2 ≤ f) (hg : 4 * n + 1 ≤ g) :
    writeCell f (chainSt w w n 0) 0 ww = .ok () (chainSt ww w n n) ∧
    (∀ k, k ≤ n → 1 ≤ k → (getCell (chainSt ww w n n) k).dirty = true) ∧
    (chainSt ww w n n).pending = [] ∧
    readCell g (chainSt ww w n n) n = .ok (ww + n) (chainSt ww ww n 0) := by
  refine ⟨c1_write_prop n w ww hn hne f hf, ?_, rfl, ?_⟩
  · intro k hk h1
    rw [getCell_chainSt ww w n n k (by omega)]
    unfold chc
    rw [if_neg (show ¬ k = 0 from by omega)]
    show decide (k ≤ n) = true
    exact decide_eq_true hk
  · rw [chainSt_readChain w ww n hn, c1_read_prop w ww n hn n (le_refl n) g hg,
      postChain_chainSt w ww n hn]

/-- Concrete instance of C1: the depth-2 chain `s0 = 1`, `c1 = s0 + 1`,
`c2 = c1 + 1`; write `5` to `s0`, then read `c2` before any flush. -/
theorem C1_synchronous_chain_consistency_witness :
    1 ≤ 2 ∧ (1 : Nat) ≠ 5 ∧ 2 * 2 + 2 ≤ 7 ∧ 4 * 2 + 1 ≤ 9 ∧
    (writeCell 7 (chainSt 1 1 2 0) 0 5 = .ok () (chainSt 5 1 2 2) ∧
     (∀ k, k ≤ 2 → 1 ≤ k → (getCell (chainSt 5 1 2 2) k).dirty = true) ∧
     (chainSt 5 1 2 2).pending = [] ∧
     readCell 9 (chainSt 5 1 2 2) 2 = .ok (5 + 2) (chainSt 5 5 2 0)) :=
  ⟨by decide, by decide, by decide, by decide,
    C1_synchronous_chain_consistency 2 1 5 7 9 (by decide) (by decide) (by decide) (by decide)⟩

end STS
